import Mathlib

/-!
# bnxt: queue-set allocation, bring-up and id clearing of `sys/dev/bnxt/if_bnxt.c`

A shallow embedding of the soft-queue setup and teardown, the device attach,
the bring-up / bring-down routines, `bnxt_clear_ids`, the multicast filter,
the interrupt enable / disable routines and the link monitor of the bnxt
driver.

* The device context `struct bnxt_softc` is a record that is passed through
  every operation.  Arrays hanging off the context are a pair of the address
  held in the pointer and the elements stored behind it.
* Kernel memory (`malloc`/`free`, `iflib_dma_alloc`/`iflib_dma_free`) is a
  record of the live buffers together with the trace of requests.  Whether a
  request succeeds is decided by the environment.
* The firmware command channel is a log of the commands issued; the reply to
  each command (status, handle, link data) is decided by the environment.
* Taking and releasing the lock of the command channel, assignments to Link
  Info, link state notifications and doorbell writes are recorded, in the
  order in which they happen, in a list of events.
* The structure declarations live in `bnxt.h`, which is not part of the source
  file.  A field written through a `(uint16_t)` cast in the source holds the
  value reduced modulo `2 ^ 16`; every other integer field is a natural number,
  `ring_mask`, `raw_cons` and `filter_id` (which receive `- 1`) are integers.
-/

namespace Bnxt

/-! ## Constants of the headers -/

/-- Values of the macros and object sizes that `if_bnxt.c` takes from
`bnxt.h`, `hsi_struct_def.h` and the system headers. -/
structure bnxt_defs where
  HWRM_NA_SIGNATURE : Nat
  PAGE_SIZE : Nat
  BNXT_MAX_MC_ADDRS : Nat
  ETHER_ADDR_LEN : Nat
  BNXT_TSO_SIZE : Nat
  HWRM_CFA_L2_SET_RX_MASK_INPUT_MASK_BCAST : Nat
  HWRM_CFA_L2_SET_RX_MASK_INPUT_MASK_MCAST : Nat
  HWRM_CFA_L2_SET_RX_MASK_INPUT_MASK_ALL_MCAST : Nat
  BNXT_VNIC_FLAG_DEFAULT : Nat
  sizeof_bnxt_cp_ring : Nat
  sizeof_bnxt_tx_ring : Nat
  sizeof_bnxt_rx_ring : Nat
  sizeof_bnxt_grp_info : Nat
  sizeof_bnxt_vnic_info : Nat
  sizeof_ctx_hw_stats : Nat
  sizeof_cmpl_base : Nat

/-- The errno value `ENOMEM` of the system headers. -/
def ENOMEM : Nat := 12

/-- The errno value `ENXIO` of the system headers. -/
def ENXIO : Nat := 6

/-- The errno value `EDOOFUS` of the system headers. -/
def EDOOFUS : Nat := 88

/-- The interface flag `IFF_DRV_RUNNING` of `net/if.h`. -/
def IFF_DRV_RUNNING : Nat := 0x40

/-- The link state `LINK_STATE_DOWN` of `net/if.h`. -/
def LINK_STATE_DOWN : Nat := 1

/-- The link state `LINK_STATE_UP` of `net/if.h`. -/
def LINK_STATE_UP : Nat := 2

/-- Values of the macros of `bnxt.h`, `hsi_struct_def.h` and `sys/endian.h`
that the link monitor uses. -/
structure bnxt_link_defs where
  BNXT_LINK_LINK : Nat
  HWRM_PORT_PHY_QCFG_OUTPUT_PHY_ADDR_MASK : Nat
  BNXT_LINK_DUPLEX_FULL : Nat
  BNXT_LINK_PAUSE_TX : Nat
  BNXT_LINK_PAUSE_RX : Nat
  BNXT_LINK_PAUSE_BOTH : Nat
  BNXT_AUTONEG_SPEED : Nat
  BNXT_AUTONEG_FLOW_CTRL : Nat
  /-- The macro `BNXT_AUTO_MODE(mode)`. -/
  BNXT_AUTO_MODE : Nat → Bool
  BNXT_LINK_SPEED_100MB : Nat
  BNXT_LINK_SPEED_1GB : Nat
  BNXT_LINK_SPEED_2_5GB : Nat
  BNXT_LINK_SPEED_10GB : Nat
  BNXT_LINK_SPEED_20GB : Nat
  BNXT_LINK_SPEED_25GB : Nat
  BNXT_LINK_SPEED_40GB : Nat
  BNXT_LINK_SPEED_50GB : Nat
  /-- The conversion `le16toh` of a 16-bit word of the reply. -/
  le16toh : Nat → Nat
  /-- The conversion `le32toh` of a 32-bit word of the reply. -/
  le32toh : Nat → Nat

/-- Values of the media words of `net/if_media.h`. -/
structure ifmedia_defs where
  IFM_AVALID : Nat
  IFM_ACTIVE : Nat
  IFM_ETHER : Nat
  IFM_FDX : Nat
  IFM_HDX : Nat
  IFM_100_TX : Nat
  IFM_1000_T : Nat
  IFM_2500_SX : Nat
  IFM_10G_T : Nat
  IFM_20G_KR2 : Nat
  IFM_25G_CR : Nat
  IFM_40G_CR4 : Nat
  IFM_50G_CR2 : Nat
  IFM_ETH_RXPAUSE : Nat
  IFM_ETH_TXPAUSE : Nat

/-- The cast `(uint16_t)x`. -/
def u16 (x : Nat) : Nat := x % 2 ^ 16

/-! ## Data model -/

/-- The record `struct bnxt_ring`. -/
structure bnxt_ring where
  phys_id : Nat
  /-- The back reference `ring.softc`: whether it points at the device context. -/
  softc : Bool
  id : Nat
  doorbell : Nat
  ring_size : Nat
  ring_mask : Int
  vaddr : Nat
  paddr : Nat
  deriving DecidableEq, Repr, Inhabited

/-- The record `struct bnxt_cp_ring`. -/
structure bnxt_cp_ring where
  ring : bnxt_ring
  raw_cons : Int
  stats_ctx_id : Nat
  deriving DecidableEq, Repr, Inhabited

/-- The record `struct bnxt_tx_ring`. -/
structure bnxt_tx_ring where
  ring : bnxt_ring
  prod : Nat
  deriving DecidableEq, Repr, Inhabited

/-- The record `struct bnxt_rx_ring`. -/
structure bnxt_rx_ring where
  ring : bnxt_ring
  prod : Nat
  deriving DecidableEq, Repr, Inhabited

/-- The record `struct bnxt_grp_info`. -/
structure bnxt_grp_info where
  grp_id : Nat
  stats_ctx : Nat
  rx_ring_id : Nat
  ag_ring_id : Nat
  cp_ring_id : Nat
  deriving DecidableEq, Repr, Inhabited

/-- The record `struct iflib_dma_info`: a DMA buffer given by its virtual and
physical address and its size.  `idi_vaddr = 0` means that no buffer is held. -/
structure iflib_dma_info where
  idi_vaddr : Nat
  idi_paddr : Nat
  idi_size : Nat
  deriving DecidableEq, Repr, Inhabited

/-- The record `struct bnxt_vnic_info`. -/
structure bnxt_vnic_info where
  id : Nat
  flow_id : Nat
  filter_id : Int
  ring_grp : Nat
  rss_rule : Nat
  cos_rule : Nat
  lb_rule : Nat
  ctx_id : Nat
  mru : Nat
  rx_mask : Nat
  mc_list_count : Nat
  mc_list_size : Nat
  flags : Nat
  mc_list : iflib_dma_info
  deriving DecidableEq, Repr, Inhabited

/-- The fields of `struct hwrm_port_phy_qcfg_output`, the reply to the link
query, that the driver reads. -/
structure hwrm_port_phy_qcfg_output where
  link : Nat
  link_speed : Nat
  duplex : Nat
  pause : Nat
  support_speeds : Nat
  force_link_speed : Nat
  auto_mode : Nat
  auto_pause : Nat
  auto_link_speed : Nat
  auto_link_speed_mask : Nat
  force_pause : Nat
  preemphasis : Nat
  phy_maj : Nat
  phy_min : Nat
  phy_bld : Nat
  media_type : Nat
  xcvr_pkg_type : Nat
  eee_config_phy_addr : Nat
  deriving DecidableEq, Repr, Inhabited

/-- The record `struct bnxt_link_info`; `phy_ver0`, `phy_ver1` and `phy_ver2`
are the three elements of the array `phy_ver`. -/
structure bnxt_link_info where
  phy_qcfg_resp : hwrm_port_phy_qcfg_output
  phy_link_status : Nat
  duplex : Nat
  pause : Nat
  auto_mode : Nat
  auto_pause : Nat
  force_pause : Nat
  duplex_setting : Nat
  link_speed : Nat
  force_link_speed : Nat
  auto_link_speed : Nat
  support_speeds : Nat
  auto_link_speeds : Nat
  preemphasis : Nat
  phy_ver0 : Nat
  phy_ver1 : Nat
  phy_ver2 : Nat
  media_type : Nat
  transceiver : Nat
  phy_addr : Nat
  link_up : Nat
  autoneg : Nat
  req_flow_ctrl : Nat
  req_duplex : Nat
  req_link_speed : Nat
  advertising : Nat
  deriving DecidableEq, Repr, Inhabited

/-- The names of the fields of `struct bnxt_link_info`. -/
inductive link_field where
  | phy_qcfg_resp
  | phy_link_status
  | duplex
  | pause
  | auto_mode
  | auto_pause
  | force_pause
  | duplex_setting
  | link_speed
  | force_link_speed
  | auto_link_speed
  | support_speeds
  | auto_link_speeds
  | preemphasis
  | phy_ver0
  | phy_ver1
  | phy_ver2
  | media_type
  | transceiver
  | phy_addr
  | link_up
  | autoneg
  | req_flow_ctrl
  | req_duplex
  | req_link_speed
  | advertising
  deriving DecidableEq, Repr, Inhabited

/-- What the driver does to the host besides memory requests and firmware
commands, in the order in which it does it: taking and releasing the lock of
the command channel, writing a field of Link Info, notifying iflib of a link
state, and writing the doorbell of a completion ring (to arm it, or with the
disable encoding). -/
inductive bnxt_event where
  | hwrm_lock
  | hwrm_unlock
  | link_write (field : link_field)
  | link_state_change (link_state : Nat)
  | cp_arm_db (ring : bnxt_ring) (cons : Int)
  | cp_disable_db (ring : bnxt_ring) (cons : Int)
  deriving DecidableEq, Repr, Inhabited

/-- The record `struct ifmediareq`, reduced to the two words that
`bnxt_media_status` fills in. -/
structure ifmediareq where
  ifm_status : Nat
  ifm_active : Nat
  deriving DecidableEq, Repr, Inhabited

/-- A pointer to a `malloc`ed array: the address held in the pointer
(`0` is `NULL`) and the elements stored behind it. -/
structure karray (α : Type) where
  addr : Nat
  elems : List α
  deriving DecidableEq, Repr, Inhabited

/-- The read `a[i]`; an index outside the array reads a zeroed element. -/
def karray.at {α : Type} [Inhabited α] (a : karray α) (i : Nat) : α :=
  (a.elems[i]?).getD default

/-- The in-place update of `a[i]`. -/
def karray.upd {α : Type} [Inhabited α] (a : karray α) (i : Nat) (f : α → α) : karray α :=
  { a with elems := a.elems.set i (f (a.at i)) }

/-- The ring type argument of `bnxt_hwrm_ring_alloc`
(`HWRM_RING_ALLOC_INPUT_RING_TYPE_*`). -/
inductive ring_type where
  | CMPL
  | TX
  | RX
  deriving DecidableEq, Repr, Inhabited

/-- A firmware command as the driver issues it: the helper called, with a
snapshot of the arguments it is passed. -/
inductive hwrm_cmd where
  | ver_get
  | func_drv_rgtr
  | func_drv_unrgtr (shutdown : Bool)
  | func_qcaps
  | queue_qportcfg
  | func_reset
  | stat_ctx_alloc (cpr : bnxt_cp_ring) (paddr : Nat)
  | ring_alloc (type : ring_type) (ring : bnxt_ring) (cmpl_ring_id : Nat)
      (stat_ctx_id : Nat) (irq : Bool)
  | ring_grp_alloc (grp : bnxt_grp_info)
  | vnic_alloc (vnic : bnxt_vnic_info)
  | vnic_ctx_alloc (vnic : bnxt_vnic_info)
  | vnic_cfg (vnic : bnxt_vnic_info)
  | set_filter (vnic : bnxt_vnic_info)
  | cfa_l2_set_rx_mask (vnic : bnxt_vnic_info)
  | port_phy_qcfg
  deriving DecidableEq, Repr, Inhabited

/-- A request to the kernel memory allocator or its release. -/
inductive kmem_event where
  | alloc (addr : Nat) (size : Nat)
  | free (addr : Nat)
  deriving DecidableEq, Repr, Inhabited

/-- Kernel memory: the number of requests made so far, the live buffers
(latest first) and the trace of successful allocations and of releases. -/
structure kmem where
  nreq : Nat
  live : List Nat
  trace : List kmem_event
  deriving DecidableEq, Repr, Inhabited

/-- The record `struct bnxt_bar_info`, reduced to the mapped resource
(`0` is `NULL`). -/
structure bnxt_bar_info where
  res : Nat
  rid : Nat
  deriving DecidableEq, Repr, Inhabited

/-- The fields of `if_softc_ctx` that the driver reads or writes. -/
structure if_softc_ctx where
  isc_nrxqsets : Nat
  isc_ntxqsets : Nat
  isc_max_frame_size : Nat
  isc_tx_nsegments : Nat
  isc_tx_tso_segments_max : Nat
  isc_tx_tso_size_max : Nat
  isc_tx_tso_segsize_max : Nat
  isc_vectors : Nat
  isc_msix_bar : Nat
  deriving DecidableEq, Repr, Inhabited

/-- The fields of `if_shared_ctx` that the driver reads. -/
structure if_shared_ctx where
  isc_ntxd : Nat
  isc_nrxd : Nat
  deriving DecidableEq, Repr, Inhabited

/-- What the environment decides: the outcome of every memory request, of
every bus resource request and of every firmware command. -/
structure bnxt_env where
  /-- Status of the `n`-th memory request (`0` is success). -/
  alloc_rc : Nat → Nat
  /-- Bus address of the DMA buffer at a virtual address. -/
  dma_paddr : Nat → Nat
  /-- Resource returned by `bus_alloc_resource_any` for a BAR, shareable or
  not (`0` is `NULL`). -/
  bar_res : Nat → Bool → Nat
  /-- Value of `pci_msix_table_bar`. -/
  msix_table_bar : Nat
  /-- Status in the reply to the `n`-th firmware command (`0` is success). -/
  hwrm_rc : Nat → Nat
  /-- Handle or value carried by the reply to the `n`-th firmware command. -/
  hwrm_id : Nat → Nat
  /-- Reply to the `n`-th firmware command when it is a link query. -/
  phy_qcfg : Nat → hwrm_port_phy_qcfg_output
  /-- The link-layer multicast addresses the interface is a member of, each
  given by its bytes. -/
  if_multiaddrs : List (List Nat)

/-- The device context `struct bnxt_softc`, together with the parts of the
host that the driver acts on through it. -/
structure bnxt_softc where
  hwrm_bar : bnxt_bar_info
  doorbell_bar : bnxt_bar_info
  busmaster : Bool
  hwrm_lock_init : Bool
  hwrm_cmd_resp : iflib_dma_info
  pf_max_cp_rings : Nat
  mac_set : Bool
  scctx : if_softc_ctx
  sctx : if_shared_ctx
  def_cp_ring : bnxt_cp_ring
  def_cp_ring_mem : iflib_dma_info
  tx_cp_rings : karray bnxt_cp_ring
  tx_rings : karray bnxt_tx_ring
  tx_stats : iflib_dma_info
  ntxqsets : Nat
  rx_cp_rings : karray bnxt_cp_ring
  rx_rings : karray bnxt_rx_ring
  ag_rings : karray bnxt_rx_ring
  grp_info : karray bnxt_grp_info
  vnic_info : karray bnxt_vnic_info
  rx_stats : iflib_dma_info
  nrxqsets : Nat
  /-- The flags `ifp->if_drv_flags` of the interface. -/
  if_drv_flags : Nat
  /-- The IRQs registered for the default and the receive completion rings. -/
  irqs : List Nat
  mem : kmem
  hwrm_log : List hwrm_cmd
  link_info : bnxt_link_info
  /-- The bytes behind the address of a DMA buffer. -/
  dma_bytes : List (Nat × List Nat)
  events : List bnxt_event
  deriving Repr, Inhabited

/-! ## Loops -/

/-- The loop `for (i = 0; i < n; i++) body(i)`. -/
def for_loop {σ : Type} (body : Nat → σ → σ) : Nat → σ → σ
  | 0, s => s
  | n + 1, s => body n (for_loop body n s)

/-- The loop `for (i = 0; i < n; i++) { rc = body(i); if (rc) goto fail; }`:
the status, the value of `i` when the loop is left, and the state. -/
def for_rc {σ : Type} (body : Nat → σ → Nat × σ) : Nat → σ → Nat × Nat × σ
  | 0, s => (0, 0, s)
  | n + 1, s =>
    let r := for_rc body n s
    if r.1 = 0 then
      let b := body n r.2.2
      if b.1 = 0 then (0, n + 1, b.2) else (b.1, n, b.2)
    else r

/-- The loop `for (i = k - 1; i >= 0; i--) body(i)`. -/
def for_down {σ : Type} (body : Nat → σ → σ) : Nat → σ → σ
  | 0, s => s
  | k + 1, s => for_down body k (body k s)

/-! ## Kernel memory -/

/-- The call `malloc(size, M_DEVBUF, M_NOWAIT | M_ZERO)`: the address (`0`
when the request fails) and the memory after it. -/
def malloc (env : bnxt_env) (size : Nat) (m : kmem) : Nat × kmem :=
  if env.alloc_rc m.nreq = 0 then
    (m.nreq + 1,
      { nreq := m.nreq + 1, live := (m.nreq + 1) :: m.live,
        trace := m.trace ++ [kmem_event.alloc (m.nreq + 1) size] })
  else (0, { m with nreq := m.nreq + 1 })

/-- The call `free(addr, M_DEVBUF)`; `free(NULL)` does nothing. -/
def free (addr : Nat) (m : kmem) : kmem :=
  if addr = 0 then m
  else { m with live := m.live.erase addr, trace := m.trace ++ [kmem_event.free addr] }

/-- The call `iflib_dma_alloc(ctx, size, &dma, 0)`: the status, the DMA
descriptor and the memory after it.  A failed request leaves the descriptor
as it was. -/
def iflib_dma_alloc (env : bnxt_env) (size : Nat) (dma : iflib_dma_info) (m : kmem) :
    Nat × iflib_dma_info × kmem :=
  if env.alloc_rc m.nreq = 0 then
    (0, { idi_vaddr := m.nreq + 1, idi_paddr := env.dma_paddr (m.nreq + 1), idi_size := size },
      { nreq := m.nreq + 1, live := (m.nreq + 1) :: m.live,
        trace := m.trace ++ [kmem_event.alloc (m.nreq + 1) size] })
  else (env.alloc_rc m.nreq, dma, { m with nreq := m.nreq + 1 })

/-- The call `iflib_dma_free(&dma)`: releases the buffer, if one is held, and
clears the descriptor. -/
def iflib_dma_free (dma : iflib_dma_info) (m : kmem) : iflib_dma_info × kmem :=
  if dma.idi_vaddr = 0 then (dma, m)
  else ({ idi_vaddr := 0, idi_paddr := 0, idi_size := 0 }, free dma.idi_vaddr m)

/-! ## Firmware command channel -/

/-- Modelled from the spec: `_hwrm_send_message` of `bnxt_hwrm.c`, which is not
part of the source file.  The command is issued on the channel; the reply
carries a status and a handle. -/
def hwrm_send (env : bnxt_env) (cmd : hwrm_cmd) (s : bnxt_softc) : Nat × Nat × bnxt_softc :=
  (env.hwrm_rc s.hwrm_log.length, env.hwrm_id s.hwrm_log.length,
    { s with hwrm_log := s.hwrm_log ++ [cmd] })

/-- Modelled from the spec: `bnxt_hwrm_func_reset` of `bnxt_hwrm.c`, the full
device reset command. -/
def bnxt_hwrm_func_reset (env : bnxt_env) (s : bnxt_softc) : Nat × bnxt_softc :=
  let r := hwrm_send env hwrm_cmd.func_reset s
  (r.1, r.2.2)

/-- Modelled from the spec: `bnxt_hwrm_ver_get` of `bnxt_hwrm.c`. -/
def bnxt_hwrm_ver_get (env : bnxt_env) (s : bnxt_softc) : Nat × bnxt_softc :=
  let r := hwrm_send env hwrm_cmd.ver_get s
  (r.1, r.2.2)

/-- Modelled from the spec: `bnxt_hwrm_func_drv_rgtr` of `bnxt_hwrm.c`. -/
def bnxt_hwrm_func_drv_rgtr (env : bnxt_env) (s : bnxt_softc) : Nat × bnxt_softc :=
  let r := hwrm_send env hwrm_cmd.func_drv_rgtr s
  (r.1, r.2.2)

/-- Modelled from the spec: `bnxt_hwrm_func_drv_unrgtr` of `bnxt_hwrm.c`, the
driver-to-firmware de-registration. -/
def bnxt_hwrm_func_drv_unrgtr (env : bnxt_env) (shutdown : Bool) (s : bnxt_softc) :
    Nat × bnxt_softc :=
  let r := hwrm_send env (hwrm_cmd.func_drv_unrgtr shutdown) s
  (r.1, r.2.2)

/-- Modelled from the spec: `bnxt_hwrm_func_qcaps` of `bnxt_hwrm.c`, the
capability discovery; a successful reply fills in the function capabilities. -/
def bnxt_hwrm_func_qcaps (env : bnxt_env) (s : bnxt_softc) : Nat × bnxt_softc :=
  let r := hwrm_send env hwrm_cmd.func_qcaps s
  if r.1 = 0 then (0, { r.2.2 with pf_max_cp_rings := r.2.1 }) else (r.1, r.2.2)

/-- Modelled from the spec: `bnxt_hwrm_queue_qportcfg` of `bnxt_hwrm.c`. -/
def bnxt_hwrm_queue_qportcfg (env : bnxt_env) (s : bnxt_softc) : Nat × bnxt_softc :=
  let r := hwrm_send env hwrm_cmd.queue_qportcfg s
  (r.1, r.2.2)

/-- Modelled from the spec: `bnxt_hwrm_stat_ctx_alloc` of `bnxt_hwrm.c`.  A
successful reply binds the statistics-context handle of the completion ring. -/
def bnxt_hwrm_stat_ctx_alloc (env : bnxt_env) (cpr : bnxt_cp_ring) (paddr : Nat)
    (s : bnxt_softc) : Nat × bnxt_cp_ring × bnxt_softc :=
  let r := hwrm_send env (hwrm_cmd.stat_ctx_alloc cpr paddr) s
  if r.1 = 0 then (0, { cpr with stats_ctx_id := r.2.1 }, r.2.2) else (r.1, cpr, r.2.2)

/-- Modelled from the spec: `bnxt_hwrm_ring_alloc` of `bnxt_hwrm.c`.  A
successful reply binds the physical id of the ring. -/
def bnxt_hwrm_ring_alloc (env : bnxt_env) (type : ring_type) (ring : bnxt_ring)
    (cmpl_ring_id : Nat) (stat_ctx_id : Nat) (irq : Bool) (s : bnxt_softc) :
    Nat × bnxt_ring × bnxt_softc :=
  let r := hwrm_send env (hwrm_cmd.ring_alloc type ring cmpl_ring_id stat_ctx_id irq) s
  if r.1 = 0 then (0, { ring with phys_id := r.2.1 }, r.2.2) else (r.1, ring, r.2.2)

/-- Modelled from the spec: `bnxt_hwrm_ring_grp_alloc` of `bnxt_hwrm.c`.  A
successful reply binds the id of the ring group. -/
def bnxt_hwrm_ring_grp_alloc (env : bnxt_env) (grp : bnxt_grp_info) (s : bnxt_softc) :
    Nat × bnxt_grp_info × bnxt_softc :=
  let r := hwrm_send env (hwrm_cmd.ring_grp_alloc grp) s
  if r.1 = 0 then (0, { grp with grp_id := r.2.1 }, r.2.2) else (r.1, grp, r.2.2)

/-- Modelled from the spec: `bnxt_hwrm_vnic_alloc` of `bnxt_hwrm.c`.  A
successful reply binds the id of the VNIC. -/
def bnxt_hwrm_vnic_alloc (env : bnxt_env) (vnic : bnxt_vnic_info) (s : bnxt_softc) :
    Nat × bnxt_vnic_info × bnxt_softc :=
  let r := hwrm_send env (hwrm_cmd.vnic_alloc vnic) s
  if r.1 = 0 then (0, { vnic with id := r.2.1 }, r.2.2) else (r.1, vnic, r.2.2)

/-- Modelled from the spec: `bnxt_hwrm_vnic_ctx_alloc` of `bnxt_hwrm.c`.  A
successful reply binds the context id of the VNIC. -/
def bnxt_hwrm_vnic_ctx_alloc (env : bnxt_env) (vnic : bnxt_vnic_info) (s : bnxt_softc) :
    Nat × bnxt_vnic_info × bnxt_softc :=
  let r := hwrm_send env (hwrm_cmd.vnic_ctx_alloc vnic) s
  if r.1 = 0 then (0, { vnic with ctx_id := r.2.1 }, r.2.2) else (r.1, vnic, r.2.2)

/-- Modelled from the spec: `bnxt_hwrm_vnic_cfg` of `bnxt_hwrm.c`, which
configures the VNIC (MTU, ring-group binding). -/
def bnxt_hwrm_vnic_cfg (env : bnxt_env) (vnic : bnxt_vnic_info) (s : bnxt_softc) :
    Nat × bnxt_softc :=
  let r := hwrm_send env (hwrm_cmd.vnic_cfg vnic) s
  (r.1, r.2.2)

/-- Modelled from the spec: `bnxt_hwrm_set_filter` of `bnxt_hwrm.c`, which
installs the base L2 filter; a successful reply binds the filter id. -/
def bnxt_hwrm_set_filter (env : bnxt_env) (vnic : bnxt_vnic_info) (s : bnxt_softc) :
    Nat × bnxt_vnic_info × bnxt_softc :=
  let r := hwrm_send env (hwrm_cmd.set_filter vnic) s
  if r.1 = 0 then (0, { vnic with filter_id := (r.2.1 : Int) }, r.2.2) else (r.1, vnic, r.2.2)

/-- Modelled from the spec: `bnxt_alloc_hwrm_dma_mem` of `bnxt_hwrm.c`, which
allocates the DMA buffer of the command channel. -/
def bnxt_alloc_hwrm_dma_mem (K : bnxt_defs) (env : bnxt_env) (s : bnxt_softc) :
    Nat × bnxt_softc :=
  let d := iflib_dma_alloc env K.PAGE_SIZE s.hwrm_cmd_resp s.mem
  (d.1, { s with hwrm_cmd_resp := d.2.1, mem := d.2.2 })

/-- Modelled from the spec: `bnxt_free_hwrm_dma_mem` of `bnxt_hwrm.c`, which
releases the DMA buffer of the command channel. -/
def bnxt_free_hwrm_dma_mem (s : bnxt_softc) : bnxt_softc :=
  let d := iflib_dma_free s.hwrm_cmd_resp s.mem
  { s with hwrm_cmd_resp := d.1, mem := d.2 }

/-! ## `bnxt_clear_ids` -/

/-- The body of the first loop of `bnxt_clear_ids`. -/
def clear_ids_tx (K : bnxt_defs) (i : Nat) (s : bnxt_softc) : bnxt_softc :=
  let s := { s with tx_cp_rings := s.tx_cp_rings.upd i (fun c => { c with stats_ctx_id := K.HWRM_NA_SIGNATURE }) }
  let s := { s with tx_cp_rings := s.tx_cp_rings.upd i (fun c =>
      { c with ring := { c.ring with phys_id := u16 K.HWRM_NA_SIGNATURE } }) }
  { s with tx_rings := s.tx_rings.upd i (fun t =>
      { t with ring := { t.ring with phys_id := u16 K.HWRM_NA_SIGNATURE } }) }

/-- The body of the second loop of `bnxt_clear_ids`. -/
def clear_ids_rx (K : bnxt_defs) (i : Nat) (s : bnxt_softc) : bnxt_softc :=
  let s := { s with rx_cp_rings := s.rx_cp_rings.upd i (fun c => { c with stats_ctx_id := K.HWRM_NA_SIGNATURE }) }
  let s := { s with rx_cp_rings := s.rx_cp_rings.upd i (fun c =>
      { c with ring := { c.ring with phys_id := u16 K.HWRM_NA_SIGNATURE } }) }
  let s := { s with rx_rings := s.rx_rings.upd i (fun r =>
      { r with ring := { r.ring with phys_id := u16 K.HWRM_NA_SIGNATURE } }) }
  let s := { s with ag_rings := s.ag_rings.upd i (fun r =>
      { r with ring := { r.ring with phys_id := u16 K.HWRM_NA_SIGNATURE } }) }
  let s := { s with grp_info := s.grp_info.upd i (fun g => { g with grp_id := u16 K.HWRM_NA_SIGNATURE }) }
  let s := { s with vnic_info := s.vnic_info.upd i (fun v => { v with id := u16 K.HWRM_NA_SIGNATURE }) }
  { s with vnic_info := s.vnic_info.upd i (fun v => { v with ctx_id := u16 K.HWRM_NA_SIGNATURE }) }

/-- The function `bnxt_clear_ids`. -/
def bnxt_clear_ids (K : bnxt_defs) (s : bnxt_softc) : bnxt_softc :=
  let s := { s with def_cp_ring := { s.def_cp_ring with stats_ctx_id := K.HWRM_NA_SIGNATURE } }
  let s := { s with def_cp_ring :=
    { s.def_cp_ring with ring := { s.def_cp_ring.ring with phys_id := u16 K.HWRM_NA_SIGNATURE } } }
  let s := for_loop (clear_ids_tx K) s.ntxqsets s
  for_loop (clear_ids_rx K) s.nrxqsets s

/-! ## Soft queue setup and teardown -/

/-- The read `vaddrs[i]` (or `paddrs[i]`) of an address array passed by iflib. -/
def addr_at (a : List Nat) (i : Nat) : Nat := (a[i]?).getD 0

/-- What the loop of `bnxt_tx_queues_alloc` stores in `tx_cp_rings[i]`. -/
def tx_cp_ring_setup (K : bnxt_defs) (s : bnxt_softc) (vaddrs paddrs : List Nat)
    (ntxqs i : Nat) (c : bnxt_cp_ring) : bnxt_cp_ring :=
  let c := { c with stats_ctx_id := K.HWRM_NA_SIGNATURE }
  let c := { c with ring := { c.ring with phys_id := u16 K.HWRM_NA_SIGNATURE } }
  let c := { c with ring := { c.ring with softc := true } }
  let c := { c with ring := { c.ring with id := s.scctx.isc_nrxqsets * 2 + 1 + i } }
  let c := { c with ring := { c.ring with doorbell := c.ring.id * 0x80 } }
  let c := { c with ring := { c.ring with ring_size := s.sctx.isc_ntxd * 2 } }
  let c := { c with ring := { c.ring with ring_mask := (c.ring.ring_size : Int) - 1 } }
  let c := { c with ring := { c.ring with vaddr := addr_at vaddrs (i * ntxqs) } }
  { c with ring := { c.ring with paddr := addr_at paddrs (i * ntxqs) } }

/-- What the loop of `bnxt_tx_queues_alloc` stores in `tx_rings[i]`. -/
def tx_ring_setup (K : bnxt_defs) (s : bnxt_softc) (vaddrs paddrs : List Nat)
    (ntxqs i : Nat) (t : bnxt_tx_ring) : bnxt_tx_ring :=
  let t := { t with ring := { t.ring with phys_id := u16 K.HWRM_NA_SIGNATURE } }
  let t := { t with ring := { t.ring with softc := true } }
  let t := { t with ring := { t.ring with id := s.scctx.isc_nrxqsets * 2 + 1 + i } }
  let t := { t with ring := { t.ring with doorbell := t.ring.id * 0x80 } }
  let t := { t with ring := { t.ring with ring_size := s.sctx.isc_ntxd } }
  let t := { t with ring := { t.ring with ring_mask := (t.ring.ring_size : Int) - 1 } }
  let t := { t with prod := 0 }
  let t := { t with ring := { t.ring with vaddr := addr_at vaddrs (i * ntxqs + 1) } }
  { t with ring := { t.ring with paddr := addr_at paddrs (i * ntxqs + 1) } }

/-- The body of the loop of `bnxt_tx_queues_alloc`. -/
def tx_queues_body (K : bnxt_defs) (vaddrs paddrs : List Nat) (ntxqs : Nat) (i : Nat)
    (s : bnxt_softc) : bnxt_softc :=
  let s := { s with tx_cp_rings := s.tx_cp_rings.upd i (tx_cp_ring_setup K s vaddrs paddrs ntxqs i) }
  { s with tx_rings := s.tx_rings.upd i (tx_ring_setup K s vaddrs paddrs ntxqs i) }

/-- The label `cp_alloc_fail` of `bnxt_tx_queues_alloc`. -/
def tx_cp_alloc_fail (rc : Nat) (s : bnxt_softc) : Nat × bnxt_softc := (rc, s)

/-- The label `ring_alloc_fail` of `bnxt_tx_queues_alloc`. -/
def tx_ring_alloc_fail (rc : Nat) (s : bnxt_softc) : Nat × bnxt_softc :=
  tx_cp_alloc_fail rc { s with mem := free s.tx_cp_rings.addr s.mem }

/-- The label `dma_alloc_fail` of `bnxt_tx_queues_alloc`. -/
def tx_dma_alloc_fail (rc : Nat) (s : bnxt_softc) : Nat × bnxt_softc :=
  tx_ring_alloc_fail rc { s with mem := free s.tx_rings.addr s.mem }

/-- The array that `malloc(size * n, M_DEVBUF, M_NOWAIT | M_ZERO)` yields:
`n` zeroed elements behind the address, nothing behind `NULL`. -/
def zeroed_array {α : Type} [Inhabited α] (addr n : Nat) : karray α :=
  { addr := addr, elems := if addr = 0 then [] else List.replicate n default }

/-- The function `bnxt_tx_queues_alloc`: the status returned and the device
context after the call. -/
def bnxt_tx_queues_alloc (K : bnxt_defs) (env : bnxt_env) (vaddrs paddrs : List Nat)
    (ntxqs ntxqsets : Nat) (s : bnxt_softc) : Nat × bnxt_softc :=
  let a := malloc env (K.sizeof_bnxt_cp_ring * ntxqsets) s.mem
  let s := { s with tx_cp_rings := zeroed_array a.1 ntxqsets, mem := a.2 }
  if s.tx_cp_rings.addr = 0 then tx_cp_alloc_fail ENOMEM s
  else
    let a := malloc env (K.sizeof_bnxt_tx_ring * ntxqsets) s.mem
    let s := { s with tx_rings := zeroed_array a.1 ntxqsets, mem := a.2 }
    if s.tx_rings.addr = 0 then tx_ring_alloc_fail ENOMEM s
    else
      let d := iflib_dma_alloc env (K.sizeof_ctx_hw_stats * ntxqsets) s.tx_stats s.mem
      let s := { s with tx_stats := d.2.1, mem := d.2.2 }
      if d.1 ≠ 0 then tx_dma_alloc_fail d.1 s
      else
        let s := for_loop (tx_queues_body K vaddrs paddrs ntxqs) ntxqsets s
        let s := { s with ntxqsets := ntxqsets }
        (d.1, s)

/-- What the loop of `bnxt_rx_queues_alloc` stores in `rx_cp_rings[i]`. -/
def rx_cp_ring_setup (K : bnxt_defs) (s : bnxt_softc) (vaddrs paddrs : List Nat)
    (nrxqs i : Nat) (c : bnxt_cp_ring) : bnxt_cp_ring :=
  let c := { c with stats_ctx_id := K.HWRM_NA_SIGNATURE }
  let c := { c with ring := { c.ring with phys_id := u16 K.HWRM_NA_SIGNATURE } }
  let c := { c with ring := { c.ring with softc := true } }
  let c := { c with ring := { c.ring with id := i + 1 } }
  let c := { c with ring := { c.ring with doorbell := c.ring.id * 0x80 } }
  let c := { c with ring := { c.ring with ring_size := s.sctx.isc_nrxd * 2 } }
  let c := { c with ring := { c.ring with ring_mask := (c.ring.ring_size : Int) - 1 } }
  let c := { c with ring := { c.ring with vaddr := addr_at vaddrs (i * nrxqs) } }
  { c with ring := { c.ring with paddr := addr_at paddrs (i * nrxqs) } }

/-- What the loop of `bnxt_rx_queues_alloc` stores in `rx_rings[i]`. -/
def rx_ring_setup (K : bnxt_defs) (s : bnxt_softc) (vaddrs paddrs : List Nat)
    (nrxqs i : Nat) (r : bnxt_rx_ring) : bnxt_rx_ring :=
  let r := { r with ring := { r.ring with phys_id := u16 K.HWRM_NA_SIGNATURE } }
  let r := { r with ring := { r.ring with softc := true } }
  let r := { r with ring := { r.ring with id := i + 1 } }
  let r := { r with ring := { r.ring with doorbell := r.ring.id * 0x80 } }
  let r := { r with ring := { r.ring with ring_size := s.sctx.isc_nrxd } }
  let r := { r with ring := { r.ring with ring_mask := (r.ring.ring_size : Int) - 1 } }
  let r := { r with prod := 0 }
  let r := { r with ring := { r.ring with vaddr := addr_at vaddrs (i * nrxqs + 1) } }
  { r with ring := { r.ring with paddr := addr_at paddrs (i * nrxqs + 1) } }

/-- What the loop of `bnxt_rx_queues_alloc` stores in `ag_rings[i]`. -/
def ag_ring_setup (K : bnxt_defs) (s : bnxt_softc) (vaddrs paddrs : List Nat)
    (nrxqs nrxqsets i : Nat) (r : bnxt_rx_ring) : bnxt_rx_ring :=
  let r := { r with ring := { r.ring with phys_id := u16 K.HWRM_NA_SIGNATURE } }
  let r := { r with ring := { r.ring with softc := true } }
  let r := { r with ring := { r.ring with id := nrxqsets + i + 1 } }
  let r := { r with ring := { r.ring with doorbell := r.ring.id * 0x80 } }
  let r := { r with ring := { r.ring with ring_size := s.sctx.isc_nrxd } }
  let r := { r with ring := { r.ring with ring_mask := (r.ring.ring_size : Int) - 1 } }
  let r := { r with prod := 0 }
  let r := { r with ring := { r.ring with vaddr := addr_at vaddrs (i * nrxqs + 2) } }
  { r with ring := { r.ring with paddr := addr_at paddrs (i * nrxqs + 2) } }

/-- What the loop of `bnxt_rx_queues_alloc` stores in `grp_info[i]`. -/
def grp_info_setup (K : bnxt_defs) (s : bnxt_softc) (i : Nat) (g : bnxt_grp_info) :
    bnxt_grp_info :=
  let g := { g with grp_id := u16 K.HWRM_NA_SIGNATURE }
  let g := { g with stats_ctx := (s.rx_cp_rings.at i).stats_ctx_id }
  let g := { g with rx_ring_id := (s.rx_rings.at i).ring.phys_id }
  let g := { g with ag_ring_id := (s.ag_rings.at i).ring.phys_id }
  { g with cp_ring_id := (s.rx_cp_rings.at i).ring.phys_id }

/-- What the loop of `bnxt_rx_queues_alloc` stores in `vnic_info[i]` before it
allocates the multicast list. -/
def vnic_info_setup (K : bnxt_defs) (i : Nat) (v : bnxt_vnic_info) : bnxt_vnic_info :=
  let v := { v with id := u16 K.HWRM_NA_SIGNATURE }
  let v := { v with flow_id := u16 K.HWRM_NA_SIGNATURE }
  let v := { v with filter_id := -1 }
  let v := { v with ring_grp := u16 K.HWRM_NA_SIGNATURE }
  let v := { v with rss_rule := u16 K.HWRM_NA_SIGNATURE }
  let v := { v with cos_rule := u16 K.HWRM_NA_SIGNATURE }
  let v := { v with lb_rule := u16 K.HWRM_NA_SIGNATURE }
  let v := { v with ctx_id := u16 K.HWRM_NA_SIGNATURE }
  let v := { v with rx_mask := K.HWRM_CFA_L2_SET_RX_MASK_INPUT_MASK_BCAST }
  let v := { v with mc_list_count := 0 }
  let v := { v with mc_list_size := K.BNXT_MAX_MC_ADDRS * K.ETHER_ADDR_LEN }
  if i = 0 then { v with flags := K.BNXT_VNIC_FLAG_DEFAULT } else v

/-- The body of the loop of `bnxt_rx_queues_alloc`: the status of the
multicast-list allocation and the device context. -/
def rx_queues_body (K : bnxt_defs) (env : bnxt_env) (vaddrs paddrs : List Nat)
    (nrxqs nrxqsets : Nat) (i : Nat) (s : bnxt_softc) : Nat × bnxt_softc :=
  let s := { s with rx_cp_rings := s.rx_cp_rings.upd i (rx_cp_ring_setup K s vaddrs paddrs nrxqs i) }
  let s := { s with rx_rings := s.rx_rings.upd i (rx_ring_setup K s vaddrs paddrs nrxqs i) }
  let s := { s with ag_rings := s.ag_rings.upd i (ag_ring_setup K s vaddrs paddrs nrxqs nrxqsets i) }
  let s := { s with grp_info := s.grp_info.upd i (grp_info_setup K s i) }
  let s := { s with vnic_info := s.vnic_info.upd i (vnic_info_setup K i) }
  let d := iflib_dma_alloc env (s.vnic_info.at i).mc_list_size (s.vnic_info.at i).mc_list s.mem
  let s := { s with vnic_info := s.vnic_info.upd i (fun v => { v with mc_list := d.2.1 }), mem := d.2.2 }
  (d.1, s)

/-- The call `iflib_dma_free(&softc->vnic_info[i].mc_list)`. -/
def mc_list_free (i : Nat) (s : bnxt_softc) : bnxt_softc :=
  let d := iflib_dma_free (s.vnic_info.at i).mc_list s.mem
  { s with vnic_info := s.vnic_info.upd i (fun v => { v with mc_list := d.1 }), mem := d.2 }

/-- The label `cp_alloc_fail` of `bnxt_rx_queues_alloc`. -/
def rx_cp_alloc_fail (rc : Nat) (s : bnxt_softc) : Nat × bnxt_softc := (rc, s)

/-- The label `ring_alloc_fail` of `bnxt_rx_queues_alloc`. -/
def rx_ring_alloc_fail (rc : Nat) (s : bnxt_softc) : Nat × bnxt_softc :=
  rx_cp_alloc_fail rc { s with mem := free s.rx_cp_rings.addr s.mem }

/-- The label `ag_alloc_fail` of `bnxt_rx_queues_alloc`. -/
def rx_ag_alloc_fail (rc : Nat) (s : bnxt_softc) : Nat × bnxt_softc :=
  rx_ring_alloc_fail rc { s with mem := free s.rx_rings.addr s.mem }

/-- The label `grp_alloc_fail` of `bnxt_rx_queues_alloc`. -/
def rx_grp_alloc_fail (rc : Nat) (s : bnxt_softc) : Nat × bnxt_softc :=
  rx_ag_alloc_fail rc { s with mem := free s.ag_rings.addr s.mem }

/-- The label `vnic_alloc_fail` of `bnxt_rx_queues_alloc`. -/
def rx_vnic_alloc_fail (rc : Nat) (s : bnxt_softc) : Nat × bnxt_softc :=
  rx_grp_alloc_fail rc { s with mem := free s.grp_info.addr s.mem }

/-- The label `dma_alloc_fail` of `bnxt_rx_queues_alloc`. -/
def rx_dma_alloc_fail (rc : Nat) (s : bnxt_softc) : Nat × bnxt_softc :=
  rx_vnic_alloc_fail rc { s with mem := free s.vnic_info.addr s.mem }

/-- The label `mc_alloc_fail` of `bnxt_rx_queues_alloc`, entered after `i--`
with `k = i + 1`: the loop `for (; i >= 0; i--)` releases the multicast lists
of the queue-sets `k - 1` down to `0`. -/
def rx_mc_alloc_fail (rc : Nat) (k : Nat) (s : bnxt_softc) : Nat × bnxt_softc :=
  rx_dma_alloc_fail rc (for_down mc_list_free k s)

/-- The function `bnxt_rx_queues_alloc`: the status returned and the device
context after the call. -/
def bnxt_rx_queues_alloc (K : bnxt_defs) (env : bnxt_env) (vaddrs paddrs : List Nat)
    (nrxqs nrxqsets : Nat) (s : bnxt_softc) : Nat × bnxt_softc :=
  let a := malloc env (K.sizeof_bnxt_cp_ring * nrxqsets) s.mem
  let s := { s with rx_cp_rings := zeroed_array a.1 nrxqsets, mem := a.2 }
  if s.rx_cp_rings.addr = 0 then rx_cp_alloc_fail ENOMEM s
  else
    let a := malloc env (K.sizeof_bnxt_rx_ring * nrxqsets) s.mem
    let s := { s with rx_rings := zeroed_array a.1 nrxqsets, mem := a.2 }
    if s.rx_rings.addr = 0 then rx_ring_alloc_fail ENOMEM s
    else
      let a := malloc env (K.sizeof_bnxt_rx_ring * nrxqsets) s.mem
      let s := { s with ag_rings := zeroed_array a.1 nrxqsets, mem := a.2 }
      if s.ag_rings.addr = 0 then rx_ag_alloc_fail ENOMEM s
      else
        let a := malloc env (K.sizeof_bnxt_grp_info * nrxqsets) s.mem
        let s := { s with grp_info := zeroed_array a.1 nrxqsets, mem := a.2 }
        if s.grp_info.addr = 0 then rx_grp_alloc_fail ENOMEM s
        else
          let a := malloc env (K.sizeof_bnxt_vnic_info * nrxqsets) s.mem
          let s := { s with vnic_info := zeroed_array a.1 nrxqsets, mem := a.2 }
          if s.vnic_info.addr = 0 then rx_vnic_alloc_fail ENOMEM s
          else
            let d := iflib_dma_alloc env (K.sizeof_ctx_hw_stats * nrxqsets) s.rx_stats s.mem
            let s := { s with rx_stats := d.2.1, mem := d.2.2 }
            if d.1 ≠ 0 then rx_dma_alloc_fail d.1 s
            else
              let l := for_rc (rx_queues_body K env vaddrs paddrs nrxqs nrxqsets) nrxqsets s
              if l.1 ≠ 0 then rx_mc_alloc_fail l.1 l.2.1 l.2.2
              else
                let s := { l.2.2 with nrxqsets := nrxqsets }
                (l.1, s)

/-- The function `bnxt_queues_free`. -/
def bnxt_queues_free (env : bnxt_env) (s : bnxt_softc) : bnxt_softc :=
  let d := iflib_dma_free s.tx_stats s.mem
  let s := { s with tx_stats := d.1, mem := d.2 }
  let s := { s with mem := free s.tx_rings.addr s.mem }
  let s := { s with tx_rings := { addr := 0, elems := [] } }
  let s := { s with mem := free s.tx_cp_rings.addr s.mem }
  let s := { s with tx_cp_rings := { addr := 0, elems := [] } }
  let s := { s with ntxqsets := 0 }
  let d := iflib_dma_free s.rx_stats s.mem
  let s := { s with rx_stats := d.1, mem := d.2 }
  let s := { s with mem := free s.vnic_info.addr s.mem }
  let s := { s with mem := free s.grp_info.addr s.mem }
  let s := { s with mem := free s.ag_rings.addr s.mem }
  let s := { s with mem := free s.rx_rings.addr s.mem }
  let s := { s with mem := free s.rx_cp_rings.addr s.mem }
  let s := (bnxt_hwrm_func_drv_unrgtr env false s).2
  let s := bnxt_free_hwrm_dma_mem s
  { s with hwrm_lock_init := false }

/-! ## Device setup and teardown -/

/-- The macro `PCIR_BAR(x)` of `dev/pci/pcireg.h`. -/
def PCIR_BAR (x : Nat) : Nat := 0x10 + x * 4

/-- The function `bnxt_map_bar`; the bus tag, handle and size of the mapped
resource are not kept. -/
def bnxt_map_bar (env : bnxt_env) (bar : bnxt_bar_info) (bar_num : Nat) (shareable : Bool) :
    Nat × bnxt_bar_info :=
  if bar.res ≠ 0 then (EDOOFUS, bar)
  else
    let bar := { bar with rid := PCIR_BAR bar_num }
    let bar := { bar with res := env.bar_res bar_num shareable }
    if bar.res = 0 then ( ENXIO, bar) else (0, bar)

/-- The function `bnxt_pci_mapping`. -/
def bnxt_pci_mapping (env : bnxt_env) (s : bnxt_softc) : Nat × bnxt_softc :=
  let r := bnxt_map_bar env s.hwrm_bar 0 true
  let s := { s with hwrm_bar := r.2 }
  if r.1 ≠ 0 then (r.1, s)
  else
    let r := bnxt_map_bar env s.doorbell_bar 2 false
    (r.1, { s with doorbell_bar := r.2 })

/-- The function `bnxt_pci_mapping_free`. -/
def bnxt_pci_mapping_free (s : bnxt_softc) : bnxt_softc :=
  let s := { s with hwrm_bar := { s.hwrm_bar with res := 0 } }
  { s with doorbell_bar := { s.doorbell_bar with res := 0 } }

/-- The label `dma_fail` of `bnxt_attach_pre`. -/
def attach_dma_fail (rc : Nat) (s : bnxt_softc) : Nat × bnxt_softc :=
  let s := bnxt_pci_mapping_free s
  (rc, { s with busmaster := false })

/-- The label `ver_fail` of `bnxt_attach_pre`. -/
def attach_ver_fail (rc : Nat) (s : bnxt_softc) : Nat × bnxt_softc :=
  let s := bnxt_free_hwrm_dma_mem s
  attach_dma_fail rc { s with hwrm_lock_init := false }

/-- The label `failed` of `bnxt_attach_pre`. -/
def attach_failed (env : bnxt_env) (rc : Nat) (s : bnxt_softc) : Nat × bnxt_softc :=
  attach_ver_fail rc (bnxt_hwrm_func_drv_unrgtr env false s).2

/-- The part of `bnxt_attach_pre` under the comment "Allocate the default
completion ring". -/
def attach_def_cp_ring (K : bnxt_defs) (env : bnxt_env) (s : bnxt_softc) : Nat × bnxt_softc :=
  let c := s.def_cp_ring
  let c := { c with stats_ctx_id := K.HWRM_NA_SIGNATURE }
  let c := { c with ring := { c.ring with phys_id := u16 K.HWRM_NA_SIGNATURE } }
  let c := { c with ring := { c.ring with softc := true } }
  let c := { c with ring := { c.ring with id := 0 } }
  let c := { c with ring := { c.ring with doorbell := c.ring.id * 0x80 } }
  let c := { c with ring := { c.ring with ring_size := K.PAGE_SIZE / K.sizeof_cmpl_base } }
  let c := { c with ring := { c.ring with ring_mask := (c.ring.ring_size : Int) - 1 } }
  let s := { s with def_cp_ring := c }
  let d := iflib_dma_alloc env (K.sizeof_cmpl_base * s.def_cp_ring.ring.ring_size)
    s.def_cp_ring_mem s.mem
  let s := { s with def_cp_ring_mem := d.2.1, mem := d.2.2 }
  let s := { s with def_cp_ring :=
    { s.def_cp_ring with ring := { s.def_cp_ring.ring with vaddr := s.def_cp_ring_mem.idi_vaddr } } }
  let s := { s with def_cp_ring :=
    { s.def_cp_ring with ring := { s.def_cp_ring.ring with paddr := s.def_cp_ring_mem.idi_paddr } } }
  (d.1, s)

/-- The function `bnxt_attach_pre`: the status returned and the device context
after the call. -/
def bnxt_attach_pre (K : bnxt_defs) (env : bnxt_env) (s : bnxt_softc) : Nat × bnxt_softc :=
  let s := { s with busmaster := true }
  let m := bnxt_pci_mapping env s
  if m.1 ≠ 0 then ( ENXIO, m.2)
  else
    let s := { m.2 with hwrm_lock_init := true }
    let r := bnxt_alloc_hwrm_dma_mem K env s
    if r.1 ≠ 0 then attach_dma_fail r.1 r.2
    else
      let r := bnxt_hwrm_ver_get env r.2
      if r.1 ≠ 0 then attach_ver_fail r.1 r.2
      else
        let r := bnxt_hwrm_func_drv_rgtr env r.2
        if r.1 ≠ 0 then attach_ver_fail r.1 r.2
        else
          let r := bnxt_hwrm_func_qcaps env r.2
          if r.1 ≠ 0 then attach_failed env r.1 r.2
          else
            let s := { r.2 with mac_set := true }
            let r := bnxt_hwrm_queue_qportcfg env s
            if r.1 ≠ 0 then attach_failed env r.1 r.2
            else
              let r := bnxt_hwrm_func_reset env r.2
              let s := bnxt_clear_ids K r.2
              if r.1 ≠ 0 then attach_failed env r.1 s
              else
                let s := { s with scctx := { s.scctx with isc_tx_nsegments := 32 } }
                let s := { s with scctx := { s.scctx with isc_tx_tso_segments_max := 32 } }
                let s := { s with scctx := { s.scctx with isc_tx_tso_size_max := K.BNXT_TSO_SIZE } }
                let s := { s with scctx := { s.scctx with isc_tx_tso_segsize_max := K.BNXT_TSO_SIZE } }
                let s := { s with scctx := { s.scctx with isc_vectors := s.pf_max_cp_rings } }
                let s := { s with scctx := { s.scctx with isc_msix_bar := env.msix_table_bar } }
                attach_def_cp_ring K env s

/-- The call `iflib_irq_free(ctx, &irq)` for the IRQ of the ring with the
given id. -/
def iflib_irq_free (id : Nat) (s : bnxt_softc) : bnxt_softc :=
  { s with irqs := s.irqs.erase id }

/-- The body of the loop of `bnxt_detach`. -/
def detach_body (i : Nat) (s : bnxt_softc) : bnxt_softc :=
  let s := iflib_irq_free (s.rx_cp_rings.at i).ring.id s
  mc_list_free i s

/-- The function `bnxt_detach`. -/
def bnxt_detach (K : bnxt_defs) (env : bnxt_env) (s : bnxt_softc) : Nat × bnxt_softc :=
  let s := (bnxt_hwrm_func_reset env s).2
  let s := bnxt_clear_ids K s
  let s := iflib_irq_free s.def_cp_ring.ring.id s
  let s := for_down detach_body s.nrxqsets s
  let d := iflib_dma_free s.def_cp_ring_mem s.mem
  let s := { s with def_cp_ring_mem := d.1, mem := d.2 }
  let s := { s with busmaster := false }
  let s := bnxt_pci_mapping_free s
  (0, s)

/-! ## Device configuration -/

/-- The expression `x & ~m` on flag words. -/
def and_not (x m : Nat) : Nat := x ^^^ (x &&& m)

/-- The function `if_setdrvflagbits` of `net/if.c` on the flag word. -/
def if_setdrvflagbits (set_flags clear_flags : Nat) (flags : Nat) : Nat :=
  and_not (flags ||| set_flags) clear_flags

/-- The sequence `rc = f(...); if (rc) goto fail; g(...)`: the status that
decides `goto fail`, and the device context. -/
def seq_rc {σ : Type} (f g : σ → Nat × σ) (s : σ) : Nat × σ :=
  let r := f s
  if r.1 ≠ 0 then r else g r.2

/-- The step of `bnxt_init` under "Allocate the statistics context" for
receive queue-set `i`. -/
def rx_step_stat_ctx (K : bnxt_defs) (env : bnxt_env) (i : Nat) (s : bnxt_softc) :
    Nat × bnxt_softc :=
  let r := bnxt_hwrm_stat_ctx_alloc env (s.rx_cp_rings.at i)
    (s.rx_stats.idi_paddr + K.sizeof_ctx_hw_stats * i) s
  (r.1, { r.2.2 with rx_cp_rings := r.2.2.rx_cp_rings.upd i (fun _ => r.2.1) })

/-- The step of `bnxt_init` under "Allocation the completion ring" for
receive queue-set `i`. -/
def rx_step_cp_ring (K : bnxt_defs) (env : bnxt_env) (i : Nat) (s : bnxt_softc) :
    Nat × bnxt_softc :=
  let s := { s with rx_cp_rings := s.rx_cp_rings.upd i (fun c => { c with raw_cons := -1 }) }
  let r := bnxt_hwrm_ring_alloc env ring_type.CMPL (s.rx_cp_rings.at i).ring
    (u16 K.HWRM_NA_SIGNATURE) K.HWRM_NA_SIGNATURE true s
  (r.1, { r.2.2 with rx_cp_rings := r.2.2.rx_cp_rings.upd i (fun c => { c with ring := r.2.1 }) })

/-- The step of `bnxt_init` under "Allocate the RX ring" for receive
queue-set `i`. -/
def rx_step_rx_ring (K : bnxt_defs) (env : bnxt_env) (i : Nat) (s : bnxt_softc) :
    Nat × bnxt_softc :=
  let r := bnxt_hwrm_ring_alloc env ring_type.RX (s.rx_rings.at i).ring
    (u16 K.HWRM_NA_SIGNATURE) K.HWRM_NA_SIGNATURE false s
  (r.1, { r.2.2 with rx_rings := r.2.2.rx_rings.upd i (fun x => { x with ring := r.2.1 }) })

/-- The step of `bnxt_init` under "Allocate the AG ring" for receive
queue-set `i`. -/
def rx_step_ag_ring (K : bnxt_defs) (env : bnxt_env) (i : Nat) (s : bnxt_softc) :
    Nat × bnxt_softc :=
  let r := bnxt_hwrm_ring_alloc env ring_type.RX (s.ag_rings.at i).ring
    (u16 K.HWRM_NA_SIGNATURE) K.HWRM_NA_SIGNATURE false s
  (r.1, { r.2.2 with ag_rings := r.2.2.ag_rings.upd i (fun x => { x with ring := r.2.1 }) })

/-- The step of `bnxt_init` under "Allocate the ring group" for receive
queue-set `i`. -/
def rx_step_ring_grp (env : bnxt_env) (i : Nat) (s : bnxt_softc) : Nat × bnxt_softc :=
  let s := { s with grp_info := s.grp_info.upd i (fun g =>
    { g with stats_ctx := (s.rx_cp_rings.at i).stats_ctx_id }) }
  let s := { s with grp_info := s.grp_info.upd i (fun g =>
    { g with rx_ring_id := (s.rx_rings.at i).ring.phys_id }) }
  let s := { s with grp_info := s.grp_info.upd i (fun g =>
    { g with ag_ring_id := (s.ag_rings.at i).ring.phys_id }) }
  let s := { s with grp_info := s.grp_info.upd i (fun g =>
    { g with cp_ring_id := (s.rx_cp_rings.at i).ring.phys_id }) }
  let r := bnxt_hwrm_ring_grp_alloc env (s.grp_info.at i) s
  (r.1, { r.2.2 with grp_info := r.2.2.grp_info.upd i (fun _ => r.2.1) })

/-- The step of `bnxt_init` under "Allocate the vnic" up to
`bnxt_hwrm_vnic_alloc`, for receive queue-set `i`. -/
def rx_step_vnic_alloc (env : bnxt_env) (i : Nat) (s : bnxt_softc) : Nat × bnxt_softc :=
  let s := { s with vnic_info := s.vnic_info.upd i (fun v =>
    { v with ring_grp := (s.grp_info.at i).grp_id }) }
  let s := { s with vnic_info := s.vnic_info.upd i (fun v =>
    { v with mru := s.scctx.isc_max_frame_size }) }
  let r := bnxt_hwrm_vnic_alloc env (s.vnic_info.at i) s
  (r.1, { r.2.2 with vnic_info := r.2.2.vnic_info.upd i (fun _ => r.2.1) })

/-- The call `bnxt_hwrm_vnic_ctx_alloc` of `bnxt_init` for receive
queue-set `i`. -/
def rx_step_vnic_ctx (env : bnxt_env) (i : Nat) (s : bnxt_softc) : Nat × bnxt_softc :=
  let r := bnxt_hwrm_vnic_ctx_alloc env (s.vnic_info.at i) s
  (r.1, { r.2.2 with vnic_info := r.2.2.vnic_info.upd i (fun _ => r.2.1) })

/-- The call `bnxt_hwrm_vnic_cfg` of `bnxt_init` for receive queue-set `i`. -/
def rx_step_vnic_cfg (env : bnxt_env) (i : Nat) (s : bnxt_softc) : Nat × bnxt_softc :=
  bnxt_hwrm_vnic_cfg env (s.vnic_info.at i) s

/-- The block `if (i == 0) { rc = bnxt_hwrm_set_filter(...); ... }` of
`bnxt_init` for receive queue-set `i`; `rc` is `0` when the block is entered. -/
def rx_step_filter (env : bnxt_env) (i : Nat) (s : bnxt_softc) : Nat × bnxt_softc :=
  if i = 0 then
    let r := bnxt_hwrm_set_filter env (s.vnic_info.at i) s
    (r.1, { r.2.2 with vnic_info := r.2.2.vnic_info.upd i (fun _ => r.2.1) })
  else (0, s)

/-- The steps of `bnxt_init` for receive queue-set `i`, each followed by
`if (rc) goto fail`: the status that decides `goto fail`, and the device
context. -/
def init_rx_body (K : bnxt_defs) (env : bnxt_env) (i : Nat) : bnxt_softc → Nat × bnxt_softc :=
  seq_rc (rx_step_stat_ctx K env i)
    (seq_rc (rx_step_cp_ring K env i)
      (seq_rc (rx_step_rx_ring K env i)
        (seq_rc (rx_step_ag_ring K env i)
          (seq_rc (rx_step_ring_grp env i)
            (seq_rc (rx_step_vnic_alloc env i)
              (seq_rc (rx_step_vnic_ctx env i)
                (seq_rc (rx_step_vnic_cfg env i) (rx_step_filter env i))))))))

/-- The step of `bnxt_init` under "Allocate the statistics context" for
transmit queue-set `i`.  (The `i--` before this `goto fail` has no effect:
the label `fail` does not read `i`.) -/
def tx_step_stat_ctx (K : bnxt_defs) (env : bnxt_env) (i : Nat) (s : bnxt_softc) :
    Nat × bnxt_softc :=
  let r := bnxt_hwrm_stat_ctx_alloc env (s.tx_cp_rings.at i)
    (s.tx_stats.idi_paddr + K.sizeof_ctx_hw_stats * i) s
  (r.1, { r.2.2 with tx_cp_rings := r.2.2.tx_cp_rings.upd i (fun _ => r.2.1) })

/-- The step of `bnxt_init` under "Allocate the completion ring" for transmit
queue-set `i`. -/
def tx_step_cp_ring (K : bnxt_defs) (env : bnxt_env) (i : Nat) (s : bnxt_softc) :
    Nat × bnxt_softc :=
  let s := { s with tx_cp_rings := s.tx_cp_rings.upd i (fun c => { c with raw_cons := -1 }) }
  let r := bnxt_hwrm_ring_alloc env ring_type.CMPL (s.tx_cp_rings.at i).ring
    (u16 K.HWRM_NA_SIGNATURE) K.HWRM_NA_SIGNATURE false s
  (r.1, { r.2.2 with tx_cp_rings := r.2.2.tx_cp_rings.upd i (fun c => { c with ring := r.2.1 }) })

/-- The step of `bnxt_init` under "Allocate the TX ring" for transmit
queue-set `i`. -/
def tx_step_tx_ring (env : bnxt_env) (i : Nat) (s : bnxt_softc) : Nat × bnxt_softc :=
  let r := bnxt_hwrm_ring_alloc env ring_type.TX (s.tx_rings.at i).ring
    (s.tx_cp_rings.at i).ring.phys_id (s.tx_cp_rings.at i).stats_ctx_id false s
  (r.1, { r.2.2 with tx_rings := r.2.2.tx_rings.upd i (fun x => { x with ring := r.2.1 }) })

/-- The steps of `bnxt_init` for transmit queue-set `i`, each followed by
`if (rc) goto fail`: the status that decides `goto fail`, and the device
context. -/
def init_tx_body (K : bnxt_defs) (env : bnxt_env) (i : Nat) : bnxt_softc → Nat × bnxt_softc :=
  seq_rc (tx_step_stat_ctx K env i)
    (seq_rc (tx_step_cp_ring K env i) (tx_step_tx_ring env i))

/-- The label `fail` of `bnxt_init`. -/
def init_fail (K : bnxt_defs) (env : bnxt_env) (s : bnxt_softc) : bnxt_softc :=
  let s := (bnxt_hwrm_func_reset env s).2
  let s := bnxt_clear_ids K s
  { s with if_drv_flags := and_not s.if_drv_flags IFF_DRV_RUNNING }

/-- The part of `bnxt_init` under "Allocate the default completion ring". -/
def init_def_step (K : bnxt_defs) (env : bnxt_env) (s : bnxt_softc) : Nat × bnxt_softc :=
  let s := { s with def_cp_ring := { s.def_cp_ring with raw_cons := -1 } }
  let r := bnxt_hwrm_ring_alloc env ring_type.CMPL s.def_cp_ring.ring
    (u16 K.HWRM_NA_SIGNATURE) K.HWRM_NA_SIGNATURE true s
  (r.1, { r.2.2 with def_cp_ring := { r.2.2.def_cp_ring with ring := r.2.1 } })

/-- The function `bnxt_init`. -/
def bnxt_init (K : bnxt_defs) (env : bnxt_env) (s : bnxt_softc) : bnxt_softc :=
  let r := bnxt_hwrm_func_reset env s
  if r.1 ≠ 0 then r.2
  else
    let s := bnxt_clear_ids K r.2
    let r := init_def_step K env s
    if r.1 ≠ 0 then init_fail K env r.2
    else
      let l := for_rc (init_rx_body K env) r.2.nrxqsets r.2
      if l.1 ≠ 0 then init_fail K env l.2.2
      else
        let l := for_rc (init_tx_body K env) l.2.2.ntxqsets l.2.2
        if l.1 ≠ 0 then init_fail K env l.2.2
        else { l.2.2 with if_drv_flags := l.2.2.if_drv_flags ||| IFF_DRV_RUNNING }

/-- The function `bnxt_stop`. -/
def bnxt_stop (K : bnxt_defs) (env : bnxt_env) (s : bnxt_softc) : bnxt_softc :=
  let s := (bnxt_hwrm_func_reset env s).2
  let s := bnxt_clear_ids K s
  { s with if_drv_flags := if_setdrvflagbits 0 IFF_DRV_RUNNING s.if_drv_flags }


/-! ## `bnxt_init` with the order of its stores and commands -/

/-- What `bnxt_init` does to a completion ring and to the firmware, in the
order in which it does it: it issues a firmware command, or it stores a value
in the raw consumer of the completion ring with the given ring. -/
inductive init_event where
  | cmd (c : hwrm_cmd)
  | cons_store (ring : bnxt_ring) (cons : Int)
  deriving DecidableEq, Repr, Inhabited

/-- A part of `bnxt_init` that stores nothing in a raw consumer, run on a
device context with the events so far: the commands it issues are added to the
events. -/
def traced_step (f : bnxt_softc → Nat × bnxt_softc) (t : bnxt_softc × List init_event) :
    Nat × bnxt_softc × List init_event :=
  let r := f t.1
  (r.1, r.2, t.2 ++ (r.2.hwrm_log.drop t.1.hwrm_log.length).map init_event.cmd)

/-- The assignment `softc->def_cp_ring.raw_cons = -1` of `bnxt_init`. -/
def def_cons_rewind (s : bnxt_softc) : bnxt_softc :=
  { s with def_cp_ring := { s.def_cp_ring with raw_cons := -1 } }

/-- The call of `bnxt_hwrm_ring_alloc` for the default completion ring in
`bnxt_init`. -/
def def_cp_ring_alloc (K : bnxt_defs) (env : bnxt_env) (s : bnxt_softc) : Nat × bnxt_softc :=
  let r := bnxt_hwrm_ring_alloc env ring_type.CMPL s.def_cp_ring.ring
    (u16 K.HWRM_NA_SIGNATURE) K.HWRM_NA_SIGNATURE true s
  (r.1, { r.2.2 with def_cp_ring := { r.2.2.def_cp_ring with ring := r.2.1 } })

/-- The part of `bnxt_init` under "Allocate the default completion ring", with
its events: first the store to the raw consumer, then the command. -/
def init_def_step_traced (K : bnxt_defs) (env : bnxt_env) (t : bnxt_softc × List init_event) :
    Nat × bnxt_softc × List init_event :=
  let t := (def_cons_rewind t.1,
    t.2 ++ [init_event.cons_store t.1.def_cp_ring.ring (-1)])
  traced_step (def_cp_ring_alloc K env) t

/-- The assignment `softc->rx_cp_rings[i].raw_cons = -1` of `bnxt_init`. -/
def rx_cons_rewind (i : Nat) (s : bnxt_softc) : bnxt_softc :=
  { s with rx_cp_rings := s.rx_cp_rings.upd i (fun c => { c with raw_cons := -1 }) }

/-- The call of `bnxt_hwrm_ring_alloc` for the completion ring of receive
queue-set `i` in `bnxt_init`. -/
def rx_cp_ring_alloc (K : bnxt_defs) (env : bnxt_env) (i : Nat) (s : bnxt_softc) :
    Nat × bnxt_softc :=
  let r := bnxt_hwrm_ring_alloc env ring_type.CMPL (s.rx_cp_rings.at i).ring
    (u16 K.HWRM_NA_SIGNATURE) K.HWRM_NA_SIGNATURE true s
  (r.1, { r.2.2 with rx_cp_rings := r.2.2.rx_cp_rings.upd i (fun c => { c with ring := r.2.1 }) })

/-- The step of `bnxt_init` under "Allocation the completion ring" for
receive queue-set `i`, with its events: first the store to the raw consumer,
then the command. -/
def rx_step_cp_ring_traced (K : bnxt_defs) (env : bnxt_env) (i : Nat)
    (t : bnxt_softc × List init_event) : Nat × bnxt_softc × List init_event :=
  let t := (rx_cons_rewind i t.1,
    t.2 ++ [init_event.cons_store (t.1.rx_cp_rings.at i).ring (-1)])
  traced_step (rx_cp_ring_alloc K env i) t

/-- The steps of `bnxt_init` for receive queue-set `i`, with their events. -/
def init_rx_body_traced (K : bnxt_defs) (env : bnxt_env) (i : Nat) :
    bnxt_softc × List init_event → Nat × bnxt_softc × List init_event :=
  seq_rc (traced_step (rx_step_stat_ctx K env i))
    (seq_rc (rx_step_cp_ring_traced K env i)
      (seq_rc (traced_step (rx_step_rx_ring K env i))
        (seq_rc (traced_step (rx_step_ag_ring K env i))
          (seq_rc (traced_step (rx_step_ring_grp env i))
            (seq_rc (traced_step (rx_step_vnic_alloc env i))
              (seq_rc (traced_step (rx_step_vnic_ctx env i))
                (seq_rc (traced_step (rx_step_vnic_cfg env i))
                  (traced_step (rx_step_filter env i)))))))))

/-- The assignment `softc->tx_cp_rings[i].raw_cons = -1` of `bnxt_init`. -/
def tx_cons_rewind (i : Nat) (s : bnxt_softc) : bnxt_softc :=
  { s with tx_cp_rings := s.tx_cp_rings.upd i (fun c => { c with raw_cons := -1 }) }

/-- The call of `bnxt_hwrm_ring_alloc` for the completion ring of transmit
queue-set `i` in `bnxt_init`. -/
def tx_cp_ring_alloc (K : bnxt_defs) (env : bnxt_env) (i : Nat) (s : bnxt_softc) :
    Nat × bnxt_softc :=
  let r := bnxt_hwrm_ring_alloc env ring_type.CMPL (s.tx_cp_rings.at i).ring
    (u16 K.HWRM_NA_SIGNATURE) K.HWRM_NA_SIGNATURE false s
  (r.1, { r.2.2 with tx_cp_rings := r.2.2.tx_cp_rings.upd i (fun c => { c with ring := r.2.1 }) })

/-- The step of `bnxt_init` under "Allocate the completion ring" for transmit
queue-set `i`, with its events: first the store to the raw consumer, then the
command. -/
def tx_step_cp_ring_traced (K : bnxt_defs) (env : bnxt_env) (i : Nat)
    (t : bnxt_softc × List init_event) : Nat × bnxt_softc × List init_event :=
  let t := (tx_cons_rewind i t.1,
    t.2 ++ [init_event.cons_store (t.1.tx_cp_rings.at i).ring (-1)])
  traced_step (tx_cp_ring_alloc K env i) t

/-- The steps of `bnxt_init` for transmit queue-set `i`, with their events. -/
def init_tx_body_traced (K : bnxt_defs) (env : bnxt_env) (i : Nat) :
    bnxt_softc × List init_event → Nat × bnxt_softc × List init_event :=
  seq_rc (traced_step (tx_step_stat_ctx K env i))
    (seq_rc (tx_step_cp_ring_traced K env i) (traced_step (tx_step_tx_ring env i)))

/-- The label `fail` of `bnxt_init`, with its events. -/
def init_fail_traced (K : bnxt_defs) (env : bnxt_env) (t : bnxt_softc × List init_event) :
    bnxt_softc × List init_event :=
  let r := traced_step (bnxt_hwrm_func_reset env) t
  let s := bnxt_clear_ids K r.2.1
  ({ s with if_drv_flags := and_not s.if_drv_flags IFF_DRV_RUNNING }, r.2.2)

/-- The function `bnxt_init` together with the events of the call, in the
order in which they happen: the device context after the call, and the
events. -/
def bnxt_init_traced (K : bnxt_defs) (env : bnxt_env) (s : bnxt_softc) :
    bnxt_softc × List init_event :=
  let r := traced_step (bnxt_hwrm_func_reset env) (s, [])
  if r.1 ≠ 0 then r.2
  else
    let t := (bnxt_clear_ids K r.2.1, r.2.2)
    let r := init_def_step_traced K env t
    if r.1 ≠ 0 then init_fail_traced K env r.2
    else
      let l := for_rc (init_rx_body_traced K env) r.2.1.nrxqsets r.2
      if l.1 ≠ 0 then init_fail_traced K env l.2.2
      else
        let l := for_rc (init_tx_body_traced K env) l.2.2.1.ntxqsets l.2.2
        if l.1 ≠ 0 then init_fail_traced K env l.2.2
        else
          ({ l.2.2.1 with if_drv_flags := l.2.2.1.if_drv_flags ||| IFF_DRV_RUNNING }, l.2.2.2)

/-! ## Receive filter -/

/-- Modelled from the spec: `bnxt_hwrm_cfa_l2_set_rx_mask` of `bnxt_hwrm.c`,
which pushes the receive mask and the multicast list of the VNIC to the
firmware; the local state of the VNIC is not touched, whatever the reply. -/
def bnxt_hwrm_cfa_l2_set_rx_mask (env : bnxt_env) (vnic : bnxt_vnic_info) (s : bnxt_softc) :
    Nat × bnxt_softc :=
  let r := hwrm_send env (hwrm_cmd.cfa_l2_set_rx_mask vnic) s
  (r.1, r.2.2)

/-- The bytes behind the address `a` of a DMA buffer. -/
def dma_read (s : bnxt_softc) (a : Nat) : List Nat := (s.dma_bytes.lookup a).getD []

/-- The device context after the bytes behind the address `a` became `b`. -/
def dma_write (a : Nat) (b : List Nat) (s : bnxt_softc) : bnxt_softc :=
  { s with dma_bytes := (a, b) :: s.dma_bytes }

/-- The call `bzero(buf, n)` on the bytes from `buf` on. -/
def bzero (buf : List Nat) (n : Nat) : List Nat := List.replicate n 0 ++ buf.drop n

/-- The call `if_multiaddr_count(ifp, -1)` of `net/if.c`: the number of
link-layer multicast addresses of the interface. -/
def if_multiaddr_count (env : bnxt_env) : Nat := env.if_multiaddrs.length

/-- The call `if_multiaddr_array(ifp, mta, &cnt, max)` of `net/if.c`: the
first `max` link-layer multicast addresses of the interface are copied to
`mta` back to back; the bytes from `mta` on, and the number of addresses
copied. -/
def if_multiaddr_array (env : bnxt_env) (mta : List Nat) (max : Nat) : List Nat × Nat :=
  let w := (env.if_multiaddrs.take max).flatten
  (w ++ mta.drop w.length, (env.if_multiaddrs.take max).length)

/-- The function `bnxt_multi_set`; the status of the firmware command is only
printed. -/
def bnxt_multi_set (K : bnxt_defs) (env : bnxt_env) (s : bnxt_softc) : bnxt_softc :=
  let mcnt := if_multiaddr_count env
  if mcnt > K.BNXT_MAX_MC_ADDRS then
    let s := { s with vnic_info := s.vnic_info.upd 0 (fun v =>
      { v with rx_mask := v.rx_mask ||| K.HWRM_CFA_L2_SET_RX_MASK_INPUT_MASK_ALL_MCAST }) }
    (bnxt_hwrm_cfa_l2_set_rx_mask env (s.vnic_info.at 0) s).2
  else
    let s := { s with vnic_info := s.vnic_info.upd 0 (fun v =>
      { v with rx_mask := and_not v.rx_mask K.HWRM_CFA_L2_SET_RX_MASK_INPUT_MASK_ALL_MCAST }) }
    let mta := (s.vnic_info.at 0).mc_list.idi_vaddr
    let s := dma_write mta (bzero (dma_read s mta) (s.vnic_info.at 0).mc_list_size) s
    let a := if_multiaddr_array env (dma_read s mta) mcnt
    let s := dma_write mta a.1 s
    let s := { s with vnic_info := s.vnic_info.upd 0 (fun v => { v with mc_list_count := a.2 }) }
    let s := { s with vnic_info := s.vnic_info.upd 0 (fun v =>
      { v with rx_mask := v.rx_mask ||| K.HWRM_CFA_L2_SET_RX_MASK_INPUT_MASK_MCAST }) }
    (bnxt_hwrm_cfa_l2_set_rx_mask env (s.vnic_info.at 0) s).2

/-! ## Interrupt enable and disable -/

/-- Modelled from the spec: the macro `BNXT_CP_ARM_DB(ring, cons)` of `bnxt.h`,
the doorbell write that arms a completion ring with its consumer index. -/
def BNXT_CP_ARM_DB (ring : bnxt_ring) (cons : Int) (s : bnxt_softc) : bnxt_softc :=
  { s with events := s.events ++ [bnxt_event.cp_arm_db ring cons] }

/-- Modelled from the spec: the macro `BNXT_CP_DISABLE_DB(ring, cons)` of
`bnxt.h`, the doorbell write with the disable encoding. -/
def BNXT_CP_DISABLE_DB (ring : bnxt_ring) (cons : Int) (s : bnxt_softc) : bnxt_softc :=
  { s with events := s.events ++ [bnxt_event.cp_disable_db ring cons] }

/-- The function `bnxt_enable_intr`. -/
def bnxt_enable_intr (s : bnxt_softc) : bnxt_softc :=
  let s := BNXT_CP_ARM_DB s.def_cp_ring.ring s.def_cp_ring.raw_cons s
  for_loop (fun i s => BNXT_CP_ARM_DB (s.rx_cp_rings.at i).ring (s.rx_cp_rings.at i).raw_cons s)
    s.nrxqsets s

/-- The function `bnxt_queue_intr_enable`. -/
def bnxt_queue_intr_enable (qid : Nat) (s : bnxt_softc) : bnxt_softc :=
  BNXT_CP_ARM_DB (s.rx_cp_rings.at qid).ring (s.rx_cp_rings.at qid).raw_cons s

/-- The function `bnxt_disable_intr`. -/
def bnxt_disable_intr (s : bnxt_softc) : bnxt_softc :=
  let s := BNXT_CP_DISABLE_DB s.def_cp_ring.ring s.def_cp_ring.raw_cons s
  let s := for_loop (fun i s =>
    BNXT_CP_DISABLE_DB (s.tx_cp_rings.at i).ring (s.tx_cp_rings.at i).raw_cons s) s.ntxqsets s
  for_loop (fun i s =>
    BNXT_CP_DISABLE_DB (s.rx_cp_rings.at i).ring (s.rx_cp_rings.at i).raw_cons s) s.nrxqsets s

/-! ## Link monitor -/

/-- Modelled from the spec: the macro `BNXT_HWRM_LOCK(softc)` of `bnxt.h`, which
takes the lock of the command channel. -/
def BNXT_HWRM_LOCK (s : bnxt_softc) : bnxt_softc :=
  { s with events := s.events ++ [bnxt_event.hwrm_lock] }

/-- Modelled from the spec: the macro `BNXT_HWRM_UNLOCK(softc)` of `bnxt.h`,
which releases the lock of the command channel. -/
def BNXT_HWRM_UNLOCK (s : bnxt_softc) : bnxt_softc :=
  { s with events := s.events ++ [bnxt_event.hwrm_unlock] }

/-- An assignment to the field `field` of `softc->link_info`: `f` gives Link
Info after the assignment from Link Info before it. -/
def link_write (field : link_field) (f : bnxt_link_info → bnxt_link_info) (s : bnxt_softc) :
    bnxt_softc :=
  { s with link_info := f s.link_info, events := s.events ++ [bnxt_event.link_write field] }

/-- The call `iflib_link_state_change(ctx, link_state)`. -/
def iflib_link_state_change (link_state : Nat) (s : bnxt_softc) : bnxt_softc :=
  { s with events := s.events ++ [bnxt_event.link_state_change link_state] }

/-- The function `bnxt_report_link`; the texts it prints are not kept. -/
def bnxt_report_link (s : bnxt_softc) : bnxt_softc :=
  if s.link_info.link_up ≠ 0 then iflib_link_state_change LINK_STATE_UP s
  else iflib_link_state_change LINK_STATE_DOWN s

/-- The assignments of `bnxt_update_link` from `memcpy(&link_info->phy_qcfg_resp, ...)`
to `link_info->phy_addr = ...`, with `resp` the reply to the link query. -/
def update_link_refresh (L : bnxt_link_defs) (resp : hwrm_port_phy_qcfg_output)
    (s : bnxt_softc) : bnxt_softc :=
  let s := link_write link_field.phy_qcfg_resp (fun li => { li with phy_qcfg_resp := resp }) s
  let s := link_write link_field.phy_link_status (fun li => { li with phy_link_status := resp.link }) s
  let s := link_write link_field.duplex (fun li => { li with duplex := resp.duplex }) s
  let s := link_write link_field.pause (fun li => { li with pause := resp.pause }) s
  let s := link_write link_field.auto_mode (fun li => { li with auto_mode := resp.auto_mode }) s
  let s := link_write link_field.auto_pause (fun li => { li with auto_pause := resp.auto_pause }) s
  let s := link_write link_field.force_pause (fun li => { li with force_pause := resp.force_pause }) s
  let s := link_write link_field.duplex_setting (fun li => { li with duplex_setting := resp.duplex }) s
  let s := link_write link_field.link_speed (fun li =>
    if li.phy_link_status = L.BNXT_LINK_LINK then
      { li with link_speed := L.le16toh resp.link_speed }
    else { li with link_speed := 0 }) s
  let s := link_write link_field.force_link_speed (fun li =>
    { li with force_link_speed := L.le16toh resp.force_link_speed }) s
  let s := link_write link_field.auto_link_speed (fun li =>
    { li with auto_link_speed := L.le16toh resp.auto_link_speed }) s
  let s := link_write link_field.support_speeds (fun li =>
    { li with support_speeds := L.le16toh resp.support_speeds }) s
  let s := link_write link_field.auto_link_speeds (fun li =>
    { li with auto_link_speeds := L.le16toh resp.auto_link_speed_mask }) s
  let s := link_write link_field.preemphasis (fun li =>
    { li with preemphasis := L.le32toh resp.preemphasis }) s
  let s := link_write link_field.phy_ver0 (fun li => { li with phy_ver0 := resp.phy_maj }) s
  let s := link_write link_field.phy_ver1 (fun li => { li with phy_ver1 := resp.phy_min }) s
  let s := link_write link_field.phy_ver2 (fun li => { li with phy_ver2 := resp.phy_bld }) s
  let s := link_write link_field.media_type (fun li => { li with media_type := resp.media_type }) s
  let s := link_write link_field.transceiver (fun li => { li with transceiver := resp.xcvr_pkg_type }) s
  link_write link_field.phy_addr (fun li =>
    { li with phy_addr := resp.eee_config_phy_addr &&& L.HWRM_PORT_PHY_QCFG_OUTPUT_PHY_ADDR_MASK }) s

/-- The part of `bnxt_update_link` from `if (chng_link_state)` on, with
`link_up` the value of `link_info->link_up` read when the function was
entered. -/
def update_link_state (L : bnxt_link_defs) (chng_link_state : Bool) (link_up : Nat)
    (s : bnxt_softc) : bnxt_softc :=
  if chng_link_state then
    let s := link_write link_field.link_up (fun li =>
      if li.phy_link_status = L.BNXT_LINK_LINK then { li with link_up := 1 }
      else { li with link_up := 0 }) s
    if link_up ≠ s.link_info.link_up then bnxt_report_link s else s
  else
    link_write link_field.link_up (fun li => { li with link_up := 0 }) s

/-- The function `bnxt_update_link`: the status returned and the device
context after the call. -/
def bnxt_update_link (L : bnxt_link_defs) (env : bnxt_env) (chng_link_state : Bool)
    (s : bnxt_softc) : Nat × bnxt_softc :=
  let link_up := s.link_info.link_up
  let s := BNXT_HWRM_LOCK s
  let resp := env.phy_qcfg s.hwrm_log.length
  let r := hwrm_send env hwrm_cmd.port_phy_qcfg s
  if r.1 ≠ 0 then (r.1, BNXT_HWRM_UNLOCK r.2.2)
  else
    let s := update_link_refresh L resp r.2.2
    let s := update_link_state L chng_link_state link_up s
    (0, BNXT_HWRM_UNLOCK s)

/-- The part of `bnxt_probe_phy` under the comment "initialize the ethool
setting copy with NVM settings", up to the assignment of `advertising`. -/
def probe_phy_settings (L : bnxt_link_defs) (s : bnxt_softc) : bnxt_softc :=
  let s := if L.BNXT_AUTO_MODE s.link_info.auto_mode then
      link_write link_field.autoneg (fun li =>
        { li with autoneg := li.autoneg ||| L.BNXT_AUTONEG_SPEED }) s
    else s
  let s := if s.link_info.auto_pause &&& L.BNXT_LINK_PAUSE_BOTH ≠ 0 then
      let s := if s.link_info.auto_pause = L.BNXT_LINK_PAUSE_BOTH then
          link_write link_field.autoneg (fun li =>
            { li with autoneg := li.autoneg ||| L.BNXT_AUTONEG_FLOW_CTRL }) s
        else s
      link_write link_field.req_flow_ctrl (fun li => { li with req_flow_ctrl := li.auto_pause }) s
    else if s.link_info.force_pause &&& L.BNXT_LINK_PAUSE_BOTH ≠ 0 then
      link_write link_field.req_flow_ctrl (fun li => { li with req_flow_ctrl := li.force_pause }) s
    else s
  let s := link_write link_field.req_duplex (fun li => { li with req_duplex := li.duplex_setting }) s
  let s := link_write link_field.req_link_speed (fun li =>
    if li.autoneg &&& L.BNXT_AUTONEG_SPEED ≠ 0 then { li with req_link_speed := li.auto_link_speed }
    else { li with req_link_speed := li.force_link_speed }) s
  link_write link_field.advertising (fun li => { li with advertising := li.auto_link_speeds }) s

/-- The function `bnxt_probe_phy`: the status returned and the device context
after the call; the PHY version appended to `fw_ver_str` is not kept. -/
def bnxt_probe_phy (L : bnxt_link_defs) (env : bnxt_env) (s : bnxt_softc) : Nat × bnxt_softc :=
  let r := bnxt_update_link L env false s
  if r.1 ≠ 0 then (r.1, r.2) else (r.1, probe_phy_settings L r.2)

/-- The part of `bnxt_media_status` after the call of `bnxt_update_link`: the
request is filled in from Link Info. -/
def media_status_fill (L : bnxt_link_defs) (M : ifmedia_defs) (li : bnxt_link_info)
    (ifmr : ifmediareq) : ifmediareq :=
  let ifmr := { ifmr with ifm_status := M.IFM_AVALID }
  let ifmr := { ifmr with ifm_active := M.IFM_ETHER }
  let ifmr := if li.link_up ≠ 0 then { ifmr with ifm_status := ifmr.ifm_status ||| M.IFM_ACTIVE }
    else { ifmr with ifm_status := and_not ifmr.ifm_status M.IFM_ACTIVE }
  let ifmr := if li.duplex = L.BNXT_LINK_DUPLEX_FULL then
      { ifmr with ifm_active := ifmr.ifm_active ||| M.IFM_FDX }
    else { ifmr with ifm_active := ifmr.ifm_active ||| M.IFM_HDX }
  let speed : Option Nat :=
    if li.link_speed = L.BNXT_LINK_SPEED_100MB then some M.IFM_100_TX
    else if li.link_speed = L.BNXT_LINK_SPEED_1GB then some M.IFM_1000_T
    else if li.link_speed = L.BNXT_LINK_SPEED_2_5GB then some M.IFM_2500_SX
    else if li.link_speed = L.BNXT_LINK_SPEED_10GB then some M.IFM_10G_T
    else if li.link_speed = L.BNXT_LINK_SPEED_20GB then some M.IFM_20G_KR2
    else if li.link_speed = L.BNXT_LINK_SPEED_25GB then some M.IFM_25G_CR
    else if li.link_speed = L.BNXT_LINK_SPEED_40GB then some M.IFM_40G_CR4
    else if li.link_speed = L.BNXT_LINK_SPEED_50GB then some M.IFM_50G_CR2
    else none
  match speed with
  | none => ifmr
  | some m =>
    let ifmr := { ifmr with ifm_active := ifmr.ifm_active ||| m }
    if li.pause = L.BNXT_LINK_PAUSE_BOTH then
      { ifmr with ifm_active := ifmr.ifm_active ||| (M.IFM_ETH_RXPAUSE ||| M.IFM_ETH_TXPAUSE) }
    else if li.pause = L.BNXT_LINK_PAUSE_TX then
      { ifmr with ifm_active := ifmr.ifm_active ||| M.IFM_ETH_TXPAUSE }
    else if li.pause = L.BNXT_LINK_PAUSE_RX then
      { ifmr with ifm_active := ifmr.ifm_active ||| M.IFM_ETH_RXPAUSE }
    else ifmr

/-- The function `bnxt_media_status`: the request and the device context after
the call. -/
def bnxt_media_status (L : bnxt_link_defs) (M : ifmedia_defs) (env : bnxt_env)
    (ifmr : ifmediareq) (s : bnxt_softc) : ifmediareq × bnxt_softc :=
  let s := (bnxt_update_link L env true s).2
  (media_status_fill L M s.link_info ifmr, s)


/-! ## Results of the loops -/

/-- The array whose elements at the indices below `n` have been rewritten by
`f`, which is given the index. -/
def karray.upto {α : Type} (a : karray α) (n : Nat) (f : Nat → α → α) : karray α :=
  { a with elems := a.elems.mapIdx (fun i x => if i < n then f i x else x) }

/-- A completion ring with its statistics-context handle and physical id
reset to the sentinel. -/
def cp_ring_cleared (K : bnxt_defs) (c : bnxt_cp_ring) : bnxt_cp_ring :=
  { c with stats_ctx_id := K.HWRM_NA_SIGNATURE,
           ring := { c.ring with phys_id := u16 K.HWRM_NA_SIGNATURE } }

/-- A transmit ring with its physical id reset to the sentinel. -/
def tx_ring_cleared (K : bnxt_defs) (t : bnxt_tx_ring) : bnxt_tx_ring :=
  { t with ring := { t.ring with phys_id := u16 K.HWRM_NA_SIGNATURE } }

/-- A receive or aggregation ring with its physical id reset to the sentinel. -/
def rx_ring_cleared (K : bnxt_defs) (r : bnxt_rx_ring) : bnxt_rx_ring :=
  { r with ring := { r.ring with phys_id := u16 K.HWRM_NA_SIGNATURE } }

/-- A ring group with its group id reset to the sentinel. -/
def grp_cleared (K : bnxt_defs) (g : bnxt_grp_info) : bnxt_grp_info :=
  { g with grp_id := u16 K.HWRM_NA_SIGNATURE }

/-- A VNIC with its id and context id reset to the sentinel. -/
def vnic_cleared (K : bnxt_defs) (v : bnxt_vnic_info) : bnxt_vnic_info :=
  { v with id := u16 K.HWRM_NA_SIGNATURE, ctx_id := u16 K.HWRM_NA_SIGNATURE }

/-- The ids that `bnxt_clear_ids` resets hold the sentinel: the physical id
and statistics-context handle of every completion ring, the physical id of
every transmit, receive and aggregation ring, the group id of every ring group
and the id and context id of every VNIC, over the allocated queue-sets. -/
def ids_cleared (K : bnxt_defs) (s : bnxt_softc) : Prop :=
  s.def_cp_ring.ring.phys_id = u16 K.HWRM_NA_SIGNATURE ∧
  s.def_cp_ring.stats_ctx_id = K.HWRM_NA_SIGNATURE ∧
  (∀ c ∈ s.tx_cp_rings.elems.take s.ntxqsets,
    c.ring.phys_id = u16 K.HWRM_NA_SIGNATURE ∧ c.stats_ctx_id = K.HWRM_NA_SIGNATURE) ∧
  (∀ t ∈ s.tx_rings.elems.take s.ntxqsets, t.ring.phys_id = u16 K.HWRM_NA_SIGNATURE) ∧
  (∀ c ∈ s.rx_cp_rings.elems.take s.nrxqsets,
    c.ring.phys_id = u16 K.HWRM_NA_SIGNATURE ∧ c.stats_ctx_id = K.HWRM_NA_SIGNATURE) ∧
  (∀ r ∈ s.rx_rings.elems.take s.nrxqsets, r.ring.phys_id = u16 K.HWRM_NA_SIGNATURE) ∧
  (∀ r ∈ s.ag_rings.elems.take s.nrxqsets, r.ring.phys_id = u16 K.HWRM_NA_SIGNATURE) ∧
  (∀ g ∈ s.grp_info.elems.take s.nrxqsets, g.grp_id = u16 K.HWRM_NA_SIGNATURE) ∧
  (∀ v ∈ s.vnic_info.elems.take s.nrxqsets,
    v.id = u16 K.HWRM_NA_SIGNATURE ∧ v.ctx_id = u16 K.HWRM_NA_SIGNATURE)

/-! ## Concrete devices -/

/-- Header values of a 64-bit FreeBSD build: 4 KiB pages, 16-byte completion
records, the all-ones sentinel. -/
def defs0 : bnxt_defs :=
  { HWRM_NA_SIGNATURE := 0xffffffff, PAGE_SIZE := 4096, BNXT_MAX_MC_ADDRS := 16,
    ETHER_ADDR_LEN := 6, BNXT_TSO_SIZE := 65535,
    HWRM_CFA_L2_SET_RX_MASK_INPUT_MASK_BCAST := 8,
    HWRM_CFA_L2_SET_RX_MASK_INPUT_MASK_MCAST := 2,
    HWRM_CFA_L2_SET_RX_MASK_INPUT_MASK_ALL_MCAST := 4, BNXT_VNIC_FLAG_DEFAULT := 1,
    sizeof_bnxt_cp_ring := 64, sizeof_bnxt_tx_ring := 48, sizeof_bnxt_rx_ring := 48,
    sizeof_bnxt_grp_info := 10, sizeof_bnxt_vnic_info := 96, sizeof_ctx_hw_stats := 128,
    sizeof_cmpl_base := 16 }

/-- An environment in which every request succeeds; the firmware answers the
`n`-th command with the handle `n + 100`. -/
def env_ok : bnxt_env :=
  { alloc_rc := fun _ => 0, dma_paddr := fun a => a + 1000, bar_res := fun n _ => n + 1,
    msix_table_bar := 4, hwrm_rc := fun _ => 0, hwrm_id := fun n => n + 100,
    phy_qcfg := fun _ => default, if_multiaddrs := [] }

/-- A device context before attach, with 256 descriptors per ring and `m`
receive queue-sets configured in iflib. -/
def softc0 (m : Nat) : bnxt_softc :=
  { (default : bnxt_softc) with
    sctx := { isc_ntxd := 256, isc_nrxd := 256 },
    scctx := { (default : if_softc_ctx) with isc_nrxqsets := m } }

/-- The device context after attach and the allocation of `n` transmit and
`m` receive queue-sets in `env_ok`. -/
def softc_alloc (n m : Nat) : bnxt_softc :=
  let s := (bnxt_attach_pre defs0 env_ok (softc0 m)).2
  let s := (bnxt_tx_queues_alloc defs0 env_ok [] [] 2 n s).2
  (bnxt_rx_queues_alloc defs0 env_ok [] [] 3 m s).2

/-- The device context after a successful bring-up with `n` transmit and `m`
receive queue-sets in `env_ok`. -/
def softc_up (n m : Nat) : bnxt_softc :=
  bnxt_init defs0 env_ok (softc_alloc n m)

/-- The trace of a call that obtains the buffers `allocs` (address, size) in
this order and then releases every one of them in the reverse order. -/
def rollback_trace (allocs : List (Nat × Nat)) : List kmem_event :=
  allocs.map (fun p => kmem_event.alloc p.1 p.2) ++
    allocs.reverse.map (fun p => kmem_event.free p.1)

/-- The memory requests of `bnxt_tx_queues_alloc` for `n` queue-sets, when
`nreq` requests were made before the call: the address a successful request
yields, and its size. -/
def tx_requests (K : bnxt_defs) (nreq n : Nat) : List (Nat × Nat) :=
  [(nreq + 1, K.sizeof_bnxt_cp_ring * n), (nreq + 2, K.sizeof_bnxt_tx_ring * n),
   (nreq + 3, K.sizeof_ctx_hw_stats * n)]

/-- The memory requests of `bnxt_rx_queues_alloc` for `n` queue-sets that
precede its loop, when `nreq` requests were made before the call. -/
def rx_requests (K : bnxt_defs) (nreq n : Nat) : List (Nat × Nat) :=
  [(nreq + 1, K.sizeof_bnxt_cp_ring * n), (nreq + 2, K.sizeof_bnxt_rx_ring * n),
   (nreq + 3, K.sizeof_bnxt_rx_ring * n), (nreq + 4, K.sizeof_bnxt_grp_info * n),
   (nreq + 5, K.sizeof_bnxt_vnic_info * n), (nreq + 6, K.sizeof_ctx_hw_stats * n)]

/-- The rings and the untouched fields of the device context after `i`
rounds of the loop of `bnxt_rx_queues_alloc` started in `s`. -/
def rx_loop_inv (K : bnxt_defs) (vaddrs paddrs : List Nat) (nrxqs nrxqsets : Nat)
    (s : bnxt_softc) (i : Nat) (t : bnxt_softc) : Prop :=
  t.rx_cp_rings = s.rx_cp_rings.upto i (rx_cp_ring_setup K s vaddrs paddrs nrxqs) ∧
  t.rx_rings = s.rx_rings.upto i (rx_ring_setup K s vaddrs paddrs nrxqs) ∧
  t.ag_rings = s.ag_rings.upto i (ag_ring_setup K s vaddrs paddrs nrxqs nrxqsets) ∧
  t.sctx = s.sctx ∧ t.scctx = s.scctx ∧ t.def_cp_ring = s.def_cp_ring ∧
  t.tx_cp_rings = s.tx_cp_rings ∧ t.tx_rings = s.tx_rings ∧ t.ntxqsets = s.ntxqsets ∧
  t.hwrm_log = s.hwrm_log ∧ t.if_drv_flags = s.if_drv_flags

/-- The device context when `bnxt_rx_queues_alloc` enters its loop, the five
arrays and the statistics buffer having been obtained. -/
def rx_prepared (K : bnxt_defs) (env : bnxt_env) (n : Nat) (s : bnxt_softc) : bnxt_softc :=
  { s with
    rx_cp_rings := zeroed_array (s.mem.nreq + 1) n,
    rx_rings := zeroed_array (s.mem.nreq + 2) n,
    ag_rings := zeroed_array (s.mem.nreq + 3) n,
    grp_info := zeroed_array (s.mem.nreq + 4) n,
    vnic_info := zeroed_array (s.mem.nreq + 5) n,
    rx_stats := { idi_vaddr := s.mem.nreq + 6, idi_paddr := env.dma_paddr (s.mem.nreq + 6),
                  idi_size := K.sizeof_ctx_hw_stats * n },
    mem := { nreq := s.mem.nreq + 6,
             live := ((rx_requests K s.mem.nreq n).map (fun p => p.1)).reverse ++ s.mem.live,
             trace := s.mem.trace ++
               (rx_requests K s.mem.nreq n).map (fun p => kmem_event.alloc p.1 p.2) } }

/-- The remainder of `bnxt_attach_pre` after the function reset succeeded. -/
def attach_from_scctx (K : bnxt_defs) (env : bnxt_env) (s : bnxt_softc) : Nat × bnxt_softc :=
  let s := { s with scctx := { s.scctx with isc_tx_nsegments := 32 } }
  let s := { s with scctx := { s.scctx with isc_tx_tso_segments_max := 32 } }
  let s := { s with scctx := { s.scctx with isc_tx_tso_size_max := K.BNXT_TSO_SIZE } }
  let s := { s with scctx := { s.scctx with isc_tx_tso_segsize_max := K.BNXT_TSO_SIZE } }
  let s := { s with scctx := { s.scctx with isc_vectors := s.pf_max_cp_rings } }
  let s := { s with scctx := { s.scctx with isc_msix_bar := env.msix_table_bar } }
  attach_def_cp_ring K env s

/-- The remainder of `bnxt_attach_pre` from the function reset on. -/
def attach_from_reset (K : bnxt_defs) (env : bnxt_env) (s : bnxt_softc) : Nat × bnxt_softc :=
  let r := bnxt_hwrm_func_reset env s
  let s := bnxt_clear_ids K r.2
  if r.1 ≠ 0 then attach_failed env r.1 s else attach_from_scctx K env s

/-- The remainder of `bnxt_attach_pre` from the queue configuration query on. -/
def attach_from_qportcfg (K : bnxt_defs) (env : bnxt_env) (s : bnxt_softc) :
    Nat × bnxt_softc :=
  let r := bnxt_hwrm_queue_qportcfg env s
  if r.1 ≠ 0 then attach_failed env r.1 r.2 else attach_from_reset K env r.2

/-- The remainder of `bnxt_attach_pre` from the capability query on. -/
def attach_from_qcaps (K : bnxt_defs) (env : bnxt_env) (s : bnxt_softc) : Nat × bnxt_softc :=
  let r := bnxt_hwrm_func_qcaps env s
  if r.1 ≠ 0 then attach_failed env r.1 r.2
  else attach_from_qportcfg K env { r.2 with mac_set := true }

/-- The remainder of `bnxt_attach_pre` from the driver registration on. -/
def attach_from_drv_rgtr (K : bnxt_defs) (env : bnxt_env) (s : bnxt_softc) :
    Nat × bnxt_softc :=
  let r := bnxt_hwrm_func_drv_rgtr env s
  if r.1 ≠ 0 then attach_ver_fail r.1 r.2 else attach_from_qcaps K env r.2

/-- The remainder of `bnxt_attach_pre` from the version query on. -/
def attach_from_ver_get (K : bnxt_defs) (env : bnxt_env) (s : bnxt_softc) :
    Nat × bnxt_softc :=
  let r := bnxt_hwrm_ver_get env s
  if r.1 ≠ 0 then attach_ver_fail r.1 r.2 else attach_from_drv_rgtr K env r.2

/-- The remainder of `bnxt_attach_pre` after the BARs were mapped. -/
def attach_from_lock_init (K : bnxt_defs) (env : bnxt_env) (s : bnxt_softc) :
    Nat × bnxt_softc :=
  let r := bnxt_alloc_hwrm_dma_mem K env { s with hwrm_lock_init := true }
  if r.1 ≠ 0 then attach_dma_fail r.1 r.2 else attach_from_ver_get K env r.2

/-- What a run of `bnxt_attach_pre` (or of a remainder of it) that started in
`s` guarantees about its result `r`: if it succeeded, the default completion
ring is set up; in every case the descriptor counts and the number of receive
queue-sets configured in iflib are untouched. -/
def attach_post (K : bnxt_defs) (s : bnxt_softc) (r : Nat × bnxt_softc) : Prop :=
  (r.1 = 0 →
    r.2.def_cp_ring.ring.id = 0 ∧ r.2.def_cp_ring.ring.doorbell = 0 ∧
    r.2.def_cp_ring.ring.ring_size = K.PAGE_SIZE / K.sizeof_cmpl_base ∧
    r.2.def_cp_ring.ring.ring_mask = ((K.PAGE_SIZE / K.sizeof_cmpl_base : Nat) : Int) - 1) ∧
  r.2.sctx = s.sctx ∧ r.2.scctx.isc_nrxqsets = s.scctx.isc_nrxqsets

/-! ## The rings of a device -/

/-- The rings of the transmit completion rings of the allocated queue-sets. -/
def rings_tx_cp (s : bnxt_softc) : List bnxt_ring :=
  (s.tx_cp_rings.elems.take s.ntxqsets).map (fun c => c.ring)

/-- The rings of the transmit rings of the allocated queue-sets. -/
def rings_tx (s : bnxt_softc) : List bnxt_ring :=
  (s.tx_rings.elems.take s.ntxqsets).map (fun t => t.ring)

/-- The rings of the receive completion rings of the allocated queue-sets. -/
def rings_rx_cp (s : bnxt_softc) : List bnxt_ring :=
  (s.rx_cp_rings.elems.take s.nrxqsets).map (fun c => c.ring)

/-- The rings of the receive rings of the allocated queue-sets. -/
def rings_rx (s : bnxt_softc) : List bnxt_ring :=
  (s.rx_rings.elems.take s.nrxqsets).map (fun r => r.ring)

/-- The rings of the aggregation rings of the allocated queue-sets. -/
def rings_ag (s : bnxt_softc) : List bnxt_ring :=
  (s.ag_rings.elems.take s.nrxqsets).map (fun r => r.ring)

/-- The ids of a list of rings. -/
def ring_ids (l : List bnxt_ring) : List Nat := l.map (fun r => r.id)

/-- A power of two. -/
def is_pow2 (n : Nat) : Prop := ∃ k, n = 2 ^ k

/-- The order in which iflib calls the two allocators for `n` transmit and
`m` receive queue-sets: `bnxt_tx_queues_alloc`, then, if that succeeded,
`bnxt_rx_queues_alloc`. -/
def alloc_queues (K : bnxt_defs) (env : bnxt_env) (tva tpa rva rpa : List Nat)
    (ntxqs nrxqs n m : Nat) (s : bnxt_softc) : Nat × bnxt_softc :=
  let t := bnxt_tx_queues_alloc K env tva tpa ntxqs n s
  if t.1 ≠ 0 then t else bnxt_rx_queues_alloc K env rva rpa nrxqs m t.2

/-- An environment in which every request succeeds and memory comes from
another range than in `env_ok`. -/
def env_ok2 : bnxt_env :=
  { env_ok with dma_paddr := fun a => a + 5000 }

/-- An environment in which the memory request number `k` fails with the
status `rc` and every other request succeeds. -/
def env_alloc_fail (k rc : Nat) : bnxt_env :=
  { env_ok with alloc_rc := fun n => if n = k then rc else 0 }

/-! ## Runs of firmware commands -/

/-- A run of at most `k` firmware commands that takes the device context `s`
to the result `r`: commands are only appended to the log and the queue-set
counts are kept; on success exactly `k` commands were issued and every one
succeeded; on failure the run stopped right after the first command that
failed, and returns its status. -/
def cmd_run (env : bnxt_env) (k : Nat) (s : bnxt_softc) (r : Nat × bnxt_softc) : Prop :=
  s.hwrm_log <+: r.2.hwrm_log ∧ r.2.nrxqsets = s.nrxqsets ∧ r.2.ntxqsets = s.ntxqsets ∧
  (r.1 = 0 →
    r.2.hwrm_log.length = s.hwrm_log.length + k ∧
    ∀ q, q < k → env.hwrm_rc (s.hwrm_log.length + q) = 0) ∧
  (r.1 ≠ 0 →
    ∃ j, j < k ∧ r.2.hwrm_log.length = s.hwrm_log.length + j + 1 ∧
      env.hwrm_rc (s.hwrm_log.length + j) = r.1 ∧
      ∀ q, q < j → env.hwrm_rc (s.hwrm_log.length + q) = 0)

/-- The number of commands that `bnxt_init` issues for the receive queue-set
`i` when all succeed. -/
def rx_cmd_count (i : Nat) : Nat := if i = 0 then 9 else 8

/-- The sum `k 0 + ... + k (n - 1)`. -/
def sum_upto (k : Nat → Nat) : Nat → Nat
  | 0 => 0
  | n + 1 => sum_upto k n + k n

/-- The loop `for_rc` as a status and a state. -/
def for_rc_result {σ : Type} (body : Nat → σ → Nat × σ) (n : Nat) (s : σ) : Nat × σ :=
  ((for_rc body n s).1, (for_rc body n s).2.2)

/-- The allocation commands of `bnxt_init`, from the default completion ring
to the last transmit queue-set: the status that decides `goto fail`, and the
device context. -/
def init_alloc (K : bnxt_defs) (env : bnxt_env) : bnxt_softc → Nat × bnxt_softc :=
  seq_rc (init_def_step K env)
    (seq_rc (fun s => for_rc_result (init_rx_body K env) s.nrxqsets s)
      (fun s => for_rc_result (init_tx_body K env) s.ntxqsets s))

/-- The number of allocation commands that `bnxt_init` issues after its
function reset when all succeed. -/
def init_cmd_count (s : bnxt_softc) : Nat :=
  1 + (sum_upto rx_cmd_count s.nrxqsets + sum_upto (fun _ => 3) s.ntxqsets)

/-- An environment in which the firmware command number `k` fails with the
status `rc` and every other request succeeds. -/
def env_hwrm_fail (k rc : Nat) : bnxt_env :=
  { env_ok with hwrm_rc := fun n => if n = k then rc else 0 }

/-! ## Successful bring-up -/

/-- A completion ring after the firmware bound its statistics context with
the command at position `pos` and its ring with the command after it. -/
def cp_ring_up (env : bnxt_env) (pos : Nat) (c : bnxt_cp_ring) : bnxt_cp_ring :=
  { c with stats_ctx_id := env.hwrm_id pos, raw_cons := -1,
           ring := { c.ring with phys_id := env.hwrm_id (pos + 1) } }

/-- A receive or aggregation ring after the firmware bound it with the command
at position `pos`. -/
def rx_ring_up (env : bnxt_env) (pos : Nat) (r : bnxt_rx_ring) : bnxt_rx_ring :=
  { r with ring := { r.ring with phys_id := env.hwrm_id pos } }

/-- A transmit ring after the firmware bound it with the command at position
`pos`. -/
def tx_ring_up (env : bnxt_env) (pos : Nat) (t : bnxt_tx_ring) : bnxt_tx_ring :=
  { t with ring := { t.ring with phys_id := env.hwrm_id pos } }

/-- The ring group of a receive queue-set whose commands start at position
`pos`, as it is passed to the ring-group allocation: the four handles are
those of the four preceding commands. -/
def grp_bound (env : bnxt_env) (pos : Nat) (g : bnxt_grp_info) : bnxt_grp_info :=
  { g with stats_ctx := env.hwrm_id pos, rx_ring_id := env.hwrm_id (pos + 2),
           ag_ring_id := env.hwrm_id (pos + 3), cp_ring_id := env.hwrm_id (pos + 1) }

/-- The ring group after the firmware bound its id with the command at
position `pos + 4`. -/
def grp_up (env : bnxt_env) (pos : Nat) (g : bnxt_grp_info) : bnxt_grp_info :=
  { grp_bound env pos g with grp_id := env.hwrm_id (pos + 4) }

/-- The VNIC of a receive queue-set whose commands start at position `pos`, as
it is passed to the VNIC allocation: bound to the id of the ring group. -/
def vnic_bound (env : bnxt_env) (pos mru : Nat) (v : bnxt_vnic_info) : bnxt_vnic_info :=
  { v with ring_grp := env.hwrm_id (pos + 4), mru := mru }

/-- The VNIC after the firmware bound its id (command `pos + 5`). -/
def vnic_with_id (env : bnxt_env) (pos mru : Nat) (v : bnxt_vnic_info) : bnxt_vnic_info :=
  { vnic_bound env pos mru v with id := env.hwrm_id (pos + 5) }

/-- The VNIC after the firmware bound its id and its context id (commands
`pos + 5` and `pos + 6`). -/
def vnic_with_ctx (env : bnxt_env) (pos mru : Nat) (v : bnxt_vnic_info) : bnxt_vnic_info :=
  { vnic_with_id env pos mru v with ctx_id := env.hwrm_id (pos + 6) }

/-- The VNIC of receive queue-set `i` when its commands are done: for the
default VNIC the filter id is bound too (command `pos + 8`). -/
def vnic_up (env : bnxt_env) (pos mru i : Nat) (v : bnxt_vnic_info) : bnxt_vnic_info :=
  if i = 0 then { vnic_with_ctx env pos mru v with filter_id := (env.hwrm_id (pos + 8) : Int) }
  else vnic_with_ctx env pos mru v

/-- The commands of `bnxt_init` for receive queue-set `i`, in the order of
issue, when the first of them is the command number `pos` on the channel and
`s` is the device context when the queue-set is started. -/
def rx_cmds (K : bnxt_defs) (env : bnxt_env) (s : bnxt_softc) (i pos : Nat) : List hwrm_cmd :=
  [ hwrm_cmd.stat_ctx_alloc (s.rx_cp_rings.at i)
      (s.rx_stats.idi_paddr + K.sizeof_ctx_hw_stats * i),
    hwrm_cmd.ring_alloc ring_type.CMPL (s.rx_cp_rings.at i).ring
      (u16 K.HWRM_NA_SIGNATURE) K.HWRM_NA_SIGNATURE true,
    hwrm_cmd.ring_alloc ring_type.RX (s.rx_rings.at i).ring
      (u16 K.HWRM_NA_SIGNATURE) K.HWRM_NA_SIGNATURE false,
    hwrm_cmd.ring_alloc ring_type.RX (s.ag_rings.at i).ring
      (u16 K.HWRM_NA_SIGNATURE) K.HWRM_NA_SIGNATURE false,
    hwrm_cmd.ring_grp_alloc (grp_bound env pos (s.grp_info.at i)),
    hwrm_cmd.vnic_alloc (vnic_bound env pos s.scctx.isc_max_frame_size (s.vnic_info.at i)),
    hwrm_cmd.vnic_ctx_alloc
      (vnic_with_id env pos s.scctx.isc_max_frame_size (s.vnic_info.at i)),
    hwrm_cmd.vnic_cfg (vnic_with_ctx env pos s.scctx.isc_max_frame_size (s.vnic_info.at i)) ] ++
  (if i = 0 then
    [hwrm_cmd.set_filter (vnic_with_ctx env pos s.scctx.isc_max_frame_size (s.vnic_info.at i))]
   else [])

/-- The commands of `bnxt_init` for transmit queue-set `i`, in the order of
issue, when the first of them is the command number `pos` on the channel and
`s` is the device context when the queue-set is started: the transmit ring is
allocated with the handles that the two preceding commands returned. -/
def tx_cmds (K : bnxt_defs) (env : bnxt_env) (s : bnxt_softc) (i pos : Nat) : List hwrm_cmd :=
  [ hwrm_cmd.stat_ctx_alloc (s.tx_cp_rings.at i)
      (s.tx_stats.idi_paddr + K.sizeof_ctx_hw_stats * i),
    hwrm_cmd.ring_alloc ring_type.CMPL (s.tx_cp_rings.at i).ring
      (u16 K.HWRM_NA_SIGNATURE) K.HWRM_NA_SIGNATURE false,
    hwrm_cmd.ring_alloc ring_type.TX (s.tx_rings.at i).ring
      (env.hwrm_id (pos + 1)) (env.hwrm_id pos) false ]

/-- The device context after the commands of receive queue-set `i`, started
in `s`, all succeeded. -/
def rx_queue_up (K : bnxt_defs) (env : bnxt_env) (i : Nat) (s : bnxt_softc) : bnxt_softc :=
  { s with
    rx_cp_rings := s.rx_cp_rings.upd i (cp_ring_up env s.hwrm_log.length),
    rx_rings := s.rx_rings.upd i (rx_ring_up env (s.hwrm_log.length + 2)),
    ag_rings := s.ag_rings.upd i (rx_ring_up env (s.hwrm_log.length + 3)),
    grp_info := s.grp_info.upd i (grp_up env s.hwrm_log.length),
    vnic_info := s.vnic_info.upd i
      (vnic_up env s.hwrm_log.length s.scctx.isc_max_frame_size i),
    hwrm_log := s.hwrm_log ++ rx_cmds K env s i s.hwrm_log.length }

/-- The device context after the commands of transmit queue-set `i`, started
in `s`, all succeeded. -/
def tx_queue_up (K : bnxt_defs) (env : bnxt_env) (i : Nat) (s : bnxt_softc) : bnxt_softc :=
  { s with
    tx_cp_rings := s.tx_cp_rings.upd i (cp_ring_up env s.hwrm_log.length),
    tx_rings := s.tx_rings.upd i (tx_ring_up env (s.hwrm_log.length + 2)),
    hwrm_log := s.hwrm_log ++ tx_cmds K env s i s.hwrm_log.length }

/-- The concatenation `f 0 ++ ... ++ f (n - 1)`. -/
def cmds_upto (f : Nat → List hwrm_cmd) : Nat → List hwrm_cmd
  | 0 => []
  | n + 1 => cmds_upto f n ++ f n

/-- The arrays of the device context hold at least as many elements as there
are queue-sets. -/
def arrays_fit (s : bnxt_softc) : Prop :=
  s.nrxqsets ≤ s.rx_cp_rings.elems.length ∧ s.nrxqsets ≤ s.rx_rings.elems.length ∧
  s.nrxqsets ≤ s.ag_rings.elems.length ∧ s.nrxqsets ≤ s.grp_info.elems.length ∧
  s.nrxqsets ≤ s.vnic_info.elems.length ∧ s.ntxqsets ≤ s.tx_cp_rings.elems.length ∧
  s.ntxqsets ≤ s.tx_rings.elems.length

/-- The device context `t` after the first `n` receive queue-sets were
brought up from `s`: the elements from index `n` on, the sizes of the arrays
and the transmit side are as in `s`, and the log has grown by the commands of
the queue-sets `0` to `n - 1`. -/
def rx_up_inv (K : bnxt_defs) (env : bnxt_env) (s : bnxt_softc) (n : Nat) (t : bnxt_softc) :
    Prop :=
  (t.rx_cp_rings.elems.length = s.rx_cp_rings.elems.length ∧
    t.rx_rings.elems.length = s.rx_rings.elems.length ∧
    t.ag_rings.elems.length = s.ag_rings.elems.length ∧
    t.grp_info.elems.length = s.grp_info.elems.length ∧
    t.vnic_info.elems.length = s.vnic_info.elems.length) ∧
  (∀ j, n ≤ j →
    t.rx_cp_rings.at j = s.rx_cp_rings.at j ∧ t.rx_rings.at j = s.rx_rings.at j ∧
    t.ag_rings.at j = s.ag_rings.at j ∧ t.grp_info.at j = s.grp_info.at j ∧
    t.vnic_info.at j = s.vnic_info.at j) ∧
  (t.rx_stats = s.rx_stats ∧ t.scctx = s.scctx ∧ t.tx_cp_rings = s.tx_cp_rings ∧
    t.tx_rings = s.tx_rings ∧ t.tx_stats = s.tx_stats ∧ t.nrxqsets = s.nrxqsets ∧
    t.ntxqsets = s.ntxqsets ∧ t.if_drv_flags = s.if_drv_flags) ∧
  t.hwrm_log = s.hwrm_log ++
    cmds_upto (fun i => rx_cmds K env s i (s.hwrm_log.length + sum_upto rx_cmd_count i)) n

/-- The device context `t` after the first `n` transmit queue-sets were
brought up from `s`. -/
def tx_up_inv (K : bnxt_defs) (env : bnxt_env) (s : bnxt_softc) (n : Nat) (t : bnxt_softc) :
    Prop :=
  (t.tx_cp_rings.elems.length = s.tx_cp_rings.elems.length ∧
    t.tx_rings.elems.length = s.tx_rings.elems.length) ∧
  (∀ j, n ≤ j →
    t.tx_cp_rings.at j = s.tx_cp_rings.at j ∧ t.tx_rings.at j = s.tx_rings.at j) ∧
  (t.tx_stats = s.tx_stats ∧ t.nrxqsets = s.nrxqsets ∧ t.ntxqsets = s.ntxqsets ∧
    t.if_drv_flags = s.if_drv_flags) ∧
  t.hwrm_log = s.hwrm_log ++
    cmds_upto (fun i => tx_cmds K env s i (s.hwrm_log.length + 3 * i)) n

/-- The device context after the default completion ring was allocated from
`c` with success. -/
def def_ring_up (K : bnxt_defs) (env : bnxt_env) (c : bnxt_softc) : bnxt_softc :=
  let ring := { c.def_cp_ring.ring with phys_id := env.hwrm_id c.hwrm_log.length }
  let cp := { c.def_cp_ring with raw_cons := -1, ring := ring }
  let cmd := hwrm_cmd.ring_alloc ring_type.CMPL c.def_cp_ring.ring (u16 K.HWRM_NA_SIGNATURE)
    K.HWRM_NA_SIGNATURE true
  { c with def_cp_ring := cp, hwrm_log := c.hwrm_log ++ [cmd] }

/-! ## Receive filter: the reference -/

/-- The reference for `bnxt_multi_set` on VNIC 0, in the words of the
specification: given the addresses of the membership, the VNIC and the bytes
of its multicast list buffer before the call, the VNIC and the bytes after it.
With more addresses than the list can hold, "accept all multicast" is set in
the receive mask and the list is left untouched; otherwise "accept all
multicast" is cleared and "multicast list" is set, the buffer is zeroed and
then holds the addresses, and the count is the number of addresses. -/
def multi_set_ref (K : bnxt_defs) (addrs : List (List Nat)) (v : bnxt_vnic_info)
    (buf : List Nat) : bnxt_vnic_info × List Nat :=
  if addrs.length > K.BNXT_MAX_MC_ADDRS then
    ({ v with rx_mask := v.rx_mask ||| K.HWRM_CFA_L2_SET_RX_MASK_INPUT_MASK_ALL_MCAST }, buf)
  else
    ({ v with
       rx_mask := and_not v.rx_mask K.HWRM_CFA_L2_SET_RX_MASK_INPUT_MASK_ALL_MCAST |||
         K.HWRM_CFA_L2_SET_RX_MASK_INPUT_MASK_MCAST,
       mc_list_count := addrs.length },
     addrs.flatten ++ List.replicate (buf.length - addrs.flatten.length) 0)

/-! ## Link monitor: results -/

/-- Link Info after the assignments of `update_link_refresh`. -/
def link_refreshed (L : bnxt_link_defs) (resp : hwrm_port_phy_qcfg_output)
    (li : bnxt_link_info) : bnxt_link_info :=
  { li with
    phy_qcfg_resp := resp, phy_link_status := resp.link, duplex := resp.duplex,
    pause := resp.pause, auto_mode := resp.auto_mode, auto_pause := resp.auto_pause,
    force_pause := resp.force_pause, duplex_setting := resp.duplex,
    link_speed := if resp.link = L.BNXT_LINK_LINK then L.le16toh resp.link_speed else 0,
    force_link_speed := L.le16toh resp.force_link_speed,
    auto_link_speed := L.le16toh resp.auto_link_speed,
    support_speeds := L.le16toh resp.support_speeds,
    auto_link_speeds := L.le16toh resp.auto_link_speed_mask,
    preemphasis := L.le32toh resp.preemphasis,
    phy_ver0 := resp.phy_maj, phy_ver1 := resp.phy_min, phy_ver2 := resp.phy_bld,
    media_type := resp.media_type, transceiver := resp.xcvr_pkg_type,
    phy_addr := resp.eee_config_phy_addr &&& L.HWRM_PORT_PHY_QCFG_OUTPUT_PHY_ADDR_MASK }

/-- The events of `update_link_refresh`. -/
def refresh_events : List bnxt_event :=
  [link_field.phy_qcfg_resp, link_field.phy_link_status, link_field.duplex, link_field.pause,
   link_field.auto_mode, link_field.auto_pause, link_field.force_pause,
   link_field.duplex_setting, link_field.link_speed, link_field.force_link_speed,
   link_field.auto_link_speed, link_field.support_speeds, link_field.auto_link_speeds,
   link_field.preemphasis, link_field.phy_ver0, link_field.phy_ver1, link_field.phy_ver2,
   link_field.media_type, link_field.transceiver, link_field.phy_addr].map
    bnxt_event.link_write

/-- The value that `bnxt_update_link(softc, true)` stores in `link_up` when
the reply to the link query is `resp`. -/
def new_link_up (L : bnxt_link_defs) (resp : hwrm_port_phy_qcfg_output) : Nat :=
  if resp.link = L.BNXT_LINK_LINK then 1 else 0

/-- The link states that iflib is notified of, in the order of the
notifications. -/
def notifications : List bnxt_event → List Nat
  | [] => []
  | bnxt_event.link_state_change st :: es => st :: notifications es
  | _ :: es => notifications es

/-- Whether every write to Link Info in a sequence of events happens while
the lock of the command channel is held, `held` telling whether the lock is
held when the sequence starts. -/
def writes_locked : Bool → List bnxt_event → Bool
  | _, [] => true
  | _, bnxt_event.hwrm_lock :: es => writes_locked true es
  | _, bnxt_event.hwrm_unlock :: es => writes_locked false es
  | held, bnxt_event.link_write _ :: es => held && writes_locked held es
  | held, _ :: es => writes_locked held es

/-- Whether the lock of the command channel is held after a sequence of
events, `held` telling whether it is held when the sequence starts. -/
def lock_held : Bool → List bnxt_event → Bool
  | held, [] => held
  | _, bnxt_event.hwrm_lock :: es => lock_held true es
  | _, bnxt_event.hwrm_unlock :: es => lock_held false es
  | held, _ :: es => lock_held held es

/-- Header values of the link monitor on a little-endian host. -/
def link_defs0 : bnxt_link_defs :=
  { BNXT_LINK_LINK := 2, HWRM_PORT_PHY_QCFG_OUTPUT_PHY_ADDR_MASK := 0x1f,
    BNXT_LINK_DUPLEX_FULL := 1, BNXT_LINK_PAUSE_TX := 1, BNXT_LINK_PAUSE_RX := 2,
    BNXT_LINK_PAUSE_BOTH := 3, BNXT_AUTONEG_SPEED := 1, BNXT_AUTONEG_FLOW_CTRL := 2,
    BNXT_AUTO_MODE := fun m => decide (1 ≤ m ∧ m ≤ 4),
    BNXT_LINK_SPEED_100MB := 1, BNXT_LINK_SPEED_1GB := 10, BNXT_LINK_SPEED_2_5GB := 25,
    BNXT_LINK_SPEED_10GB := 100, BNXT_LINK_SPEED_20GB := 200, BNXT_LINK_SPEED_25GB := 250,
    BNXT_LINK_SPEED_40GB := 400, BNXT_LINK_SPEED_50GB := 500,
    le16toh := fun x => x, le32toh := fun x => x }

/-- The notification of `bnxt_update_link`: with `chng_link_state` set, iflib
is told the new link state when the new value of `link_up` differs from the
value `old` held before the call. -/
def link_notice (L : bnxt_link_defs) (chng_link_state : Bool) (old : Nat)
    (resp : hwrm_port_phy_qcfg_output) : List bnxt_event :=
  if chng_link_state = true ∧ old ≠ new_link_up L resp then
    [bnxt_event.link_state_change
      (if resp.link = L.BNXT_LINK_LINK then LINK_STATE_UP else LINK_STATE_DOWN)]
  else []

/-- The events of a `bnxt_update_link` whose link query succeeds. -/
def update_link_events (L : bnxt_link_defs) (chng_link_state : Bool) (old : Nat)
    (resp : hwrm_port_phy_qcfg_output) : List bnxt_event :=
  bnxt_event.hwrm_lock :: refresh_events ++
    bnxt_event.link_write link_field.link_up :: link_notice L chng_link_state old resp ++
    [bnxt_event.hwrm_unlock]

/-- A firmware that answers every link query with: link established, speed
word 100, full duplex, pause in both directions. -/
def env_link : bnxt_env :=
  { env_ok with
    phy_qcfg := fun _ =>
      { (default : hwrm_port_phy_qcfg_output) with
        link := 2, link_speed := 100, duplex := 1, pause := 3, auto_mode := 1, auto_pause := 3,
        force_link_speed := 100, auto_link_speed := 100, support_speeds := 0x40,
        auto_link_speed_mask := 0x40 } }

/-- The device context of a running interface with one transmit and two
receive queue-sets, after `bnxt_media_status` saw the link come up in
`env_link`. -/
def softc_link_up : bnxt_softc :=
  (bnxt_update_link link_defs0 env_link true (softc_up 1 2)).2

/-- An environment in which every request succeeds and the interface is a
member of two multicast groups. -/
def env_mc : bnxt_env :=
  { env_ok with if_multiaddrs := [[0x01, 0x00, 0x5e, 0x00, 0x00, 0x01],
                                  [0x33, 0x33, 0x00, 0x00, 0x00, 0x01]] }

/-- The device context after attach and the allocation of one transmit and
two receive queue-sets, the 96 bytes of the multicast list buffer of VNIC 0
all holding `0xff`. -/
def softc_mc : bnxt_softc :=
  dma_write ((softc_alloc 1 2).vnic_info.at 0).mc_list.idi_vaddr (List.replicate 96 0xff)
    (softc_alloc 1 2)

/-! ## What bring-down keeps -/

/-- What queue-set allocation stores in a ring: its id, doorbell offset, size,
mask and base addresses. -/
def ring_layout (r : bnxt_ring) : Nat × Nat × Nat × Int × Nat × Nat :=
  (r.id, r.doorbell, r.ring_size, r.ring_mask, r.vaddr, r.paddr)

/-- A VNIC without its id and context id. -/
def vnic_settings (v : bnxt_vnic_info) : bnxt_vnic_info := { v with id := 0, ctx_id := 0 }

/-! ## The raw consumer during bring-up -/

/-- Between the device contexts `s` and `t` no completion ring lost a rewound
raw consumer, and the arrays of completion rings kept their lengths. -/
def cons_kept (s t : bnxt_softc) : Prop :=
  (s.def_cp_ring.raw_cons = -1 → t.def_cp_ring.raw_cons = -1) ∧
  (∀ j, (s.rx_cp_rings.at j).raw_cons = -1 → (t.rx_cp_rings.at j).raw_cons = -1) ∧
  (∀ j, (s.tx_cp_rings.at j).raw_cons = -1 → (t.tx_cp_rings.at j).raw_cons = -1) ∧
  t.rx_cp_rings.elems.length = s.rx_cp_rings.elems.length ∧
  t.tx_cp_rings.elems.length = s.tx_cp_rings.elems.length

/-! ## Teardown -/

/-- The device context after attach, the allocation of one transmit and two
receive queue-sets and `bnxt_queues_free`, every request succeeding. -/
def softc_freed : bnxt_softc := bnxt_queues_free env_ok (softc_alloc 1 2)

/-! ## The order of stores and commands in `bnxt_init` -/

/-- The firmware commands among the events, in their order. -/
def init_cmds : List init_event → List hwrm_cmd
  | [] => []
  | init_event.cmd c :: es => c :: init_cmds es
  | _ :: es => init_cmds es

/-- In a list of events, every command that allocates a completion ring comes
directly after a store of -1 to the raw consumer of that completion ring. -/
def stores_first (tr : List init_event) : Prop :=
  ∀ (k : Nat) (ring : bnxt_ring) (c st : Nat) (irq : Bool),
    tr[k]? = some (init_event.cmd (hwrm_cmd.ring_alloc ring_type.CMPL ring c st irq)) →
    ∃ j, k = j + 1 ∧ tr[j]? = some (init_event.cons_store ring (-1))

/-- From the traced device context `t` to `u` the events grew by a list that
satisfies `stores_first`, and the command log grew by the commands of that
list. -/
def trace_ok (t u : bnxt_softc × List init_event) : Prop :=
  ∃ w, u.2 = t.2 ++ w ∧ stores_first w ∧ u.1.hwrm_log = t.1.hwrm_log ++ init_cmds w

/-- The allocation commands of `bnxt_init`, from the default completion ring
to the last transmit queue-set, with their events. -/
def init_alloc_traced (K : bnxt_defs) (env : bnxt_env) :
    bnxt_softc × List init_event → Nat × bnxt_softc × List init_event :=
  seq_rc (init_def_step_traced K env)
    (seq_rc (fun t => for_rc_result (init_rx_body_traced K env) t.1.nrxqsets t)
      (fun t => for_rc_result (init_tx_body_traced K env) t.1.ntxqsets t))

/-! # Theorems -/

/-! ## Arrays: reads after writes -/


theorem karray.upd_getElem? {α : Type} [Inhabited α] (a : karray α) (i j : Nat) (f : α → α) :
    (a.upd i f).elems[j]? = if i = j then (a.elems[j]?).map f else a.elems[j]? := by
  unfold karray.upd karray.at
  simp only [List.getElem?_set]
  by_cases h : i = j
  · subst h
    by_cases hl : i < a.elems.length
    · simp [hl, List.getElem?_eq_getElem hl]
    · simp [hl, List.getElem?_eq_none (Nat.le_of_not_lt hl)]
  · simp [h]

theorem karray.upd_addr {α : Type} [Inhabited α] (a : karray α) (i : Nat) (f : α → α) :
    (a.upd i f).addr = a.addr := rfl

theorem karray.upd_length {α : Type} [Inhabited α] (a : karray α) (i : Nat) (f : α → α) :
    (a.upd i f).elems.length = a.elems.length := by
  simp [karray.upd]

theorem karray.eq_of_getElem? {α : Type} (a b : karray α) (h1 : a.addr = b.addr)
    (h2 : ∀ j : Nat, a.elems[j]? = b.elems[j]?) : a = b := by
  cases a; cases b
  simp only at h1 h2
  subst h1
  rw [List.ext_getElem? h2]

theorem karray.at_upd_self {α : Type} [Inhabited α] (a : karray α) (i : Nat) (f : α → α)
    (h : i < a.elems.length) : (a.upd i f).at i = f (a.at i) := by
  simp [karray.at, karray.upd_getElem?, List.getElem?_eq_getElem h]

theorem karray.at_upd_ne {α : Type} [Inhabited α] (a : karray α) (i j : Nat) (f : α → α)
    (h : i ≠ j) : (a.upd i f).at j = a.at j := by
  simp [karray.at, karray.upd_getElem?, h]

theorem karray.upd_upd {α : Type} [Inhabited α] (a : karray α) (i : Nat) (f g : α → α) :
    (a.upd i f).upd i g = a.upd i (fun x => g (f x)) := by
  apply karray.eq_of_getElem?
  · rfl
  · intro j
    simp only [karray.upd_getElem?]
    by_cases h : i = j
    · simp [h]
      rfl
    · simp [h]

theorem karray.upto_zero {α : Type} (a : karray α) (f : Nat → α → α) : a.upto 0 f = a := by
  apply karray.eq_of_getElem?
  · rfl
  · intro j
    simp [karray.upto, List.getElem?_mapIdx]

theorem karray.upto_getElem? {α : Type} (a : karray α) (n j : Nat) (f : Nat → α → α) :
    (a.upto n f).elems[j]? = if j < n then (a.elems[j]?).map (f j) else a.elems[j]? := by
  simp only [karray.upto, List.getElem?_mapIdx]
  by_cases h : j < n
  · simp [h]
  · simp [h]

theorem karray.upto_length {α : Type} (a : karray α) (n : Nat) (f : Nat → α → α) :
    (a.upto n f).elems.length = a.elems.length := by
  simp [karray.upto]

theorem karray.upto_upd {α : Type} [Inhabited α] (a : karray α) (n : Nat) (f : Nat → α → α)
    (g : α → α) (h : ∀ x, g x = f n x) : (a.upto n f).upd n g = a.upto (n + 1) f := by
  apply karray.eq_of_getElem?
  · rfl
  · intro j
    simp only [karray.upd_getElem?, karray.upto_getElem?]
    by_cases h1 : n = j
    · subst h1
      have hg : g = f n := funext h
      simp [hg]
    · by_cases h2 : j < n
      · have h3 : j < n + 1 := by omega
        simp [h1, h2, h3]
      · have h3 : ¬ j < n + 1 := by omega
        simp [h1, h2, h3]

theorem karray.at_upto {α : Type} [Inhabited α] (a : karray α) (n i : Nat) (f : Nat → α → α)
    (h : i < a.elems.length) :
    (a.upto n f).at i = if i < n then f i (a.at i) else a.at i := by
  simp only [karray.at, karray.upto_getElem?, List.getElem?_eq_getElem h]
  by_cases h1 : i < n
  · simp [h1]
  · simp [h1]

theorem karray.mem_take_upto {α : Type} (a : karray α) (n : Nat) (f : Nat → α → α) (c : α)
    (h : c ∈ (a.upto n f).elems.take n) : ∃ i x, i < n ∧ a.elems[i]? = some x ∧ c = f i x := by
  rw [List.mem_iff_getElem?] at h
  obtain ⟨i, hi⟩ := h
  rw [List.getElem?_take] at hi
  by_cases h1 : i < n
  · simp only [h1, if_true, karray.upto_getElem?] at hi
    cases hx : a.elems[i]? with
    | none => simp [hx] at hi
    | some x =>
      simp only [hx, Option.map_some', Option.some.injEq] at hi
      exact ⟨i, x, h1, hx, hi.symm⟩
  · simp [h1] at hi

/-! ## `bnxt_clear_ids` -/

theorem for_loop_clear_ids_tx (K : bnxt_defs) (n : Nat) (s : bnxt_softc) :
    for_loop (clear_ids_tx K) n s =
      { s with tx_cp_rings := s.tx_cp_rings.upto n (fun _ => cp_ring_cleared K),
               tx_rings := s.tx_rings.upto n (fun _ => tx_ring_cleared K) } := by
  induction n with
  | zero => simp [for_loop, karray.upto_zero]
  | succ n ih =>
    rw [for_loop, ih]
    simp only [clear_ids_tx, karray.upd_upd]
    congr 1 <;> exact karray.upto_upd _ _ _ _ (fun _ => rfl)

theorem for_loop_clear_ids_rx (K : bnxt_defs) (n : Nat) (s : bnxt_softc) :
    for_loop (clear_ids_rx K) n s =
      { s with rx_cp_rings := s.rx_cp_rings.upto n (fun _ => cp_ring_cleared K),
               rx_rings := s.rx_rings.upto n (fun _ => rx_ring_cleared K),
               ag_rings := s.ag_rings.upto n (fun _ => rx_ring_cleared K),
               grp_info := s.grp_info.upto n (fun _ => grp_cleared K),
               vnic_info := s.vnic_info.upto n (fun _ => vnic_cleared K) } := by
  induction n with
  | zero => simp [for_loop, karray.upto_zero]
  | succ n ih =>
    rw [for_loop, ih]
    simp only [clear_ids_rx, karray.upd_upd]
    congr 1 <;> exact karray.upto_upd _ _ _ _ (fun _ => rfl)

/-- What `bnxt_clear_ids` does to the device context, field by field. -/
theorem bnxt_clear_ids_eq (K : bnxt_defs) (s : bnxt_softc) :
    bnxt_clear_ids K s =
      { s with def_cp_ring := cp_ring_cleared K s.def_cp_ring,
               tx_cp_rings := s.tx_cp_rings.upto s.ntxqsets (fun _ => cp_ring_cleared K),
               tx_rings := s.tx_rings.upto s.ntxqsets (fun _ => tx_ring_cleared K),
               rx_cp_rings := s.rx_cp_rings.upto s.nrxqsets (fun _ => cp_ring_cleared K),
               rx_rings := s.rx_rings.upto s.nrxqsets (fun _ => rx_ring_cleared K),
               ag_rings := s.ag_rings.upto s.nrxqsets (fun _ => rx_ring_cleared K),
               grp_info := s.grp_info.upto s.nrxqsets (fun _ => grp_cleared K),
               vnic_info := s.vnic_info.upto s.nrxqsets (fun _ => vnic_cleared K) } := by
  simp only [bnxt_clear_ids, for_loop_clear_ids_tx, for_loop_clear_ids_rx]
  rfl

theorem karray.map_upto {α β : Type} (a : karray α) (n : Nat) (f : Nat → α → α) (p : α → β)
    (h : ∀ i x, p (f i x) = p x) : (a.upto n f).elems.map p = a.elems.map p := by
  apply List.ext_getElem?
  intro j
  simp only [List.getElem?_map, karray.upto_getElem?]
  by_cases h1 : j < n
  · cases hx : a.elems[j]? with
    | none => simp [h1]
    | some x => simp [h1, h]
  · simp [h1]

theorem ids_cleared_clear_ids (K : bnxt_defs) (s : bnxt_softc) :
    ids_cleared K (bnxt_clear_ids K s) := by
  rw [bnxt_clear_ids_eq]
  refine ⟨rfl, rfl, ?_, ?_, ?_, ?_, ?_, ?_, ?_⟩
  all_goals
    intro c hc
    obtain ⟨i, x, _, _, hcx⟩ := karray.mem_take_upto _ _ _ c hc
    subst hcx
    simp [cp_ring_cleared, tx_ring_cleared, rx_ring_cleared, grp_cleared, vnic_cleared]

/-- C1 (as amended): once `bnxt_clear_ids` has run (`bnxt_stop` included), for
every prior device state and every allocated queue-set, the physical id of
every ring, the statistics-context handle of every completion ring, the group
id of every ring group and the id and context id of every VNIC hold the
sentinel; the ring, completion-ring and statistics handles stored inside the
ring groups are left as they were. -/
theorem clear_ids_resets_ids (K : bnxt_defs) (env : bnxt_env) (s : bnxt_softc) :
    ids_cleared K (bnxt_clear_ids K s) ∧
    ids_cleared K (bnxt_stop K env s) ∧
    (bnxt_clear_ids K s).grp_info.elems.map
        (fun g => (g.stats_ctx, g.rx_ring_id, g.ag_ring_id, g.cp_ring_id)) =
      s.grp_info.elems.map
        (fun g => (g.stats_ctx, g.rx_ring_id, g.ag_ring_id, g.cp_ring_id)) := by
  refine ⟨ids_cleared_clear_ids K s, ?_, ?_⟩
  · exact ids_cleared_clear_ids K (bnxt_hwrm_func_reset env s).2
  · rw [bnxt_clear_ids_eq]
    exact karray.map_upto _ _ _ _ (fun _ _ => rfl)

/-- C1 (as stated) fails: after a successful bring-up with one receive
queue-set, `bnxt_clear_ids` leaves the receive-ring handle of ring group 0 at
the value the firmware assigned, not at the sentinel. -/
theorem clear_ids_keeps_group_handles :
    0 < (bnxt_clear_ids defs0 (softc_up 1 1)).nrxqsets ∧
    ((bnxt_clear_ids defs0 (softc_up 1 1)).grp_info.at 0).rx_ring_id ≠
      u16 defs0.HWRM_NA_SIGNATURE := by
  decide

/-! ## Roll-back of the queue-set allocators -/

theorem tx_queues_alloc_rollback (K : bnxt_defs) (env : bnxt_env) (vaddrs paddrs : List Nat)
    (ntxqs n : Nat) (s : bnxt_softc) (j : Nat) (hj : j < 3)
    (hok : ∀ p, p < j → env.alloc_rc (s.mem.nreq + p) = 0)
    (hfail : env.alloc_rc (s.mem.nreq + j) ≠ 0) :
    (bnxt_tx_queues_alloc K env vaddrs paddrs ntxqs n s).1 =
        (if j < 2 then ENOMEM else env.alloc_rc (s.mem.nreq + j)) ∧
    (bnxt_tx_queues_alloc K env vaddrs paddrs ntxqs n s).2.mem.live = s.mem.live ∧
    (bnxt_tx_queues_alloc K env vaddrs paddrs ntxqs n s).2.mem.trace =
        s.mem.trace ++ rollback_trace ((tx_requests K s.mem.nreq n).take j) ∧
    (bnxt_tx_queues_alloc K env vaddrs paddrs ntxqs n s).2.ntxqsets = s.ntxqsets := by
  interval_cases j
  · have h0 : env.alloc_rc s.mem.nreq ≠ 0 := by simpa using hfail
    simp [bnxt_tx_queues_alloc, malloc, h0, zeroed_array, tx_cp_alloc_fail, rollback_trace]
  · have h0 : env.alloc_rc s.mem.nreq = 0 := by simpa using hok 0 (by omega)
    simp [bnxt_tx_queues_alloc, malloc, h0, hfail, zeroed_array, tx_cp_alloc_fail,
      tx_ring_alloc_fail, free, rollback_trace, tx_requests]
  · have h0 : env.alloc_rc s.mem.nreq = 0 := by simpa using hok 0 (by omega)
    have h1 : env.alloc_rc (s.mem.nreq + 1) = 0 := hok 1 (by omega)
    simp [bnxt_tx_queues_alloc, malloc, iflib_dma_alloc, h0, h1, hfail, zeroed_array,
      tx_cp_alloc_fail, tx_ring_alloc_fail, tx_dma_alloc_fail, free, rollback_trace, tx_requests]

theorem rx_queues_alloc_rollback (K : bnxt_defs) (env : bnxt_env) (vaddrs paddrs : List Nat)
    (nrxqs n : Nat) (s : bnxt_softc) (j : Nat) (hj : j < 6)
    (hok : ∀ p, p < j → env.alloc_rc (s.mem.nreq + p) = 0)
    (hfail : env.alloc_rc (s.mem.nreq + j) ≠ 0) :
    (bnxt_rx_queues_alloc K env vaddrs paddrs nrxqs n s).1 =
        (if j < 5 then ENOMEM else env.alloc_rc (s.mem.nreq + j)) ∧
    (bnxt_rx_queues_alloc K env vaddrs paddrs nrxqs n s).2.mem.live = s.mem.live ∧
    (bnxt_rx_queues_alloc K env vaddrs paddrs nrxqs n s).2.mem.trace =
        s.mem.trace ++ rollback_trace ((rx_requests K s.mem.nreq n).take j) ∧
    (bnxt_rx_queues_alloc K env vaddrs paddrs nrxqs n s).2.nrxqsets = s.nrxqsets := by
  interval_cases j
  · have h0 : env.alloc_rc s.mem.nreq ≠ 0 := by simpa using hfail
    simp [bnxt_rx_queues_alloc, malloc, h0, zeroed_array, rx_cp_alloc_fail, rollback_trace]
  · have h0 : env.alloc_rc s.mem.nreq = 0 := by simpa using hok 0 (by omega)
    simp [bnxt_rx_queues_alloc, malloc, h0, hfail, zeroed_array, rx_cp_alloc_fail,
      rx_ring_alloc_fail, free, rollback_trace, rx_requests]
  · have h0 : env.alloc_rc s.mem.nreq = 0 := by simpa using hok 0 (by omega)
    have h1 : env.alloc_rc (s.mem.nreq + 1) = 0 := hok 1 (by omega)
    simp [bnxt_rx_queues_alloc, malloc, h0, h1, hfail, zeroed_array, rx_cp_alloc_fail,
      rx_ring_alloc_fail, rx_ag_alloc_fail, free, rollback_trace, rx_requests]
  · have h0 : env.alloc_rc s.mem.nreq = 0 := by simpa using hok 0 (by omega)
    have h1 : env.alloc_rc (s.mem.nreq + 1) = 0 := hok 1 (by omega)
    have h2 : env.alloc_rc (s.mem.nreq + 1 + 1) = 0 := hok 2 (by omega)
    simp [bnxt_rx_queues_alloc, malloc, h0, h1, h2, hfail, zeroed_array, rx_cp_alloc_fail,
      rx_ring_alloc_fail, rx_ag_alloc_fail, rx_grp_alloc_fail, free, rollback_trace, rx_requests]
  · have h0 : env.alloc_rc s.mem.nreq = 0 := by simpa using hok 0 (by omega)
    have h1 : env.alloc_rc (s.mem.nreq + 1) = 0 := hok 1 (by omega)
    have h2 : env.alloc_rc (s.mem.nreq + 1 + 1) = 0 := hok 2 (by omega)
    have h3 : env.alloc_rc (s.mem.nreq + 1 + 1 + 1) = 0 := hok 3 (by omega)
    simp [bnxt_rx_queues_alloc, malloc, h0, h1, h2, h3, hfail, zeroed_array, rx_cp_alloc_fail,
      rx_ring_alloc_fail, rx_ag_alloc_fail, rx_grp_alloc_fail, rx_vnic_alloc_fail, free,
      rollback_trace, rx_requests]
  · have h0 : env.alloc_rc s.mem.nreq = 0 := by simpa using hok 0 (by omega)
    have h1 : env.alloc_rc (s.mem.nreq + 1) = 0 := hok 1 (by omega)
    have h2 : env.alloc_rc (s.mem.nreq + 1 + 1) = 0 := hok 2 (by omega)
    have h3 : env.alloc_rc (s.mem.nreq + 1 + 1 + 1) = 0 := hok 3 (by omega)
    have h4 : env.alloc_rc (s.mem.nreq + 1 + 1 + 1 + 1) = 0 := hok 4 (by omega)
    simp [bnxt_rx_queues_alloc, malloc, iflib_dma_alloc, h0, h1, h2, h3, h4, hfail,
      zeroed_array, rx_cp_alloc_fail, rx_ring_alloc_fail, rx_ag_alloc_fail, rx_grp_alloc_fail,
      rx_vnic_alloc_fail, rx_dma_alloc_fail, free, rollback_trace, rx_requests]

/-! ## Successful queue-set allocation -/

theorem for_loop_tx_queues_body (K : bnxt_defs) (vaddrs paddrs : List Nat) (ntxqs n : Nat)
    (s : bnxt_softc) :
    for_loop (tx_queues_body K vaddrs paddrs ntxqs) n s =
      { s with
        tx_cp_rings := s.tx_cp_rings.upto n (tx_cp_ring_setup K s vaddrs paddrs ntxqs),
        tx_rings := s.tx_rings.upto n (tx_ring_setup K s vaddrs paddrs ntxqs) } := by
  induction n with
  | zero => simp [for_loop, karray.upto_zero]
  | succ n ih =>
    rw [for_loop, ih]
    simp only [tx_queues_body]
    congr 1 <;> exact karray.upto_upd _ _ _ _ (fun _ => rfl)

/-- A successful `bnxt_tx_queues_alloc`, field by field. -/
theorem bnxt_tx_queues_alloc_ok (K : bnxt_defs) (env : bnxt_env) (vaddrs paddrs : List Nat)
    (ntxqs n : Nat) (s : bnxt_softc)
    (h : (bnxt_tx_queues_alloc K env vaddrs paddrs ntxqs n s).1 = 0) :
    (bnxt_tx_queues_alloc K env vaddrs paddrs ntxqs n s).2 =
      { s with
        tx_cp_rings := (zeroed_array (s.mem.nreq + 1) n).upto n
          (tx_cp_ring_setup K s vaddrs paddrs ntxqs),
        tx_rings := (zeroed_array (s.mem.nreq + 2) n).upto n
          (tx_ring_setup K s vaddrs paddrs ntxqs),
        tx_stats := (bnxt_tx_queues_alloc K env vaddrs paddrs ntxqs n s).2.tx_stats,
        mem := (bnxt_tx_queues_alloc K env vaddrs paddrs ntxqs n s).2.mem,
        ntxqsets := n } := by
  by_cases h0 : env.alloc_rc s.mem.nreq = 0
  · by_cases h1 : env.alloc_rc (s.mem.nreq + 1) = 0
    · by_cases h2 : env.alloc_rc (s.mem.nreq + 1 + 1) = 0
      · simp [bnxt_tx_queues_alloc, malloc, iflib_dma_alloc, h0, h1, h2, zeroed_array,
          for_loop_tx_queues_body]
        exact ⟨rfl, rfl⟩
      · exfalso
        have := (tx_queues_alloc_rollback K env vaddrs paddrs ntxqs n s 2 (by omega)
          (by intro p hp; interval_cases p <;> simp [h0, h1]) h2).1
        rw [this] at h
        simp at h
        exact h2 h
    · exfalso
      have := (tx_queues_alloc_rollback K env vaddrs paddrs ntxqs n s 1 (by omega)
        (by intro p hp; interval_cases p; simp [h0]) h1).1
      rw [this] at h
      simp [ENOMEM] at h
  · exfalso
    have := (tx_queues_alloc_rollback K env vaddrs paddrs ntxqs n s 0 (by omega)
      (by intro p hp; omega) h0).1
    rw [this] at h
    simp [ENOMEM] at h

theorem for_rc_ok {σ : Type} (body : Nat → σ → Nat × σ) (P : Nat → σ → Prop) (s : σ)
    (h0 : P 0 s)
    (hstep : ∀ i t, P i t → (body i t).1 = 0 → P (i + 1) (body i t).2) (n : Nat)
    (h : (for_rc body n s).1 = 0) :
    P n (for_rc body n s).2.2 ∧ (for_rc body n s).2.1 = n := by
  induction n with
  | zero => exact ⟨h0, rfl⟩
  | succ n ih =>
    unfold for_rc at h ⊢
    by_cases hr : (for_rc body n s).1 = 0
    · by_cases hb : (body n (for_rc body n s).2.2).1 = 0
      · simp only [hr, hb, if_true]
        exact ⟨hstep n _ (ih hr).1 hb, trivial⟩
      · simp [hr, hb] at h
    · simp [hr] at h

theorem rx_queues_body_inv (K : bnxt_defs) (env : bnxt_env) (vaddrs paddrs : List Nat)
    (nrxqs nrxqsets : Nat) (s : bnxt_softc) (i : Nat) (t : bnxt_softc)
    (h : rx_loop_inv K vaddrs paddrs nrxqs nrxqsets s i t) :
    rx_loop_inv K vaddrs paddrs nrxqs nrxqsets s (i + 1)
      (rx_queues_body K env vaddrs paddrs nrxqs nrxqsets i t).2 := by
  obtain ⟨h1, h2, h3, h4, h5, h6, h7, h8, h9, h10, h11⟩ := h
  refine ⟨?_, ?_, ?_, h4, h5, h6, h7, h8, h9, h10, h11⟩
  · simp only [rx_queues_body, h1]
    exact karray.upto_upd _ _ _ _ (fun _ => by simp [rx_cp_ring_setup, h4])
  · simp only [rx_queues_body, h2]
    exact karray.upto_upd _ _ _ _ (fun _ => by simp [rx_ring_setup, h4])
  · simp only [rx_queues_body, h3]
    exact karray.upto_upd _ _ _ _ (fun _ => by simp [ag_ring_setup, h4])

theorem bnxt_rx_queues_alloc_loop (K : bnxt_defs) (env : bnxt_env) (vaddrs paddrs : List Nat)
    (nrxqs n : Nat) (s : bnxt_softc)
    (hok : ∀ p, p < 6 → env.alloc_rc (s.mem.nreq + p) = 0) :
    bnxt_rx_queues_alloc K env vaddrs paddrs nrxqs n s =
      if (for_rc (rx_queues_body K env vaddrs paddrs nrxqs n) n (rx_prepared K env n s)).1 ≠ 0
      then rx_mc_alloc_fail
        (for_rc (rx_queues_body K env vaddrs paddrs nrxqs n) n (rx_prepared K env n s)).1
        (for_rc (rx_queues_body K env vaddrs paddrs nrxqs n) n (rx_prepared K env n s)).2.1
        (for_rc (rx_queues_body K env vaddrs paddrs nrxqs n) n (rx_prepared K env n s)).2.2
      else ((for_rc (rx_queues_body K env vaddrs paddrs nrxqs n) n (rx_prepared K env n s)).1,
        { (for_rc (rx_queues_body K env vaddrs paddrs nrxqs n) n
          (rx_prepared K env n s)).2.2 with nrxqsets := n }) := by
  have h0 : env.alloc_rc s.mem.nreq = 0 := by simpa using hok 0 (by omega)
  have h1 : env.alloc_rc (s.mem.nreq + 1) = 0 := hok 1 (by omega)
  have h2 : env.alloc_rc (s.mem.nreq + 1 + 1) = 0 := hok 2 (by omega)
  have h3 : env.alloc_rc (s.mem.nreq + 1 + 1 + 1) = 0 := hok 3 (by omega)
  have h4 : env.alloc_rc (s.mem.nreq + 1 + 1 + 1 + 1) = 0 := hok 4 (by omega)
  have h5 : env.alloc_rc (s.mem.nreq + 1 + 1 + 1 + 1 + 1) = 0 := hok 5 (by omega)
  have hp : rx_prepared K env n s =
      { s with
        rx_cp_rings := { addr := s.mem.nreq + 1, elems := List.replicate n default },
        rx_rings := { addr := s.mem.nreq + 1 + 1, elems := List.replicate n default },
        ag_rings := { addr := s.mem.nreq + 1 + 1 + 1, elems := List.replicate n default },
        grp_info := { addr := s.mem.nreq + 1 + 1 + 1 + 1, elems := List.replicate n default },
        vnic_info :=
          { addr := s.mem.nreq + 1 + 1 + 1 + 1 + 1, elems := List.replicate n default },
        rx_stats :=
          { idi_vaddr := s.mem.nreq + 1 + 1 + 1 + 1 + 1 + 1,
            idi_paddr := env.dma_paddr (s.mem.nreq + 1 + 1 + 1 + 1 + 1 + 1),
            idi_size := K.sizeof_ctx_hw_stats * n },
        mem :=
          { nreq := s.mem.nreq + 1 + 1 + 1 + 1 + 1 + 1,
            live := (s.mem.nreq + 1 + 1 + 1 + 1 + 1 + 1) :: (s.mem.nreq + 1 + 1 + 1 + 1 + 1) ::
              (s.mem.nreq + 1 + 1 + 1 + 1) :: (s.mem.nreq + 1 + 1 + 1) ::
              (s.mem.nreq + 1 + 1) :: (s.mem.nreq + 1) :: s.mem.live,
            trace := s.mem.trace ++
              [kmem_event.alloc (s.mem.nreq + 1) (K.sizeof_bnxt_cp_ring * n),
               kmem_event.alloc (s.mem.nreq + 1 + 1) (K.sizeof_bnxt_rx_ring * n),
               kmem_event.alloc (s.mem.nreq + 1 + 1 + 1) (K.sizeof_bnxt_rx_ring * n),
               kmem_event.alloc (s.mem.nreq + 1 + 1 + 1 + 1) (K.sizeof_bnxt_grp_info * n),
               kmem_event.alloc (s.mem.nreq + 1 + 1 + 1 + 1 + 1) (K.sizeof_bnxt_vnic_info * n),
               kmem_event.alloc (s.mem.nreq + 1 + 1 + 1 + 1 + 1 + 1)
                 (K.sizeof_ctx_hw_stats * n)] } } := by
    simp [rx_prepared, zeroed_array, rx_requests]
  rw [hp]
  simp only [bnxt_rx_queues_alloc, malloc, iflib_dma_alloc, h0, h1, h2, h3, h4, h5, zeroed_array,
    if_true, if_false, Nat.succ_ne_zero, ne_eq, not_true_eq_false, List.append_assoc,
    List.singleton_append, List.cons_append, List.nil_append]
theorem rx_alloc_requests_ok (K : bnxt_defs) (env : bnxt_env) (vaddrs paddrs : List Nat)
    (nrxqs n : Nat) (s : bnxt_softc)
    (h : (bnxt_rx_queues_alloc K env vaddrs paddrs nrxqs n s).1 = 0) :
    ∀ p, p < 6 → env.alloc_rc (s.mem.nreq + p) = 0 := by
  by_contra hne
  push_neg at hne
  obtain ⟨p, hp, hfail⟩ := hne
  -- the first failing request
  have hex : ∃ j, j < 6 ∧ env.alloc_rc (s.mem.nreq + j) ≠ 0 := ⟨p, hp, hfail⟩
  classical
  let j := Nat.find hex
  have hj : j < 6 ∧ env.alloc_rc (s.mem.nreq + j) ≠ 0 := Nat.find_spec hex
  have hmin : ∀ q, q < j → env.alloc_rc (s.mem.nreq + q) = 0 := by
    intro q hq
    by_contra hq0
    exact Nat.find_min hex hq ⟨by omega, hq0⟩
  have hr := (rx_queues_alloc_rollback K env vaddrs paddrs nrxqs n s j hj.1 hmin hj.2).1
  rw [h] at hr
  by_cases h5 : j < 5
  · simp [h5, ENOMEM] at hr
  · simp only [h5, if_false] at hr
    exact hj.2 hr.symm

/-- A successful `bnxt_rx_queues_alloc`: the rings it sets up and the fields
it leaves alone. -/
theorem bnxt_rx_queues_alloc_ok (K : bnxt_defs) (env : bnxt_env) (vaddrs paddrs : List Nat)
    (nrxqs n : Nat) (s : bnxt_softc)
    (h : (bnxt_rx_queues_alloc K env vaddrs paddrs nrxqs n s).1 = 0) :
    rx_loop_inv K vaddrs paddrs nrxqs n (rx_prepared K env n s) n
        (bnxt_rx_queues_alloc K env vaddrs paddrs nrxqs n s).2 ∧
      (bnxt_rx_queues_alloc K env vaddrs paddrs nrxqs n s).2.nrxqsets = n := by
  have hok := rx_alloc_requests_ok K env vaddrs paddrs nrxqs n s h
  rw [bnxt_rx_queues_alloc_loop K env vaddrs paddrs nrxqs n s hok] at h ⊢
  by_cases hl :
      (for_rc (rx_queues_body K env vaddrs paddrs nrxqs n) n (rx_prepared K env n s)).1 = 0
  · simp only [hl, ne_eq, not_true_eq_false, if_false]
    have hinv := (for_rc_ok (rx_queues_body K env vaddrs paddrs nrxqs n)
      (rx_loop_inv K vaddrs paddrs nrxqs n (rx_prepared K env n s)) (rx_prepared K env n s)
      (by simp [rx_loop_inv, karray.upto_zero])
      (fun i t ht _ => rx_queues_body_inv K env vaddrs paddrs nrxqs n _ i t ht) n hl).1
    exact ⟨hinv, trivial⟩
  · simp only [hl, ne_eq, not_false_eq_true, if_true] at h
    exact absurd h hl


/-! ## `bnxt_attach_pre` -/

theorem bnxt_attach_pre_eq (K : bnxt_defs) (env : bnxt_env) (s : bnxt_softc) :
    bnxt_attach_pre K env s =
      if (bnxt_pci_mapping env { s with busmaster := true }).1 ≠ 0
      then ( ENXIO, (bnxt_pci_mapping env { s with busmaster := true }).2)
      else attach_from_lock_init K env (bnxt_pci_mapping env { s with busmaster := true }).2 :=
  rfl

theorem attach_post_of_fail (K : bnxt_defs) (s t : bnxt_softc) (rc : Nat) (r : Nat × bnxt_softc)
    (h1 : r.1 = rc) (hrc : rc ≠ 0) (h2 : r.2.sctx = t.sctx) (h3 : r.2.scctx = t.scctx)
    (h4 : t.sctx = s.sctx) (h5 : t.scctx.isc_nrxqsets = s.scctx.isc_nrxqsets) :
    attach_post K s r := by
  refine ⟨fun h => absurd (h1 ▸ h) hrc, h2.trans h4, ?_⟩
  rw [h3]
  exact h5

theorem attach_from_scctx_post (K : bnxt_defs) (env : bnxt_env) (s : bnxt_softc) :
    attach_post K s (attach_from_scctx K env s) := by
  simp [attach_post, attach_from_scctx, attach_def_cp_ring]

theorem attach_from_reset_post (K : bnxt_defs) (env : bnxt_env) (s : bnxt_softc) :
    attach_post K s (attach_from_reset K env s) := by
  unfold attach_from_reset
  simp only []
  split_ifs with h
  · exact attach_post_of_fail K s (bnxt_clear_ids K (bnxt_hwrm_func_reset env s).2) _ _ rfl h rfl
      rfl (by rw [bnxt_clear_ids_eq]; rfl) (by rw [bnxt_clear_ids_eq]; rfl)
  · have := attach_from_scctx_post K env (bnxt_clear_ids K (bnxt_hwrm_func_reset env s).2)
    refine ⟨this.1, this.2.1.trans ?_, this.2.2.trans ?_⟩
    · rw [bnxt_clear_ids_eq]; rfl
    · rw [bnxt_clear_ids_eq]; rfl

theorem attach_from_qportcfg_post (K : bnxt_defs) (env : bnxt_env) (s : bnxt_softc) :
    attach_post K s (attach_from_qportcfg K env s) := by
  unfold attach_from_qportcfg
  simp only []
  split_ifs with h
  · exact attach_post_of_fail K s (bnxt_hwrm_queue_qportcfg env s).2 _ _ rfl h rfl rfl rfl rfl
  · exact attach_from_reset_post K env (bnxt_hwrm_queue_qportcfg env s).2

theorem bnxt_hwrm_func_qcaps_frame (env : bnxt_env) (s : bnxt_softc) :
    (bnxt_hwrm_func_qcaps env s).2.sctx = s.sctx ∧
      (bnxt_hwrm_func_qcaps env s).2.scctx = s.scctx := by
  unfold bnxt_hwrm_func_qcaps
  simp only []
  split_ifs <;> exact ⟨rfl, rfl⟩

theorem attach_from_qcaps_post (K : bnxt_defs) (env : bnxt_env) (s : bnxt_softc) :
    attach_post K s (attach_from_qcaps K env s) := by
  unfold attach_from_qcaps
  simp only []
  have hf := bnxt_hwrm_func_qcaps_frame env s
  split_ifs with h
  · exact attach_post_of_fail K s (bnxt_hwrm_func_qcaps env s).2 _ _ rfl h rfl rfl hf.1
      (by rw [hf.2])
  · have := attach_from_qportcfg_post K env { (bnxt_hwrm_func_qcaps env s).2 with mac_set := true }
    refine ⟨this.1, this.2.1.trans hf.1, this.2.2.trans ?_⟩
    show (bnxt_hwrm_func_qcaps env s).2.scctx.isc_nrxqsets = _
    rw [hf.2]

theorem attach_from_drv_rgtr_post (K : bnxt_defs) (env : bnxt_env) (s : bnxt_softc) :
    attach_post K s (attach_from_drv_rgtr K env s) := by
  unfold attach_from_drv_rgtr
  simp only []
  split_ifs with h
  · exact attach_post_of_fail K s (bnxt_hwrm_func_drv_rgtr env s).2 _ _ rfl h rfl rfl rfl rfl
  · exact attach_from_qcaps_post K env (bnxt_hwrm_func_drv_rgtr env s).2

theorem attach_from_ver_get_post (K : bnxt_defs) (env : bnxt_env) (s : bnxt_softc) :
    attach_post K s (attach_from_ver_get K env s) := by
  unfold attach_from_ver_get
  simp only []
  split_ifs with h
  · exact attach_post_of_fail K s (bnxt_hwrm_ver_get env s).2 _ _ rfl h rfl rfl rfl rfl
  · exact attach_from_drv_rgtr_post K env (bnxt_hwrm_ver_get env s).2

theorem attach_from_lock_init_post (K : bnxt_defs) (env : bnxt_env) (s : bnxt_softc) :
    attach_post K s (attach_from_lock_init K env s) := by
  unfold attach_from_lock_init
  simp only []
  split_ifs with h
  · exact attach_post_of_fail K s
      (bnxt_alloc_hwrm_dma_mem K env { s with hwrm_lock_init := true }).2 _ _ rfl h rfl rfl rfl rfl
  · exact attach_from_ver_get_post K env
      (bnxt_alloc_hwrm_dma_mem K env { s with hwrm_lock_init := true }).2

theorem bnxt_pci_mapping_frame (env : bnxt_env) (s : bnxt_softc) :
    (bnxt_pci_mapping env s).2.sctx = s.sctx ∧ (bnxt_pci_mapping env s).2.scctx = s.scctx := by
  unfold bnxt_pci_mapping
  simp only []
  split_ifs <;> exact ⟨rfl, rfl⟩

/-- The guarantees of `bnxt_attach_pre`. -/
theorem bnxt_attach_pre_post (K : bnxt_defs) (env : bnxt_env) (s : bnxt_softc) :
    attach_post K s (bnxt_attach_pre K env s) := by
  rw [bnxt_attach_pre_eq]
  have hf := bnxt_pci_mapping_frame env { s with busmaster := true }
  split_ifs with h
  · refine ⟨fun h0 => ?_, hf.1, ?_⟩
    · simp [ ENXIO] at h0
    · show (bnxt_pci_mapping env { s with busmaster := true }).2.scctx.isc_nrxqsets = _
      rw [hf.2]
  · have := attach_from_lock_init_post K env (bnxt_pci_mapping env { s with busmaster := true }).2
    refine ⟨this.1, this.2.1.trans hf.1, this.2.2.trans ?_⟩
    rw [hf.2]

/-! ## The rings after allocation -/

theorem zeroed_array_length {α : Type} [Inhabited α] (a n : Nat) :
    (zeroed_array a n : karray α).elems.length = n ∨ a = 0 := by
  unfold zeroed_array
  by_cases h : a = 0
  · exact Or.inr h
  · left
    simp [h]

theorem karray.take_upto_map {α β : Type} (a : karray α) (n : Nat) (f : Nat → α → α)
    (g : α → β) (v : Nat → β) (hlen : a.elems.length = n)
    (h : ∀ i x, i < n → g (f i x) = v i) :
    ((a.upto n f).elems.take n).map g = (List.range n).map v := by
  apply List.ext_getElem?
  intro j
  simp only [List.getElem?_map, List.getElem?_take, karray.upto_getElem?]
  by_cases hj : j < n
  · have hj2 : j < a.elems.length := by omega
    simp [hj, List.getElem?_eq_getElem hj2, List.getElem?_range hj, h j _ hj]
  · have : (List.range n)[j]? = none := List.getElem?_eq_none (by simp; omega)
    simp [hj, this]

/-- The rings that a successful `bnxt_tx_queues_alloc` leaves in the device
context: ring by ring, the id, doorbell, size and mask. -/
theorem tx_rings_after_alloc (K : bnxt_defs) (env : bnxt_env) (vaddrs paddrs : List Nat)
    (ntxqs n : Nat) (s : bnxt_softc)
    (h : (bnxt_tx_queues_alloc K env vaddrs paddrs ntxqs n s).1 = 0) :
    (rings_tx_cp (bnxt_tx_queues_alloc K env vaddrs paddrs ntxqs n s).2).map
        (fun r => (r.id, r.doorbell, r.ring_size, r.ring_mask)) =
      (List.range n).map (fun i => (s.scctx.isc_nrxqsets * 2 + 1 + i,
        (s.scctx.isc_nrxqsets * 2 + 1 + i) * 0x80, s.sctx.isc_ntxd * 2,
        ((s.sctx.isc_ntxd * 2 : Nat) : Int) - 1)) ∧
    (rings_tx (bnxt_tx_queues_alloc K env vaddrs paddrs ntxqs n s).2).map
        (fun r => (r.id, r.doorbell, r.ring_size, r.ring_mask)) =
      (List.range n).map (fun i => (s.scctx.isc_nrxqsets * 2 + 1 + i,
        (s.scctx.isc_nrxqsets * 2 + 1 + i) * 0x80, s.sctx.isc_ntxd,
        ((s.sctx.isc_ntxd : Nat) : Int) - 1)) := by
  have heq := bnxt_tx_queues_alloc_ok K env vaddrs paddrs ntxqs n s h
  rw [heq]
  simp only [rings_tx_cp, rings_tx, List.map_map]
  constructor
  · apply karray.take_upto_map
    · simp [zeroed_array]
    · intro i x _
      simp [tx_cp_ring_setup]
  · apply karray.take_upto_map
    · simp [zeroed_array]
    · intro i x _
      simp [tx_ring_setup]
/-- The rings that a successful `bnxt_rx_queues_alloc` leaves in the device
context: ring by ring, the id, doorbell, size and mask. -/
theorem rx_rings_after_alloc (K : bnxt_defs) (env : bnxt_env) (vaddrs paddrs : List Nat)
    (nrxqs n : Nat) (s : bnxt_softc)
    (h : (bnxt_rx_queues_alloc K env vaddrs paddrs nrxqs n s).1 = 0) :
    (rings_rx_cp (bnxt_rx_queues_alloc K env vaddrs paddrs nrxqs n s).2).map
        (fun r => (r.id, r.doorbell, r.ring_size, r.ring_mask)) =
      (List.range n).map (fun i => (i + 1, (i + 1) * 0x80, s.sctx.isc_nrxd * 2,
        ((s.sctx.isc_nrxd * 2 : Nat) : Int) - 1)) ∧
    (rings_rx (bnxt_rx_queues_alloc K env vaddrs paddrs nrxqs n s).2).map
        (fun r => (r.id, r.doorbell, r.ring_size, r.ring_mask)) =
      (List.range n).map (fun i => (i + 1, (i + 1) * 0x80, s.sctx.isc_nrxd,
        ((s.sctx.isc_nrxd : Nat) : Int) - 1)) ∧
    (rings_ag (bnxt_rx_queues_alloc K env vaddrs paddrs nrxqs n s).2).map
        (fun r => (r.id, r.doorbell, r.ring_size, r.ring_mask)) =
      (List.range n).map (fun i => (n + i + 1, (n + i + 1) * 0x80, s.sctx.isc_nrxd,
        ((s.sctx.isc_nrxd : Nat) : Int) - 1)) := by
  obtain ⟨⟨h1, h2, h3, _⟩, hn⟩ := bnxt_rx_queues_alloc_ok K env vaddrs paddrs nrxqs n s h
  simp only [rings_rx_cp, rings_rx, rings_ag, List.map_map, hn, h1, h2, h3]
  refine ⟨?_, ?_, ?_⟩
  · apply karray.take_upto_map
    · simp [rx_prepared, zeroed_array]
    · intro i x _
      simp [rx_cp_ring_setup, rx_prepared]
  · apply karray.take_upto_map
    · simp [rx_prepared, zeroed_array]
    · intro i x _
      simp [rx_ring_setup, rx_prepared]
  · apply karray.take_upto_map
    · simp [rx_prepared, zeroed_array]
    · intro i x _
      simp [ag_ring_setup, rx_prepared]

/-- The fields that a successful `bnxt_rx_queues_alloc` leaves alone. -/
theorem rx_alloc_frame (K : bnxt_defs) (env : bnxt_env) (vaddrs paddrs : List Nat)
    (nrxqs n : Nat) (s : bnxt_softc)
    (h : (bnxt_rx_queues_alloc K env vaddrs paddrs nrxqs n s).1 = 0) :
    (bnxt_rx_queues_alloc K env vaddrs paddrs nrxqs n s).2.sctx = s.sctx ∧
    (bnxt_rx_queues_alloc K env vaddrs paddrs nrxqs n s).2.scctx = s.scctx ∧
    (bnxt_rx_queues_alloc K env vaddrs paddrs nrxqs n s).2.def_cp_ring = s.def_cp_ring ∧
    rings_tx_cp (bnxt_rx_queues_alloc K env vaddrs paddrs nrxqs n s).2 = rings_tx_cp s ∧
    rings_tx (bnxt_rx_queues_alloc K env vaddrs paddrs nrxqs n s).2 = rings_tx s := by
  obtain ⟨⟨_, _, _, h4, h5, h6, h7, h8, h9, _⟩, _⟩ :=
    bnxt_rx_queues_alloc_ok K env vaddrs paddrs nrxqs n s h
  refine ⟨h4, h5, h6, ?_, ?_⟩
  · simp only [rings_tx_cp, h7, h9]
    rfl
  · simp only [rings_tx, h8, h9]
    rfl

/-- The fields that a successful `bnxt_tx_queues_alloc` leaves alone. -/
theorem tx_alloc_frame (K : bnxt_defs) (env : bnxt_env) (vaddrs paddrs : List Nat)
    (ntxqs n : Nat) (s : bnxt_softc)
    (h : (bnxt_tx_queues_alloc K env vaddrs paddrs ntxqs n s).1 = 0) :
    (bnxt_tx_queues_alloc K env vaddrs paddrs ntxqs n s).2.sctx = s.sctx ∧
    (bnxt_tx_queues_alloc K env vaddrs paddrs ntxqs n s).2.scctx = s.scctx ∧
    (bnxt_tx_queues_alloc K env vaddrs paddrs ntxqs n s).2.def_cp_ring = s.def_cp_ring := by
  rw [bnxt_tx_queues_alloc_ok K env vaddrs paddrs ntxqs n s h]
  exact ⟨rfl, rfl, rfl⟩


/-! ## Claims on the rings: doorbells, sizes, ids -/

theorem forall_of_map_eq {α β : Type} {l : List α} {g : α → β} {l2 : List β}
    (h : l.map g = l2) (Q : β → Prop) (hQ : ∀ b ∈ l2, Q b) : ∀ r ∈ l, Q (g r) := by
  intro r hr
  apply hQ
  rw [← h]
  exact List.mem_map_of_mem g hr

theorem length_of_map_eq_range {α β : Type} {l : List α} {g : α → β} {n : Nat} {v : Nat → β}
    (h : l.map g = (List.range n).map v) : l.length = n := by
  have := congrArg List.length h
  simpa using this

/-- C9: every ring set up by `bnxt_attach_pre`, `bnxt_tx_queues_alloc` and
`bnxt_rx_queues_alloc` has its doorbell offset equal to its id times `0x80`,
for every number of queue-sets and every queue-set index (each allocator
leaves exactly one ring of each of its classes per queue-set). -/
theorem doorbell_eq_id_times_stride (K : bnxt_defs) (env : bnxt_env)
    (sa st sr : bnxt_softc) (tva tpa rva rpa : List Nat) (ntxqs nrxqs n m : Nat)
    (ha : (bnxt_attach_pre K env sa).1 = 0)
    (ht : (bnxt_tx_queues_alloc K env tva tpa ntxqs n st).1 = 0)
    (hr : (bnxt_rx_queues_alloc K env rva rpa nrxqs m sr).1 = 0) :
    (bnxt_attach_pre K env sa).2.def_cp_ring.ring.doorbell =
      (bnxt_attach_pre K env sa).2.def_cp_ring.ring.id * 0x80 ∧
    (∀ r ∈ rings_tx_cp (bnxt_tx_queues_alloc K env tva tpa ntxqs n st).2,
      r.doorbell = r.id * 0x80) ∧
    (∀ r ∈ rings_tx (bnxt_tx_queues_alloc K env tva tpa ntxqs n st).2,
      r.doorbell = r.id * 0x80) ∧
    (∀ r ∈ rings_rx_cp (bnxt_rx_queues_alloc K env rva rpa nrxqs m sr).2,
      r.doorbell = r.id * 0x80) ∧
    (∀ r ∈ rings_rx (bnxt_rx_queues_alloc K env rva rpa nrxqs m sr).2,
      r.doorbell = r.id * 0x80) ∧
    (∀ r ∈ rings_ag (bnxt_rx_queues_alloc K env rva rpa nrxqs m sr).2,
      r.doorbell = r.id * 0x80) ∧
    (rings_tx_cp (bnxt_tx_queues_alloc K env tva tpa ntxqs n st).2).length = n ∧
    (rings_tx (bnxt_tx_queues_alloc K env tva tpa ntxqs n st).2).length = n ∧
    (rings_rx_cp (bnxt_rx_queues_alloc K env rva rpa nrxqs m sr).2).length = m ∧
    (rings_rx (bnxt_rx_queues_alloc K env rva rpa nrxqs m sr).2).length = m ∧
    (rings_ag (bnxt_rx_queues_alloc K env rva rpa nrxqs m sr).2).length = m := by
  obtain ⟨a1, a2, _, _⟩ := (bnxt_attach_pre_post K env sa).1 ha
  obtain ⟨t1, t2⟩ := tx_rings_after_alloc K env tva tpa ntxqs n st ht
  obtain ⟨r1, r2, r3⟩ := rx_rings_after_alloc K env rva rpa nrxqs m sr hr
  have hq : ∀ (k : Nat) (v : Nat → Nat × Nat × Nat × Int),
      (∀ i, (v i).2.1 = (v i).1 * 0x80) →
      ∀ b ∈ (List.range k).map v, b.2.1 = b.1 * 0x80 := by
    intro k v hv b hb
    obtain ⟨i, _, rfl⟩ := List.mem_map.mp hb
    exact hv i
  refine ⟨by rw [a1, a2], ?_, ?_, ?_, ?_, ?_, length_of_map_eq_range t1,
    length_of_map_eq_range t2, length_of_map_eq_range r1, length_of_map_eq_range r2,
    length_of_map_eq_range r3⟩
  · exact forall_of_map_eq t1 (fun b => b.2.1 = b.1 * 0x80) (hq _ _ (fun _ => rfl))
  · exact forall_of_map_eq t2 (fun b => b.2.1 = b.1 * 0x80) (hq _ _ (fun _ => rfl))
  · exact forall_of_map_eq r1 (fun b => b.2.1 = b.1 * 0x80) (hq _ _ (fun _ => rfl))
  · exact forall_of_map_eq r2 (fun b => b.2.1 = b.1 * 0x80) (hq _ _ (fun _ => rfl))
  · exact forall_of_map_eq r3 (fun b => b.2.1 = b.1 * 0x80) (hq _ _ (fun _ => rfl))


/-- Witness of C9 with one transmit and two receive queue-sets. -/
theorem doorbell_eq_id_times_stride_witness :
    (bnxt_attach_pre defs0 env_ok (softc0 2)).1 = 0 ∧
    (bnxt_tx_queues_alloc defs0 env_ok [] [] 2 1 (softc0 2)).1 = 0 ∧
    (bnxt_rx_queues_alloc defs0 env_ok [] [] 3 2 (softc0 2)).1 = 0 ∧
    (∀ r ∈ rings_ag (bnxt_rx_queues_alloc defs0 env_ok [] [] 3 2 (softc0 2)).2,
      r.doorbell = r.id * 0x80) ∧
    (rings_ag (bnxt_rx_queues_alloc defs0 env_ok [] [] 3 2 (softc0 2)).2).length = 2 := by
  have h := doorbell_eq_id_times_stride defs0 env_ok (softc0 2) (softc0 2) (softc0 2)
    [] [] [] [] 2 3 1 2 (by decide) (by decide) (by decide)
  exact ⟨by decide, by decide, by decide, h.2.2.2.2.2.1, h.2.2.2.2.2.2.2.2.2.2⟩

theorem is_pow2_double (n : Nat) (h : is_pow2 n) : is_pow2 (n * 2) := by
  obtain ⟨k, rfl⟩ := h
  exact ⟨k + 1, by rw [pow_succ]⟩

/-- C8: every ring set up by `bnxt_attach_pre`, `bnxt_tx_queues_alloc` and
`bnxt_rx_queues_alloc` has `ring_mask = ring_size - 1`, and its `ring_size`
is a power of two provided `isc_ntxd`, `isc_nrxd` and
`PAGE_SIZE / sizeof(struct cmpl_base)` are powers of two. -/
theorem ring_mask_and_size (K : bnxt_defs) (env : bnxt_env)
    (sa st sr : bnxt_softc) (tva tpa rva rpa : List Nat) (ntxqs nrxqs n m : Nat)
    (ha : (bnxt_attach_pre K env sa).1 = 0)
    (ht : (bnxt_tx_queues_alloc K env tva tpa ntxqs n st).1 = 0)
    (hr : (bnxt_rx_queues_alloc K env rva rpa nrxqs m sr).1 = 0) :
    ((bnxt_attach_pre K env sa).2.def_cp_ring.ring.ring_mask =
        ((bnxt_attach_pre K env sa).2.def_cp_ring.ring.ring_size : Int) - 1 ∧
      (∀ r ∈ rings_tx_cp (bnxt_tx_queues_alloc K env tva tpa ntxqs n st).2 ++
          rings_tx (bnxt_tx_queues_alloc K env tva tpa ntxqs n st).2,
        r.ring_mask = (r.ring_size : Int) - 1) ∧
      (∀ r ∈ rings_rx_cp (bnxt_rx_queues_alloc K env rva rpa nrxqs m sr).2 ++
          rings_rx (bnxt_rx_queues_alloc K env rva rpa nrxqs m sr).2 ++
          rings_ag (bnxt_rx_queues_alloc K env rva rpa nrxqs m sr).2,
        r.ring_mask = (r.ring_size : Int) - 1)) ∧
    (is_pow2 (K.PAGE_SIZE / K.sizeof_cmpl_base) →
      is_pow2 (bnxt_attach_pre K env sa).2.def_cp_ring.ring.ring_size) ∧
    (is_pow2 st.sctx.isc_ntxd →
      ∀ r ∈ rings_tx_cp (bnxt_tx_queues_alloc K env tva tpa ntxqs n st).2 ++
          rings_tx (bnxt_tx_queues_alloc K env tva tpa ntxqs n st).2,
        is_pow2 r.ring_size) ∧
    (is_pow2 sr.sctx.isc_nrxd →
      ∀ r ∈ rings_rx_cp (bnxt_rx_queues_alloc K env rva rpa nrxqs m sr).2 ++
          rings_rx (bnxt_rx_queues_alloc K env rva rpa nrxqs m sr).2 ++
          rings_ag (bnxt_rx_queues_alloc K env rva rpa nrxqs m sr).2,
        is_pow2 r.ring_size) := by
  obtain ⟨_, _, a3, a4⟩ := (bnxt_attach_pre_post K env sa).1 ha
  obtain ⟨t1, t2⟩ := tx_rings_after_alloc K env tva tpa ntxqs n st ht
  obtain ⟨r1, r2, r3⟩ := rx_rings_after_alloc K env rva rpa nrxqs m sr hr
  have hq : ∀ (k : Nat) (v : Nat → Nat × Nat × Nat × Int) (Q : Nat × Nat × Nat × Int → Prop),
      (∀ i, Q (v i)) → ∀ b ∈ (List.range k).map v, Q b := by
    intro k v Q hv b hb
    obtain ⟨i, _, rfl⟩ := List.mem_map.mp hb
    exact hv i
  refine ⟨⟨by rw [a3, a4], ?_, ?_⟩, ?_, ?_, ?_⟩
  · intro r hr
    rcases List.mem_append.mp hr with h1 | h1
    · exact forall_of_map_eq t1 (fun b => b.2.2.2 = (b.2.2.1 : Int) - 1)
        (hq _ _ _ (fun _ => rfl)) r h1
    · exact forall_of_map_eq t2 (fun b => b.2.2.2 = (b.2.2.1 : Int) - 1)
        (hq _ _ _ (fun _ => rfl)) r h1
  · intro r hr
    rcases List.mem_append.mp hr with h1 | h1
    · rcases List.mem_append.mp h1 with h2 | h2
      · exact forall_of_map_eq r1 (fun b => b.2.2.2 = (b.2.2.1 : Int) - 1)
          (hq _ _ _ (fun _ => rfl)) r h2
      · exact forall_of_map_eq r2 (fun b => b.2.2.2 = (b.2.2.1 : Int) - 1)
          (hq _ _ _ (fun _ => rfl)) r h2
    · exact forall_of_map_eq r3 (fun b => b.2.2.2 = (b.2.2.1 : Int) - 1)
        (hq _ _ _ (fun _ => rfl)) r h1
  · intro hp
    rw [a3]
    exact hp
  · intro hp r hr
    rcases List.mem_append.mp hr with h1 | h1
    · exact forall_of_map_eq t1 (fun b => is_pow2 b.2.2.1)
        (hq _ _ _ (fun _ => is_pow2_double _ hp)) r h1
    · exact forall_of_map_eq t2 (fun b => is_pow2 b.2.2.1) (hq _ _ _ (fun _ => hp)) r h1
  · intro hp r hr
    rcases List.mem_append.mp hr with h1 | h1
    · rcases List.mem_append.mp h1 with h2 | h2
      · exact forall_of_map_eq r1 (fun b => is_pow2 b.2.2.1)
          (hq _ _ _ (fun _ => is_pow2_double _ hp)) r h2
      · exact forall_of_map_eq r2 (fun b => is_pow2 b.2.2.1) (hq _ _ _ (fun _ => hp)) r h2
    · exact forall_of_map_eq r3 (fun b => is_pow2 b.2.2.1) (hq _ _ _ (fun _ => hp)) r h1

/-- Witness of C8 with one transmit and two receive queue-sets, 256
descriptors per ring and 4096 / 16 completion records. -/
theorem ring_mask_and_size_witness :
    (bnxt_attach_pre defs0 env_ok (softc0 2)).1 = 0 ∧
    (bnxt_tx_queues_alloc defs0 env_ok [] [] 2 1 (softc0 2)).1 = 0 ∧
    (bnxt_rx_queues_alloc defs0 env_ok [] [] 3 2 (softc0 2)).1 = 0 ∧
    is_pow2 (softc0 2).sctx.isc_ntxd ∧
    (∀ r ∈ rings_tx_cp (bnxt_tx_queues_alloc defs0 env_ok [] [] 2 1 (softc0 2)).2 ++
        rings_tx (bnxt_tx_queues_alloc defs0 env_ok [] [] 2 1 (softc0 2)).2,
      r.ring_mask = (r.ring_size : Int) - 1) ∧
    (∀ r ∈ rings_tx_cp (bnxt_tx_queues_alloc defs0 env_ok [] [] 2 1 (softc0 2)).2 ++
        rings_tx (bnxt_tx_queues_alloc defs0 env_ok [] [] 2 1 (softc0 2)).2,
      is_pow2 r.ring_size) := by
  have h := ring_mask_and_size defs0 env_ok (softc0 2) (softc0 2) (softc0 2)
    [] [] [] [] 2 3 1 2 (by decide) (by decide) (by decide)
  have hp : is_pow2 (softc0 2).sctx.isc_ntxd := ⟨8, by decide⟩
  exact ⟨by decide, by decide, by decide, hp, h.1.2.1, h.2.2.1 hp⟩


/-- The ring ids after both allocators succeeded, class by class. -/
theorem alloc_queues_ids (K : bnxt_defs) (env : bnxt_env) (tva tpa rva rpa : List Nat)
    (ntxqs nrxqs n m : Nat) (s : bnxt_softc)
    (h : (alloc_queues K env tva tpa rva rpa ntxqs nrxqs n m s).1 = 0) :
    ring_ids (rings_tx_cp (alloc_queues K env tva tpa rva rpa ntxqs nrxqs n m s).2) =
      (List.range n).map (fun i => s.scctx.isc_nrxqsets * 2 + 1 + i) ∧
    ring_ids (rings_tx (alloc_queues K env tva tpa rva rpa ntxqs nrxqs n m s).2) =
      (List.range n).map (fun i => s.scctx.isc_nrxqsets * 2 + 1 + i) ∧
    ring_ids (rings_rx_cp (alloc_queues K env tva tpa rva rpa ntxqs nrxqs n m s).2) =
      (List.range m).map (fun i => i + 1) ∧
    ring_ids (rings_rx (alloc_queues K env tva tpa rva rpa ntxqs nrxqs n m s).2) =
      (List.range m).map (fun i => i + 1) ∧
    ring_ids (rings_ag (alloc_queues K env tva tpa rva rpa ntxqs nrxqs n m s).2) =
      (List.range m).map (fun i => m + i + 1) ∧
    (alloc_queues K env tva tpa rva rpa ntxqs nrxqs n m s).2.def_cp_ring = s.def_cp_ring ∧
    (alloc_queues K env tva tpa rva rpa ntxqs nrxqs n m s).2.scctx = s.scctx := by
  unfold alloc_queues at h ⊢
  simp only [] at h ⊢
  by_cases ht : (bnxt_tx_queues_alloc K env tva tpa ntxqs n s).1 = 0
  · simp only [ht, ne_eq, not_true_eq_false, if_false] at h ⊢
    obtain ⟨t1, t2⟩ := tx_rings_after_alloc K env tva tpa ntxqs n s ht
    obtain ⟨_, tf2, tf3⟩ := tx_alloc_frame K env tva tpa ntxqs n s ht
    obtain ⟨r1, r2, r3⟩ := rx_rings_after_alloc K env rva rpa nrxqs m _ h
    obtain ⟨_, f2, f3, f4, f5⟩ := rx_alloc_frame K env rva rpa nrxqs m _ h
    have key : ∀ (l : List bnxt_ring) (k : Nat) (v : Nat → Nat × Nat × Nat × Int),
        l.map (fun r => (r.id, r.doorbell, r.ring_size, r.ring_mask)) = (List.range k).map v →
        ring_ids l = (List.range k).map (fun i => (v i).1) := by
      intro l k v hl
      have := congrArg (List.map (fun q : Nat × Nat × Nat × Int => q.1)) hl
      simpa [ring_ids, List.map_map, Function.comp] using this
    refine ⟨?_, ?_, key _ _ _ r1, key _ _ _ r2, key _ _ _ r3, f3.trans tf3, f2.trans tf2⟩
    · rw [f4]
      exact key _ _ _ t1
    · rw [f5]
      exact key _ _ _ t2
  · simp only [ht, ne_eq, not_false_eq_true, if_true] at h

/-- C7 (as amended): after `bnxt_attach_pre` and the allocation of `n`
transmit and `m` receive queue-sets succeeded on a device with
`isc_nrxqsets = m`, rings of different id groups have different ids, the
groups being: the default completion ring; the receive rings together with
their completion rings; the aggregation rings; the transmit rings together
with their completion rings.  Inside a group a ring and its completion ring
carry the same id. -/
theorem ring_ids_disjoint (K : bnxt_defs) (env : bnxt_env) (tva tpa rva rpa : List Nat)
    (ntxqs nrxqs n m : Nat) (s0 s1 s : bnxt_softc)
    (hm : s0.scctx.isc_nrxqsets = m)
    (ha : bnxt_attach_pre K env s0 = (0, s1))
    (hq : alloc_queues K env tva tpa rva rpa ntxqs nrxqs n m s1 = (0, s)) :
    (∀ a ∈ ring_ids (rings_rx_cp s ++ rings_rx s), s.def_cp_ring.ring.id ≠ a) ∧
    (∀ g ∈ ring_ids (rings_ag s), s.def_cp_ring.ring.id ≠ g) ∧
    (∀ t ∈ ring_ids (rings_tx_cp s ++ rings_tx s), s.def_cp_ring.ring.id ≠ t) ∧
    (∀ a ∈ ring_ids (rings_rx_cp s ++ rings_rx s), ∀ g ∈ ring_ids (rings_ag s), a ≠ g) ∧
    (∀ a ∈ ring_ids (rings_rx_cp s ++ rings_rx s),
      ∀ t ∈ ring_ids (rings_tx_cp s ++ rings_tx s), a ≠ t) ∧
    (∀ g ∈ ring_ids (rings_ag s), ∀ t ∈ ring_ids (rings_tx_cp s ++ rings_tx s), g ≠ t) ∧
    ring_ids (rings_rx_cp s) = ring_ids (rings_rx s) ∧
    ring_ids (rings_tx_cp s) = ring_ids (rings_tx s) ∧
    (ring_ids (rings_rx s)).length = m ∧ (ring_ids (rings_ag s)).length = m ∧
    (ring_ids (rings_tx s)).length = n := by
  have ha1 : (bnxt_attach_pre K env s0).1 = 0 := by rw [ha]
  have ha2 : (bnxt_attach_pre K env s0).2 = s1 := by rw [ha]
  have hq1 : (alloc_queues K env tva tpa rva rpa ntxqs nrxqs n m s1).1 = 0 := by rw [hq]
  have hq2 : (alloc_queues K env tva tpa rva rpa ntxqs nrxqs n m s1).2 = s := by rw [hq]
  obtain ⟨i1, i2, i3, i4, i5, i6, _⟩ :=
    alloc_queues_ids K env tva tpa rva rpa ntxqs nrxqs n m s1 hq1
  obtain ⟨hpost, _, hnrx⟩ := bnxt_attach_pre_post K env s0
  obtain ⟨hid, _⟩ := hpost ha1
  rw [ha2] at hid hnrx
  rw [hq2] at i1 i2 i3 i4 i5 i6
  rw [hnrx, hm] at i1 i2
  have hA : ∀ a ∈ ring_ids (rings_rx_cp s ++ rings_rx s), ∃ j, j < m ∧ a = j + 1 := by
    intro a h
    simp only [ring_ids, List.map_append, List.mem_append] at h
    simp only [ring_ids] at i3 i4
    rw [i3, i4] at h
    simp only [List.mem_map, List.mem_range, or_self] at h
    obtain ⟨j, hj, rfl⟩ := h
    exact ⟨j, hj, rfl⟩
  have hG : ∀ g ∈ ring_ids (rings_ag s), ∃ j, j < m ∧ g = m + j + 1 := by
    intro g h
    rw [i5] at h
    simp only [List.mem_map, List.mem_range] at h
    obtain ⟨j, hj, rfl⟩ := h
    exact ⟨j, hj, rfl⟩
  have hT : ∀ t ∈ ring_ids (rings_tx_cp s ++ rings_tx s), ∃ j, j < n ∧ t = m * 2 + 1 + j := by
    intro t h
    simp only [ring_ids, List.map_append, List.mem_append] at h
    simp only [ring_ids] at i1 i2
    rw [i1, i2] at h
    simp only [List.mem_map, List.mem_range, or_self] at h
    obtain ⟨j, hj, rfl⟩ := h
    exact ⟨j, hj, rfl⟩
  rw [i6, hid]
  refine ⟨?_, ?_, ?_, ?_, ?_, ?_, by rw [i3, i4], by rw [i1, i2], by simp [i4], by simp [i5],
    by simp [i2]⟩
  · intro a h
    obtain ⟨j, _, rfl⟩ := hA a h
    omega
  · intro g h
    obtain ⟨j, _, rfl⟩ := hG g h
    omega
  · intro t h
    obtain ⟨j, _, rfl⟩ := hT t h
    omega
  · intro a h g h2
    obtain ⟨j, _, rfl⟩ := hA a h
    obtain ⟨k, _, rfl⟩ := hG g h2
    omega
  · intro a h t h2
    obtain ⟨j, _, rfl⟩ := hA a h
    obtain ⟨k, _, rfl⟩ := hT t h2
    omega
  · intro g h t h2
    obtain ⟨j, _, rfl⟩ := hG g h
    obtain ⟨k, _, rfl⟩ := hT t h2
    omega

/-- Witness of C7 (as amended) with one transmit and two receive queue-sets. -/
theorem ring_ids_disjoint_witness :
    (softc0 2).scctx.isc_nrxqsets = 2 ∧
    bnxt_attach_pre defs0 env_ok (softc0 2) =
      (0, (bnxt_attach_pre defs0 env_ok (softc0 2)).2) ∧
    alloc_queues defs0 env_ok [] [] [] [] 2 3 1 2 (bnxt_attach_pre defs0 env_ok (softc0 2)).2 =
      (0, softc_alloc 1 2) ∧
    (∀ a ∈ ring_ids (rings_rx_cp (softc_alloc 1 2) ++ rings_rx (softc_alloc 1 2)),
      ∀ t ∈ ring_ids (rings_tx_cp (softc_alloc 1 2) ++ rings_tx (softc_alloc 1 2)), a ≠ t) ∧
    (ring_ids (rings_rx (softc_alloc 1 2))).length = 2 ∧
    (ring_ids (rings_tx (softc_alloc 1 2))).length = 1 := by
  have ha : bnxt_attach_pre defs0 env_ok (softc0 2) =
      (0, (bnxt_attach_pre defs0 env_ok (softc0 2)).2) :=
    Prod.ext (by decide) rfl
  have hq : alloc_queues defs0 env_ok [] [] [] [] 2 3 1 2
      (bnxt_attach_pre defs0 env_ok (softc0 2)).2 = (0, softc_alloc 1 2) :=
    Prod.ext (by decide) rfl
  have h := ring_ids_disjoint defs0 env_ok [] [] [] [] 2 3 1 2 (softc0 2) _ _ rfl ha hq
  exact ⟨rfl, ha, hq, h.2.2.2.2.1, h.2.2.2.2.2.2.2.2.1, h.2.2.2.2.2.2.2.2.2.2⟩

/-- C7 (as stated) fails: after attach and the allocation of one transmit and
one receive queue-set, the receive ring 0 and the receive completion ring 0,
which belong to different classes, carry the same id; so do the transmit ring
0 and the transmit completion ring 0. -/
theorem rings_of_different_classes_share_id :
    (bnxt_attach_pre defs0 env_ok (softc0 1)).1 = 0 ∧
    (alloc_queues defs0 env_ok [] [] [] [] 2 3 1 1
      (bnxt_attach_pre defs0 env_ok (softc0 1)).2).1 = 0 ∧
    (alloc_queues defs0 env_ok [] [] [] [] 2 3 1 1
      (bnxt_attach_pre defs0 env_ok (softc0 1)).2).2 = softc_alloc 1 1 ∧
    (softc0 1).scctx.isc_nrxqsets = 1 ∧
    (softc_alloc 1 1).nrxqsets = 1 ∧ (softc_alloc 1 1).ntxqsets = 1 ∧
    ((softc_alloc 1 1).rx_rings.at 0).ring.id = ((softc_alloc 1 1).rx_cp_rings.at 0).ring.id ∧
    ((softc_alloc 1 1).tx_rings.at 0).ring.id = ((softc_alloc 1 1).tx_cp_rings.at 0).ring.id := by
  refine ⟨by decide, by decide, rfl, rfl, by decide, by decide, by decide, by decide⟩


theorem bnxt_queues_free_frame (env : bnxt_env) (s : bnxt_softc) :
    (bnxt_queues_free env s).scctx = s.scctx ∧ (bnxt_queues_free env s).sctx = s.sctx ∧
      (bnxt_queues_free env s).def_cp_ring = s.def_cp_ring :=
  ⟨rfl, rfl, rfl⟩

/-- C10: allocating `n` transmit and `m` receive queue-sets, freeing the
queues with `bnxt_queues_free` and allocating again with the same `n` and `m`
gives every ring of every class and index the id it had after the first
allocation, whatever addresses the allocator hands out the second time. -/
theorem realloc_same_ring_ids (K : bnxt_defs) (env env_f env2 : bnxt_env)
    (tva tpa rva rpa tva2 tpa2 rva2 rpa2 : List Nat) (ntxqs nrxqs n m : Nat)
    (s0 s1 s2 : bnxt_softc)
    (h1 : alloc_queues K env tva tpa rva rpa ntxqs nrxqs n m s0 = (0, s1))
    (h2 : alloc_queues K env2 tva2 tpa2 rva2 rpa2 ntxqs nrxqs n m
      (bnxt_queues_free env_f s1) = (0, s2)) :
    ring_ids (rings_tx_cp s2) = ring_ids (rings_tx_cp s1) ∧
    ring_ids (rings_tx s2) = ring_ids (rings_tx s1) ∧
    ring_ids (rings_rx_cp s2) = ring_ids (rings_rx_cp s1) ∧
    ring_ids (rings_rx s2) = ring_ids (rings_rx s1) ∧
    ring_ids (rings_ag s2) = ring_ids (rings_ag s1) ∧
    s2.def_cp_ring.ring.id = s1.def_cp_ring.ring.id ∧
    (rings_tx_cp s1).length = n ∧ (rings_tx s1).length = n ∧
    (rings_rx_cp s1).length = m ∧ (rings_rx s1).length = m ∧ (rings_ag s1).length = m := by
  have a1 : (alloc_queues K env tva tpa rva rpa ntxqs nrxqs n m s0).1 = 0 := by rw [h1]
  have a2 : (alloc_queues K env tva tpa rva rpa ntxqs nrxqs n m s0).2 = s1 := by rw [h1]
  have b1 : (alloc_queues K env2 tva2 tpa2 rva2 rpa2 ntxqs nrxqs n m
      (bnxt_queues_free env_f s1)).1 = 0 := by rw [h2]
  have b2 : (alloc_queues K env2 tva2 tpa2 rva2 rpa2 ntxqs nrxqs n m
      (bnxt_queues_free env_f s1)).2 = s2 := by rw [h2]
  obtain ⟨i1, i2, i3, i4, i5, _, i7⟩ :=
    alloc_queues_ids K env tva tpa rva rpa ntxqs nrxqs n m s0 a1
  obtain ⟨j1, j2, j3, j4, j5, j6, _⟩ :=
    alloc_queues_ids K env2 tva2 tpa2 rva2 rpa2 ntxqs nrxqs n m _ b1
  rw [a2] at i1 i2 i3 i4 i5 i7
  rw [b2] at j1 j2 j3 j4 j5 j6
  rw [(bnxt_queues_free_frame env_f s1).1, i7] at j1 j2
  rw [(bnxt_queues_free_frame env_f s1).2.2] at j6
  have len : ∀ (l : List bnxt_ring) (k : Nat) (v : Nat → Nat),
      ring_ids l = (List.range k).map v → l.length = k := by
    intro l k v hl
    have := congrArg List.length hl
    simpa [ring_ids] using this
  exact ⟨by rw [i1, j1], by rw [i2, j2], by rw [i3, j3], by rw [i4, j4], by rw [i5, j5],
    by rw [j6], len _ _ _ i1, len _ _ _ i2, len _ _ _ i3, len _ _ _ i4, len _ _ _ i5⟩

/-- Witness of C10 with one transmit and two receive queue-sets. -/
theorem realloc_same_ring_ids_witness :
    alloc_queues defs0 env_ok [] [] [] [] 2 3 1 2 (softc0 2) =
      (0, (alloc_queues defs0 env_ok [] [] [] [] 2 3 1 2 (softc0 2)).2) ∧
    alloc_queues defs0 env_ok2 [7] [8] [9] [10] 2 3 1 2
        (bnxt_queues_free env_ok (alloc_queues defs0 env_ok [] [] [] [] 2 3 1 2 (softc0 2)).2) =
      (0, (alloc_queues defs0 env_ok2 [7] [8] [9] [10] 2 3 1 2
        (bnxt_queues_free env_ok
          (alloc_queues defs0 env_ok [] [] [] [] 2 3 1 2 (softc0 2)).2)).2) ∧
    ring_ids (rings_ag (alloc_queues defs0 env_ok2 [7] [8] [9] [10] 2 3 1 2
        (bnxt_queues_free env_ok
          (alloc_queues defs0 env_ok [] [] [] [] 2 3 1 2 (softc0 2)).2)).2) =
      ring_ids (rings_ag (alloc_queues defs0 env_ok [] [] [] [] 2 3 1 2 (softc0 2)).2) ∧
    (rings_ag (alloc_queues defs0 env_ok [] [] [] [] 2 3 1 2 (softc0 2)).2).length = 2 := by
  have h1 : alloc_queues defs0 env_ok [] [] [] [] 2 3 1 2 (softc0 2) =
      (0, (alloc_queues defs0 env_ok [] [] [] [] 2 3 1 2 (softc0 2)).2) :=
    Prod.ext (by decide) rfl
  have h2 : alloc_queues defs0 env_ok2 [7] [8] [9] [10] 2 3 1 2
        (bnxt_queues_free env_ok (alloc_queues defs0 env_ok [] [] [] [] 2 3 1 2 (softc0 2)).2) =
      (0, (alloc_queues defs0 env_ok2 [7] [8] [9] [10] 2 3 1 2
        (bnxt_queues_free env_ok
          (alloc_queues defs0 env_ok [] [] [] [] 2 3 1 2 (softc0 2)).2)).2) :=
    Prod.ext (by decide) rfl
  have h := realloc_same_ring_ids defs0 env_ok env_ok env_ok2 [] [] [] [] [7] [8] [9] [10]
    2 3 1 2 (softc0 2) _ _ h1 h2
  exact ⟨h1, h2, h.2.2.2.2.1, h.2.2.2.2.2.2.2.2.2.2⟩


/-! ## Claims on allocation failure -/

/-- C2 fails on the code: with two receive queue-sets, when the multicast-list
allocation of queue-set 1 (memory request 7) fails, `bnxt_rx_queues_alloc`
returns the error, releases the multicast list of queue-set 0 and the five
arrays, but the receive statistics DMA buffer stays allocated. -/
theorem rx_queues_alloc_leaks_rx_stats :
    (softc0 2).mem.live = [] ∧
    (bnxt_rx_queues_alloc defs0 (env_alloc_fail 7 ENOMEM) [] [] 3 2 (softc0 2)).1 = ENOMEM ∧
    (bnxt_rx_queues_alloc defs0 (env_alloc_fail 7 ENOMEM) [] [] 3 2 (softc0 2)).2.mem.live =
      [(bnxt_rx_queues_alloc defs0 (env_alloc_fail 7 ENOMEM) [] [] 3 2
        (softc0 2)).2.rx_stats.idi_vaddr] ∧
    (bnxt_rx_queues_alloc defs0 (env_alloc_fail 7 ENOMEM) [] [] 3 2
      (softc0 2)).2.rx_stats.idi_vaddr = 6 ∧
    (bnxt_rx_queues_alloc defs0 (env_alloc_fail 7 ENOMEM) [] [] 3 2 (softc0 2)).2.mem.trace =
      [kmem_event.alloc 1 128, kmem_event.alloc 2 96, kmem_event.alloc 3 96,
       kmem_event.alloc 4 20, kmem_event.alloc 5 192, kmem_event.alloc 6 256,
       kmem_event.alloc 7 96, kmem_event.free 7, kmem_event.free 5, kmem_event.free 4,
       kmem_event.free 3, kmem_event.free 2, kmem_event.free 1] := by
  decide

/-- C3 (as amended): when the request number `j` of `bnxt_tx_queues_alloc`
(one of its two array allocations or its statistics DMA allocation) or of
`bnxt_rx_queues_alloc` (one of its five array allocations or its statistics
DMA allocation) is the first to fail, the call returns `ENOMEM` for an array
and the status of `iflib_dma_alloc` for the statistics buffer, every buffer
obtained before is released in the reverse order of allocation so that the
live buffers are those from before the call, and the queue-set count is
unchanged. -/
theorem queues_alloc_failure_rolls_back (K : bnxt_defs) (env : bnxt_env)
    (vaddrs paddrs : List Nat) (nqs n : Nat) (s : bnxt_softc) (j : Nat)
    (hok : ∀ p, p < j → env.alloc_rc (s.mem.nreq + p) = 0)
    (hfail : env.alloc_rc (s.mem.nreq + j) ≠ 0) :
    (j < 3 →
      (bnxt_tx_queues_alloc K env vaddrs paddrs nqs n s).1 =
          (if j < 2 then ENOMEM else env.alloc_rc (s.mem.nreq + j)) ∧
      (bnxt_tx_queues_alloc K env vaddrs paddrs nqs n s).1 ≠ 0 ∧
      (bnxt_tx_queues_alloc K env vaddrs paddrs nqs n s).2.mem.live = s.mem.live ∧
      (bnxt_tx_queues_alloc K env vaddrs paddrs nqs n s).2.mem.trace =
          s.mem.trace ++ rollback_trace ((tx_requests K s.mem.nreq n).take j) ∧
      (bnxt_tx_queues_alloc K env vaddrs paddrs nqs n s).2.ntxqsets = s.ntxqsets) ∧
    (j < 6 →
      (bnxt_rx_queues_alloc K env vaddrs paddrs nqs n s).1 =
          (if j < 5 then ENOMEM else env.alloc_rc (s.mem.nreq + j)) ∧
      (bnxt_rx_queues_alloc K env vaddrs paddrs nqs n s).1 ≠ 0 ∧
      (bnxt_rx_queues_alloc K env vaddrs paddrs nqs n s).2.mem.live = s.mem.live ∧
      (bnxt_rx_queues_alloc K env vaddrs paddrs nqs n s).2.mem.trace =
          s.mem.trace ++ rollback_trace ((rx_requests K s.mem.nreq n).take j) ∧
      (bnxt_rx_queues_alloc K env vaddrs paddrs nqs n s).2.nrxqsets = s.nrxqsets) := by
  constructor
  · intro hj
    obtain ⟨h1, h2, h3, h4⟩ := tx_queues_alloc_rollback K env vaddrs paddrs nqs n s j hj hok hfail
    refine ⟨h1, ?_, h2, h3, h4⟩
    rw [h1]
    split_ifs
    · simp [ENOMEM]
    · exact hfail
  · intro hj
    obtain ⟨h1, h2, h3, h4⟩ := rx_queues_alloc_rollback K env vaddrs paddrs nqs n s j hj hok hfail
    refine ⟨h1, ?_, h2, h3, h4⟩
    rw [h1]
    split_ifs
    · simp [ENOMEM]
    · exact hfail

/-- Witness of C3 (as amended): the statistics DMA allocation of
`bnxt_tx_queues_alloc` (request 2) fails with status 22. -/
theorem queues_alloc_failure_rolls_back_witness :
    (∀ p, p < 2 → (env_alloc_fail 2 22).alloc_rc ((softc0 1).mem.nreq + p) = 0) ∧
    (env_alloc_fail 2 22).alloc_rc ((softc0 1).mem.nreq + 2) ≠ 0 ∧
    (bnxt_tx_queues_alloc defs0 (env_alloc_fail 2 22) [] [] 2 1 (softc0 1)).1 = 22 ∧
    (bnxt_tx_queues_alloc defs0 (env_alloc_fail 2 22) [] [] 2 1 (softc0 1)).2.mem.live = [] ∧
    (bnxt_tx_queues_alloc defs0 (env_alloc_fail 2 22) [] [] 2 1 (softc0 1)).2.mem.trace =
      [kmem_event.alloc 1 64, kmem_event.alloc 2 48, kmem_event.free 2, kmem_event.free 1] := by
  have h := (queues_alloc_failure_rolls_back defs0 (env_alloc_fail 2 22) [] [] 2 1 (softc0 1) 2
    (by decide) (by decide)).1 (by decide)
  exact ⟨by decide, by decide, h.1, h.2.2.1, h.2.2.2.1⟩

/-- C3 (as stated) fails: when the statistics DMA allocation fails with the
status 22, `bnxt_tx_queues_alloc` returns 22 and not `ENOMEM`; and when the
allocation of the transmit ring array fails, the device context still holds
the address of the released completion ring array. -/
theorem queues_alloc_failure_counterexample :
    (bnxt_tx_queues_alloc defs0 (env_alloc_fail 2 22) [] [] 2 1 (softc0 1)).1 ≠ ENOMEM ∧
    (softc0 1).tx_cp_rings.addr = 0 ∧
    (bnxt_tx_queues_alloc defs0 (env_alloc_fail 1 ENOMEM) [] [] 2 1 (softc0 1)).1 = ENOMEM ∧
    (bnxt_tx_queues_alloc defs0 (env_alloc_fail 1 ENOMEM) [] [] 2 1
      (softc0 1)).2.tx_cp_rings.addr = 1 ∧
    (bnxt_tx_queues_alloc defs0 (env_alloc_fail 1 ENOMEM) [] [] 2 1 (softc0 1)).2.mem.trace =
      [kmem_event.alloc 1 64, kmem_event.free 1] := by
  decide


/-! ## Runs of firmware commands -/

theorem cmd_run_one (env : bnxt_env) (cmd : hwrm_cmd) (s : bnxt_softc) (r : Nat × bnxt_softc)
    (h1 : r.1 = (hwrm_send env cmd s).1)
    (h2 : r.2.hwrm_log = s.hwrm_log ++ [cmd])
    (h3 : r.2.nrxqsets = s.nrxqsets) (h4 : r.2.ntxqsets = s.ntxqsets) :
    cmd_run env 1 s r := by
  have hrc : r.1 = env.hwrm_rc s.hwrm_log.length := h1
  refine ⟨?_, h3, h4, ?_, ?_⟩
  · rw [h2]
    exact List.prefix_append _ _
  · intro h0
    refine ⟨by rw [h2]; simp, ?_⟩
    intro q hq
    have : q = 0 := by omega
    subst this
    rw [Nat.add_zero, ← hrc]
    exact h0
  · intro h0
    refine ⟨0, by omega, by rw [h2]; simp, by rw [hrc, Nat.add_zero], ?_⟩
    intro q hq
    omega

theorem cmd_run_seq (env : bnxt_env) (k1 k2 : Nat) (f g : bnxt_softc → Nat × bnxt_softc)
    (s : bnxt_softc) (hf : cmd_run env k1 s (f s))
    (hg : ∀ t, t.nrxqsets = s.nrxqsets → t.ntxqsets = s.ntxqsets → cmd_run env k2 t (g t)) :
    cmd_run env (k1 + k2) s (seq_rc f g s) := by
  unfold seq_rc
  simp only []
  obtain ⟨p1, n1, t1, ok1, bad1⟩ := hf
  by_cases h : (f s).1 = 0
  · simp only [h, ne_eq, not_true_eq_false, if_false]
    obtain ⟨len1, all1⟩ := ok1 h
    obtain ⟨p2, n2, t2, ok2, bad2⟩ := hg (f s).2 n1 t1
    refine ⟨p1.trans p2, n2.trans n1, t2.trans t1, ?_, ?_⟩
    · intro h0
      obtain ⟨len2, all2⟩ := ok2 h0
      refine ⟨by rw [len2, len1]; omega, ?_⟩
      intro q hq
      by_cases hq1 : q < k1
      · exact all1 q hq1
      · have := all2 (q - k1) (by omega)
        rw [len1] at this
        have e : s.hwrm_log.length + k1 + (q - k1) = s.hwrm_log.length + q := by omega
        rw [e] at this
        exact this
    · intro h0
      obtain ⟨j, hj, lenj, rcj, allj⟩ := bad2 h0
      rw [len1] at lenj rcj allj
      refine ⟨k1 + j, by omega, by rw [lenj]; omega, ?_, ?_⟩
      · rw [← rcj]
        congr 1
        omega
      · intro q hq
        by_cases hq1 : q < k1
        · exact all1 q hq1
        · have := allj (q - k1) (by omega)
          have e : s.hwrm_log.length + k1 + (q - k1) = s.hwrm_log.length + q := by omega
          rw [e] at this
          exact this
  · simp only [h, ne_eq, not_false_eq_true, if_true]
    refine ⟨p1, n1, t1, fun h0 => absurd h0 h, ?_⟩
    intro _
    obtain ⟨j, hj, lenj, rcj, allj⟩ := bad1 h
    exact ⟨j, by omega, lenj, rcj, allj⟩

theorem cmd_run_zero (env : bnxt_env) (s : bnxt_softc) : cmd_run env 0 s (0, s) := by
  refine ⟨List.prefix_refl _, rfl, rfl, ?_, ?_⟩
  · intro _
    exact ⟨rfl, fun q hq => by omega⟩
  · intro h
    exact absurd rfl h

theorem for_rc_result_succ {σ : Type} (body : Nat → σ → Nat × σ) (n : Nat) (s : σ) :
    for_rc_result body (n + 1) s =
      seq_rc (for_rc_result body n) (body n) s := by
  unfold for_rc_result seq_rc
  simp only []
  rw [for_rc]
  simp only []
  by_cases h : (for_rc body n s).1 = 0
  · by_cases hb : (body n (for_rc body n s).2.2).1 = 0
    · simp [h, hb]
      exact Prod.ext hb.symm rfl
    · simp [h, hb]
  · simp [h]

theorem cmd_run_for_rc (env : bnxt_env) (k : Nat → Nat)
    (body : Nat → bnxt_softc → Nat × bnxt_softc)
    (hb : ∀ i t, cmd_run env (k i) t (body i t)) (n : Nat) (s : bnxt_softc) :
    cmd_run env (sum_upto k n) s (for_rc_result body n s) := by
  induction n with
  | zero => exact cmd_run_zero env s
  | succ n ih =>
    rw [for_rc_result_succ]
    exact cmd_run_seq env _ _ _ _ s ih (fun t _ _ => hb n t)


theorem bnxt_hwrm_stat_ctx_alloc_eq (env : bnxt_env) (cpr : bnxt_cp_ring) (paddr : Nat)
    (s : bnxt_softc) :
    bnxt_hwrm_stat_ctx_alloc env cpr paddr s =
      (env.hwrm_rc s.hwrm_log.length,
        (if env.hwrm_rc s.hwrm_log.length = 0
          then { cpr with stats_ctx_id := env.hwrm_id s.hwrm_log.length } else cpr),
        { s with hwrm_log := s.hwrm_log ++ [hwrm_cmd.stat_ctx_alloc cpr paddr] }) := by
  unfold bnxt_hwrm_stat_ctx_alloc hwrm_send
  simp only []
  split_ifs with h
  · rw [h]
  · rfl

theorem bnxt_hwrm_ring_alloc_eq (env : bnxt_env) (type : ring_type) (ring : bnxt_ring)
    (c st : Nat) (irq : Bool) (s : bnxt_softc) :
    bnxt_hwrm_ring_alloc env type ring c st irq s =
      (env.hwrm_rc s.hwrm_log.length,
        (if env.hwrm_rc s.hwrm_log.length = 0
          then { ring with phys_id := env.hwrm_id s.hwrm_log.length } else ring),
        { s with hwrm_log := s.hwrm_log ++ [hwrm_cmd.ring_alloc type ring c st irq] }) := by
  unfold bnxt_hwrm_ring_alloc hwrm_send
  simp only []
  split_ifs with h
  · rw [h]
  · rfl

theorem bnxt_hwrm_ring_grp_alloc_eq (env : bnxt_env) (grp : bnxt_grp_info) (s : bnxt_softc) :
    bnxt_hwrm_ring_grp_alloc env grp s =
      (env.hwrm_rc s.hwrm_log.length,
        (if env.hwrm_rc s.hwrm_log.length = 0
          then { grp with grp_id := env.hwrm_id s.hwrm_log.length } else grp),
        { s with hwrm_log := s.hwrm_log ++ [hwrm_cmd.ring_grp_alloc grp] }) := by
  unfold bnxt_hwrm_ring_grp_alloc hwrm_send
  simp only []
  split_ifs with h
  · rw [h]
  · rfl

theorem bnxt_hwrm_vnic_alloc_eq (env : bnxt_env) (vnic : bnxt_vnic_info) (s : bnxt_softc) :
    bnxt_hwrm_vnic_alloc env vnic s =
      (env.hwrm_rc s.hwrm_log.length,
        (if env.hwrm_rc s.hwrm_log.length = 0
          then { vnic with id := env.hwrm_id s.hwrm_log.length } else vnic),
        { s with hwrm_log := s.hwrm_log ++ [hwrm_cmd.vnic_alloc vnic] }) := by
  unfold bnxt_hwrm_vnic_alloc hwrm_send
  simp only []
  split_ifs with h
  · rw [h]
  · rfl

theorem bnxt_hwrm_vnic_ctx_alloc_eq (env : bnxt_env) (vnic : bnxt_vnic_info) (s : bnxt_softc) :
    bnxt_hwrm_vnic_ctx_alloc env vnic s =
      (env.hwrm_rc s.hwrm_log.length,
        (if env.hwrm_rc s.hwrm_log.length = 0
          then { vnic with ctx_id := env.hwrm_id s.hwrm_log.length } else vnic),
        { s with hwrm_log := s.hwrm_log ++ [hwrm_cmd.vnic_ctx_alloc vnic] }) := by
  unfold bnxt_hwrm_vnic_ctx_alloc hwrm_send
  simp only []
  split_ifs with h
  · rw [h]
  · rfl

theorem bnxt_hwrm_set_filter_eq (env : bnxt_env) (vnic : bnxt_vnic_info) (s : bnxt_softc) :
    bnxt_hwrm_set_filter env vnic s =
      (env.hwrm_rc s.hwrm_log.length,
        (if env.hwrm_rc s.hwrm_log.length = 0
          then { vnic with filter_id := (env.hwrm_id s.hwrm_log.length : Int) } else vnic),
        { s with hwrm_log := s.hwrm_log ++ [hwrm_cmd.set_filter vnic] }) := by
  unfold bnxt_hwrm_set_filter hwrm_send
  simp only []
  split_ifs with h
  · rw [h]
  · rfl

theorem bnxt_hwrm_vnic_cfg_eq (env : bnxt_env) (vnic : bnxt_vnic_info) (s : bnxt_softc) :
    bnxt_hwrm_vnic_cfg env vnic s =
      (env.hwrm_rc s.hwrm_log.length,
        { s with hwrm_log := s.hwrm_log ++ [hwrm_cmd.vnic_cfg vnic] }) := rfl

theorem bnxt_hwrm_func_reset_eq (env : bnxt_env) (s : bnxt_softc) :
    bnxt_hwrm_func_reset env s =
      (env.hwrm_rc s.hwrm_log.length,
        { s with hwrm_log := s.hwrm_log ++ [hwrm_cmd.func_reset] }) := rfl

theorem cmd_run_rx_steps (K : bnxt_defs) (env : bnxt_env) (i : Nat) (s : bnxt_softc) :
    cmd_run env 1 s (rx_step_stat_ctx K env i s) ∧
    cmd_run env 1 s (rx_step_cp_ring K env i s) ∧
    cmd_run env 1 s (rx_step_rx_ring K env i s) ∧
    cmd_run env 1 s (rx_step_ag_ring K env i s) ∧
    cmd_run env 1 s (rx_step_ring_grp env i s) ∧
    cmd_run env 1 s (rx_step_vnic_alloc env i s) ∧
    cmd_run env 1 s (rx_step_vnic_ctx env i s) ∧
    cmd_run env 1 s (rx_step_vnic_cfg env i s) ∧
    cmd_run env (if i = 0 then 1 else 0) s (rx_step_filter env i s) := by
  refine ⟨?_, ?_, ?_, ?_, ?_, ?_, ?_, ?_, ?_⟩
  · unfold rx_step_stat_ctx
    simp only [bnxt_hwrm_stat_ctx_alloc_eq]
    exact cmd_run_one env _ s _ rfl rfl rfl rfl
  · unfold rx_step_cp_ring
    simp only [bnxt_hwrm_ring_alloc_eq]
    exact cmd_run_one env _ s _ rfl rfl rfl rfl
  · unfold rx_step_rx_ring
    simp only [bnxt_hwrm_ring_alloc_eq]
    exact cmd_run_one env _ s _ rfl rfl rfl rfl
  · unfold rx_step_ag_ring
    simp only [bnxt_hwrm_ring_alloc_eq]
    exact cmd_run_one env _ s _ rfl rfl rfl rfl
  · unfold rx_step_ring_grp
    simp only [bnxt_hwrm_ring_grp_alloc_eq]
    exact cmd_run_one env _ s _ rfl rfl rfl rfl
  · unfold rx_step_vnic_alloc
    simp only [bnxt_hwrm_vnic_alloc_eq]
    exact cmd_run_one env _ s _ rfl rfl rfl rfl
  · unfold rx_step_vnic_ctx
    simp only [bnxt_hwrm_vnic_ctx_alloc_eq]
    exact cmd_run_one env _ s _ rfl rfl rfl rfl
  · unfold rx_step_vnic_cfg
    simp only [bnxt_hwrm_vnic_cfg_eq]
    exact cmd_run_one env _ s _ rfl rfl rfl rfl
  · unfold rx_step_filter
    by_cases h : i = 0
    · simp only [h, if_true, bnxt_hwrm_set_filter_eq]
      exact cmd_run_one env _ s _ rfl rfl rfl rfl
    · simp only [h, if_false]
      exact cmd_run_zero env s

theorem cmd_run_tx_steps (K : bnxt_defs) (env : bnxt_env) (i : Nat) (s : bnxt_softc) :
    cmd_run env 1 s (tx_step_stat_ctx K env i s) ∧
    cmd_run env 1 s (tx_step_cp_ring K env i s) ∧
    cmd_run env 1 s (tx_step_tx_ring env i s) := by
  refine ⟨?_, ?_, ?_⟩
  · unfold tx_step_stat_ctx
    simp only [bnxt_hwrm_stat_ctx_alloc_eq]
    exact cmd_run_one env _ s _ rfl rfl rfl rfl
  · unfold tx_step_cp_ring
    simp only [bnxt_hwrm_ring_alloc_eq]
    exact cmd_run_one env _ s _ rfl rfl rfl rfl
  · unfold tx_step_tx_ring
    simp only [bnxt_hwrm_ring_alloc_eq]
    exact cmd_run_one env _ s _ rfl rfl rfl rfl

theorem cmd_run_init_rx_body (K : bnxt_defs) (env : bnxt_env) (i : Nat) (s : bnxt_softc) :
    cmd_run env (rx_cmd_count i) s (init_rx_body K env i s) := by
  have e : rx_cmd_count i = 1 + (1 + (1 + (1 + (1 + (1 + (1 + (1 + (if i = 0 then 1 else 0)))))))) := by
    unfold rx_cmd_count
    split_ifs <;> rfl
  rw [e]
  unfold init_rx_body
  refine cmd_run_seq env _ _ _ _ s (cmd_run_rx_steps K env i s).1 (fun t _ _ => ?_)
  refine cmd_run_seq env _ _ _ _ t (cmd_run_rx_steps K env i t).2.1 (fun t _ _ => ?_)
  refine cmd_run_seq env _ _ _ _ t (cmd_run_rx_steps K env i t).2.2.1 (fun t _ _ => ?_)
  refine cmd_run_seq env _ _ _ _ t (cmd_run_rx_steps K env i t).2.2.2.1 (fun t _ _ => ?_)
  refine cmd_run_seq env _ _ _ _ t (cmd_run_rx_steps K env i t).2.2.2.2.1 (fun t _ _ => ?_)
  refine cmd_run_seq env _ _ _ _ t (cmd_run_rx_steps K env i t).2.2.2.2.2.1 (fun t _ _ => ?_)
  refine cmd_run_seq env _ _ _ _ t (cmd_run_rx_steps K env i t).2.2.2.2.2.2.1 (fun t _ _ => ?_)
  refine cmd_run_seq env _ _ _ _ t (cmd_run_rx_steps K env i t).2.2.2.2.2.2.2.1 (fun t _ _ => ?_)
  exact (cmd_run_rx_steps K env i t).2.2.2.2.2.2.2.2

theorem cmd_run_init_tx_body (K : bnxt_defs) (env : bnxt_env) (i : Nat) (s : bnxt_softc) :
    cmd_run env 3 s (init_tx_body K env i s) := by
  unfold init_tx_body
  refine cmd_run_seq env 1 2 _ _ s (cmd_run_tx_steps K env i s).1 (fun t _ _ => ?_)
  refine cmd_run_seq env 1 1 _ _ t (cmd_run_tx_steps K env i t).2.1 (fun t _ _ => ?_)
  exact (cmd_run_tx_steps K env i t).2.2


/-! ## `bnxt_init` -/

/-- The function `bnxt_init` as a function reset, `bnxt_clear_ids`, the
allocation commands and the label `fail`. -/
theorem bnxt_init_eq (K : bnxt_defs) (env : bnxt_env) (s : bnxt_softc) :
    bnxt_init K env s =
      if env.hwrm_rc s.hwrm_log.length ≠ 0
      then { s with hwrm_log := s.hwrm_log ++ [hwrm_cmd.func_reset] }
      else if (init_alloc K env (bnxt_clear_ids K
          { s with hwrm_log := s.hwrm_log ++ [hwrm_cmd.func_reset] })).1 ≠ 0
        then init_fail K env (init_alloc K env (bnxt_clear_ids K
          { s with hwrm_log := s.hwrm_log ++ [hwrm_cmd.func_reset] })).2
        else
          { (init_alloc K env (bnxt_clear_ids K
              { s with hwrm_log := s.hwrm_log ++ [hwrm_cmd.func_reset] })).2 with
            if_drv_flags := (init_alloc K env (bnxt_clear_ids K
              { s with hwrm_log := s.hwrm_log ++ [hwrm_cmd.func_reset] })).2.if_drv_flags |||
                IFF_DRV_RUNNING } := by
  unfold bnxt_init
  simp only [bnxt_hwrm_func_reset_eq]
  by_cases h0 : env.hwrm_rc s.hwrm_log.length = 0
  · simp only [h0, ne_eq, not_true_eq_false, if_false]
    generalize bnxt_clear_ids K { s with hwrm_log := s.hwrm_log ++ [hwrm_cmd.func_reset] } = c
    unfold init_alloc seq_rc for_rc_result
    simp only []
    by_cases h1 : (init_def_step K env c).1 = 0
    · simp only [h1, ne_eq, not_true_eq_false, if_false]
      by_cases h2 : (for_rc (init_rx_body K env) (init_def_step K env c).2.nrxqsets
          (init_def_step K env c).2).1 = 0
      · simp only [h2, ne_eq, not_true_eq_false, if_false]
      · simp only [h2, ne_eq, not_false_eq_true, if_true]
    · simp only [h1, ne_eq, not_false_eq_true, if_true]
  · simp only [h0, ne_eq, not_false_eq_true, if_true]


theorem and_not_and (x m : Nat) : and_not x m &&& m = 0 := by
  unfold and_not
  apply Nat.eq_of_testBit_eq
  intro i
  simp only [Nat.testBit_and, Nat.testBit_xor, Nat.zero_testBit]
  cases x.testBit i <;> cases m.testBit i <;> rfl

theorem cmd_run_init_def_step (K : bnxt_defs) (env : bnxt_env) (s : bnxt_softc) :
    cmd_run env 1 s (init_def_step K env s) := by
  unfold init_def_step
  simp only [bnxt_hwrm_ring_alloc_eq]
  exact cmd_run_one env _ s _ rfl rfl rfl rfl

theorem cmd_run_init_alloc (K : bnxt_defs) (env : bnxt_env) (s : bnxt_softc) :
    cmd_run env (init_cmd_count s) s (init_alloc K env s) := by
  unfold init_cmd_count init_alloc
  refine cmd_run_seq env _ _ _ _ s (cmd_run_init_def_step K env s) (fun t hn ht => ?_)
  rw [← hn, ← ht]
  refine cmd_run_seq env _ _ _ _ t
    (cmd_run_for_rc env rx_cmd_count _ (cmd_run_init_rx_body K env) t.nrxqsets t)
    (fun u _ hu => ?_)
  rw [← hu]
  exact cmd_run_for_rc env (fun _ => 3) _ (cmd_run_init_tx_body K env) u.ntxqsets u

theorem bnxt_clear_ids_frame (K : bnxt_defs) (s : bnxt_softc) :
    (bnxt_clear_ids K s).hwrm_log = s.hwrm_log ∧ (bnxt_clear_ids K s).nrxqsets = s.nrxqsets ∧
    (bnxt_clear_ids K s).ntxqsets = s.ntxqsets ∧
    (bnxt_clear_ids K s).if_drv_flags = s.if_drv_flags := by
  rw [bnxt_clear_ids_eq]
  exact ⟨rfl, rfl, rfl, rfl⟩

/-- What `bnxt_init` does when the command at offset `p + 1` from its start,
an allocation command, is the first to fail. -/
theorem bnxt_init_alloc_failure (K : bnxt_defs) (env : bnxt_env) (s : bnxt_softc) (p : Nat)
    (hp : p < init_cmd_count s)
    (hok : ∀ q, q < p + 1 → env.hwrm_rc (s.hwrm_log.length + q) = 0)
    (hfail : env.hwrm_rc (s.hwrm_log.length + (p + 1)) ≠ 0) :
    (bnxt_init K env s).hwrm_log.length = s.hwrm_log.length + (p + 1) + 2 ∧
    (bnxt_init K env s).hwrm_log[s.hwrm_log.length + (p + 1) + 1]? = some hwrm_cmd.func_reset ∧
    s.hwrm_log <+: (bnxt_init K env s).hwrm_log ∧
    ids_cleared K (bnxt_init K env s) ∧
    (bnxt_init K env s).if_drv_flags &&& IFF_DRV_RUNNING = 0 := by
  have h0 : env.hwrm_rc s.hwrm_log.length = 0 := by simpa using hok 0 (by omega)
  rw [bnxt_init_eq]
  simp only [h0, ne_eq, not_true_eq_false, if_false]
  have cl : (bnxt_clear_ids K
      { s with hwrm_log := s.hwrm_log ++ [hwrm_cmd.func_reset] }).hwrm_log =
      s.hwrm_log ++ [hwrm_cmd.func_reset] := (bnxt_clear_ids_frame K _).1
  have cn : (bnxt_clear_ids K
      { s with hwrm_log := s.hwrm_log ++ [hwrm_cmd.func_reset] }).nrxqsets = s.nrxqsets :=
    (bnxt_clear_ids_frame K _).2.1
  have ct : (bnxt_clear_ids K
      { s with hwrm_log := s.hwrm_log ++ [hwrm_cmd.func_reset] }).ntxqsets = s.ntxqsets :=
    (bnxt_clear_ids_frame K _).2.2.1
  have hrun := cmd_run_init_alloc K env
    (bnxt_clear_ids K { s with hwrm_log := s.hwrm_log ++ [hwrm_cmd.func_reset] })
  generalize bnxt_clear_ids K { s with hwrm_log := s.hwrm_log ++ [hwrm_cmd.func_reset] } = c
    at cl cn ct hrun ⊢
  have hlen : c.hwrm_log.length = s.hwrm_log.length + 1 := by rw [cl]; simp
  have hcount : init_cmd_count c = init_cmd_count s := by
    unfold init_cmd_count
    rw [cn, ct]
  rw [hcount] at hrun
  obtain ⟨pre, _, _, okc, badc⟩ := hrun
  rw [hlen] at okc badc
  generalize init_alloc K env c = r at pre okc badc ⊢
  by_cases hr : r.1 = 0
  · exfalso
    have := (okc hr).2 p hp
    apply hfail
    rw [← this]
    congr 1
    omega
  · simp only [hr, not_false_eq_true, if_true]
    obtain ⟨j, hj, lenj, rcj, allj⟩ := badc hr
    have hjp : j = p := by
      rcases Nat.lt_trichotomy j p with h | h | h
      · exfalso
        have := hok (j + 1) (by omega)
        rw [← rcj] at hr
        apply hr
        rw [← this]
        congr 1
        omega
      · exact h
      · exfalso
        have := allj p h
        apply hfail
        rw [← this]
        congr 1
        omega
    subst hjp
    have hlog : (init_fail K env r.2).hwrm_log = r.2.hwrm_log ++ [hwrm_cmd.func_reset] := by
      unfold init_fail
      simp only [bnxt_hwrm_func_reset_eq]
      exact (bnxt_clear_ids_frame K _).1
    refine ⟨?_, ?_, ?_, ?_, ?_⟩
    · rw [hlog]
      simp only [List.length_append, List.length_singleton, lenj]
      omega
    · rw [hlog]
      have e : s.hwrm_log.length + (j + 1) + 1 = r.2.hwrm_log.length := by omega
      rw [e]
      simp
    · rw [hlog]
      have h1 : s.hwrm_log <+: c.hwrm_log := by
        rw [cl]
        exact List.prefix_append _ _
      exact (h1.trans pre).trans (List.prefix_append _ _)
    · exact ids_cleared_clear_ids K (bnxt_hwrm_func_reset env r.2).2
    · exact and_not_and _ _


/-- C4 (as amended): let the command at offset `p` from the start of
`bnxt_init` be the first to fail.  If it is an allocation command (`0 < p`:
the default completion ring, or any step of any receive or transmit
queue-set), bring-up is aborted: the log ends with the failed command followed
by exactly one function reset, so no further allocation command is issued;
`bnxt_clear_ids` has run, so the ids it resets hold the sentinel; and
`IFF_DRV_RUNNING` is clear whatever the flags were before.  If it is the
initial function reset (`p = 0`), `bnxt_init` returns at once: the device
context on return is the one before the call with the function reset added to
the log, so no further command is issued, `bnxt_clear_ids` has not run (the
default completion ring and the ring, group and VNIC arrays, with every id in
them, are as they were) and the interface flags are as they were. -/
theorem init_failure_aborts (K : bnxt_defs) (env : bnxt_env) (s : bnxt_softc) (p : Nat)
    (hp : p ≤ init_cmd_count s)
    (hok : ∀ q, q < p → env.hwrm_rc (s.hwrm_log.length + q) = 0)
    (hfail : env.hwrm_rc (s.hwrm_log.length + p) ≠ 0) :
    (p = 0 →
      (bnxt_init K env s).hwrm_log = s.hwrm_log ++ [hwrm_cmd.func_reset] ∧
      bnxt_init K env s = { s with hwrm_log := s.hwrm_log ++ [hwrm_cmd.func_reset] } ∧
      (bnxt_init K env s).if_drv_flags = s.if_drv_flags ∧
      (bnxt_init K env s).def_cp_ring = s.def_cp_ring ∧
      (bnxt_init K env s).tx_cp_rings = s.tx_cp_rings ∧
      (bnxt_init K env s).tx_rings = s.tx_rings ∧
      (bnxt_init K env s).rx_cp_rings = s.rx_cp_rings ∧
      (bnxt_init K env s).rx_rings = s.rx_rings ∧
      (bnxt_init K env s).ag_rings = s.ag_rings ∧
      (bnxt_init K env s).grp_info = s.grp_info ∧
      (bnxt_init K env s).vnic_info = s.vnic_info) ∧
    (0 < p →
      (bnxt_init K env s).hwrm_log.length = s.hwrm_log.length + p + 2 ∧
      (bnxt_init K env s).hwrm_log[s.hwrm_log.length + p + 1]? = some hwrm_cmd.func_reset ∧
      s.hwrm_log <+: (bnxt_init K env s).hwrm_log ∧
      ids_cleared K (bnxt_init K env s) ∧
      (bnxt_init K env s).if_drv_flags &&& IFF_DRV_RUNNING = 0) := by
  constructor
  · intro h0
    subst h0
    rw [bnxt_init_eq]
    have : env.hwrm_rc s.hwrm_log.length ≠ 0 := by simpa using hfail
    simp only [this, ne_eq, not_false_eq_true, if_true, and_self]
  · intro h0
    obtain ⟨k, rfl⟩ : ∃ k, p = k + 1 := ⟨p - 1, by omega⟩
    exact bnxt_init_alloc_failure K env s k (by omega) hok hfail

/-- Witness of C4 (as amended): on a running interface with one transmit and
two receive queue-sets, the allocation of the receive ring of queue-set 0 (the
command at offset 4, number 9 on the channel) fails; and on an interface that
is up and running, the initial function reset (offset 0, number 19 on the
channel) fails, and the device context on return differs from the one before
the call in the log only. -/
theorem init_failure_aborts_witness :
    4 ≤ init_cmd_count { softc_alloc 1 2 with if_drv_flags := IFF_DRV_RUNNING } ∧
    (∀ q, q < 4 → (env_hwrm_fail 9 5).hwrm_rc
      (({ softc_alloc 1 2 with if_drv_flags := IFF_DRV_RUNNING } : bnxt_softc).hwrm_log.length
        + q) = 0) ∧
    (env_hwrm_fail 9 5).hwrm_rc
      (({ softc_alloc 1 2 with if_drv_flags := IFF_DRV_RUNNING } : bnxt_softc).hwrm_log.length
        + 4) ≠ 0 ∧
    (bnxt_init defs0 (env_hwrm_fail 9 5)
      { softc_alloc 1 2 with if_drv_flags := IFF_DRV_RUNNING }).hwrm_log.length = 11 ∧
    (bnxt_init defs0 (env_hwrm_fail 9 5)
      { softc_alloc 1 2 with if_drv_flags := IFF_DRV_RUNNING }).if_drv_flags &&&
        IFF_DRV_RUNNING = 0 ∧
    0 ≤ init_cmd_count (softc_up 1 1) ∧
    (∀ q, q < 0 → (env_hwrm_fail 19 5).hwrm_rc ((softc_up 1 1).hwrm_log.length + q) = 0) ∧
    (env_hwrm_fail 19 5).hwrm_rc ((softc_up 1 1).hwrm_log.length + 0) ≠ 0 ∧
    bnxt_init defs0 (env_hwrm_fail 19 5) (softc_up 1 1) =
      { softc_up 1 1 with hwrm_log := (softc_up 1 1).hwrm_log ++ [hwrm_cmd.func_reset] } ∧
    (bnxt_init defs0 (env_hwrm_fail 19 5) (softc_up 1 1)).if_drv_flags =
      (softc_up 1 1).if_drv_flags ∧
    (bnxt_init defs0 (env_hwrm_fail 19 5) (softc_up 1 1)).def_cp_ring =
      (softc_up 1 1).def_cp_ring := by
  have h := (init_failure_aborts defs0 (env_hwrm_fail 9 5)
    { softc_alloc 1 2 with if_drv_flags := IFF_DRV_RUNNING } 4 (by decide) (by decide)
    (by decide)).2 (by decide)
  have g := (init_failure_aborts defs0 (env_hwrm_fail 19 5) (softc_up 1 1) 0 (by decide)
    (by decide) (by decide)).1 rfl
  exact ⟨by decide, by decide, by decide, h.1, h.2.2.2.2, by decide, by decide, by decide,
    g.2.1, g.2.2.1, g.2.2.2.1⟩

/-- C4 (as stated) fails: when the initial function reset of `bnxt_init` is
the command that fails, on an interface that is up and running, `bnxt_init`
returns at once: no function reset follows the failure, the physical id of the
default completion ring keeps the firmware handle, and `IFF_DRV_RUNNING` stays
set. -/
theorem init_reset_failure_returns_at_once :
    (softc_up 1 1).hwrm_log.length = 19 ∧
    (softc_up 1 1).if_drv_flags &&& IFF_DRV_RUNNING = IFF_DRV_RUNNING ∧
    (bnxt_init defs0 (env_hwrm_fail 19 5) (softc_up 1 1)).hwrm_log =
      (softc_up 1 1).hwrm_log ++ [hwrm_cmd.func_reset] ∧
    (bnxt_init defs0 (env_hwrm_fail 19 5) (softc_up 1 1)).if_drv_flags &&& IFF_DRV_RUNNING ≠ 0 ∧
    (bnxt_init defs0 (env_hwrm_fail 19 5) (softc_up 1 1)).def_cp_ring.ring.phys_id ≠
      u16 defs0.HWRM_NA_SIGNATURE := by
  decide


/-! ## Successful bring-up -/

theorem seq_rc_ok {σ : Type} (f g : σ → Nat × σ) (s t : σ) (h : f s = (0, t)) :
    seq_rc f g s = g t := by
  unfold seq_rc
  simp [h]

theorem karray.upd_const {α : Type} [Inhabited α] (a : karray α) (i : Nat) (g : α → α) :
    a.upd i (fun _ => g (a.at i)) = a.upd i g := rfl

theorem init_tx_body_ok (K : bnxt_defs) (env : bnxt_env) (i : Nat) (s : bnxt_softc)
    (hi1 : i < s.tx_cp_rings.elems.length)
    (hok : ∀ q, q < 3 → env.hwrm_rc (s.hwrm_log.length + q) = 0) :
    init_tx_body K env i s = (0, tx_queue_up K env i s) := by
  have h0 : env.hwrm_rc s.hwrm_log.length = 0 := by simpa using hok 0 (by omega)
  have h1 : env.hwrm_rc (s.hwrm_log.length + 1) = 0 := hok 1 (by omega)
  have h2 : env.hwrm_rc (s.hwrm_log.length + 1 + 1) = 0 := hok 2 (by omega)
  unfold init_tx_body
  have e1 : tx_step_stat_ctx K env i s = (0,
      { s with
        tx_cp_rings := s.tx_cp_rings.upd i
          (fun c => { c with stats_ctx_id := env.hwrm_id s.hwrm_log.length }),
        hwrm_log := s.hwrm_log ++ [hwrm_cmd.stat_ctx_alloc (s.tx_cp_rings.at i)
          (s.tx_stats.idi_paddr + K.sizeof_ctx_hw_stats * i)] }) := by
    unfold tx_step_stat_ctx
    simp only [bnxt_hwrm_stat_ctx_alloc_eq, h0, if_true]
    rfl
  rw [seq_rc_ok _ _ _ _ e1]
  have e2 : tx_step_cp_ring K env i
      { s with
        tx_cp_rings := s.tx_cp_rings.upd i
          (fun c => { c with stats_ctx_id := env.hwrm_id s.hwrm_log.length }),
        hwrm_log := s.hwrm_log ++ [hwrm_cmd.stat_ctx_alloc (s.tx_cp_rings.at i)
          (s.tx_stats.idi_paddr + K.sizeof_ctx_hw_stats * i)] } = (0,
      { s with
        tx_cp_rings := s.tx_cp_rings.upd i (cp_ring_up env s.hwrm_log.length),
        hwrm_log := s.hwrm_log ++ [hwrm_cmd.stat_ctx_alloc (s.tx_cp_rings.at i)
          (s.tx_stats.idi_paddr + K.sizeof_ctx_hw_stats * i),
          hwrm_cmd.ring_alloc ring_type.CMPL (s.tx_cp_rings.at i).ring
            (u16 K.HWRM_NA_SIGNATURE) K.HWRM_NA_SIGNATURE false] }) := by
    unfold tx_step_cp_ring
    simp only [bnxt_hwrm_ring_alloc_eq, List.length_append, List.length_singleton, h1, if_true,
      karray.upd_upd, karray.at_upd_self _ _ _ hi1, List.append_assoc, List.singleton_append]
    rfl
  rw [seq_rc_ok _ _ _ _ e2]
  unfold tx_step_tx_ring tx_queue_up
  simp only [bnxt_hwrm_ring_alloc_eq, List.length_append, List.length_singleton,
    List.length_cons, List.length_nil, h2, if_true, karray.at_upd_self _ _ _ hi1,
    List.append_assoc, List.singleton_append, List.cons_append, List.nil_append, tx_cmds]
  rfl


theorem init_rx_body_ok (K : bnxt_defs) (env : bnxt_env) (i : Nat) (s : bnxt_softc)
    (hi1 : i < s.rx_cp_rings.elems.length) (hi2 : i < s.rx_rings.elems.length)
    (hi3 : i < s.ag_rings.elems.length) (hi4 : i < s.grp_info.elems.length)
    (hi5 : i < s.vnic_info.elems.length)
    (hok : ∀ q, q < rx_cmd_count i → env.hwrm_rc (s.hwrm_log.length + q) = 0) :
    init_rx_body K env i s = (0, rx_queue_up K env i s) := by
  have hc : 8 ≤ rx_cmd_count i := by
    unfold rx_cmd_count
    split_ifs <;> omega
  have h0 : env.hwrm_rc s.hwrm_log.length = 0 := by simpa using hok 0 (by omega)
  have h1 : env.hwrm_rc (s.hwrm_log.length + 1) = 0 := hok 1 (by omega)
  have h2 : env.hwrm_rc (s.hwrm_log.length + 2) = 0 := hok 2 (by omega)
  have h3 : env.hwrm_rc (s.hwrm_log.length + 3) = 0 := hok 3 (by omega)
  have h4 : env.hwrm_rc (s.hwrm_log.length + 4) = 0 := hok 4 (by omega)
  have h5 : env.hwrm_rc (s.hwrm_log.length + 5) = 0 := hok 5 (by omega)
  have h6 : env.hwrm_rc (s.hwrm_log.length + 6) = 0 := hok 6 (by omega)
  have h7 : env.hwrm_rc (s.hwrm_log.length + 7) = 0 := hok 7 (by omega)
  unfold init_rx_body
  have e1 : rx_step_stat_ctx K env i s = (0,
      { s with
        rx_cp_rings := s.rx_cp_rings.upd i
          (fun c => { c with stats_ctx_id := env.hwrm_id s.hwrm_log.length }),
        hwrm_log := s.hwrm_log ++ (rx_cmds K env s i s.hwrm_log.length).take 1 }) := by
    unfold rx_step_stat_ctx
    simp only [bnxt_hwrm_stat_ctx_alloc_eq, h0, if_true]
    rfl
  rw [seq_rc_ok _ _ _ _ e1]
  have e2 : rx_step_cp_ring K env i
      { s with
        rx_cp_rings := s.rx_cp_rings.upd i
          (fun c => { c with stats_ctx_id := env.hwrm_id s.hwrm_log.length }),
        hwrm_log := s.hwrm_log ++ (rx_cmds K env s i s.hwrm_log.length).take 1 } = (0,
      { s with
        rx_cp_rings := s.rx_cp_rings.upd i (cp_ring_up env s.hwrm_log.length),
        hwrm_log := s.hwrm_log ++ (rx_cmds K env s i s.hwrm_log.length).take 2 }) := by
    unfold rx_step_cp_ring
    simp only [bnxt_hwrm_ring_alloc_eq, rx_cmds, List.take, List.cons_append, List.length_append,
      List.length_singleton, List.length_cons, List.length_nil, h1, if_true,
      karray.upd_upd, karray.at_upd_self _ _ _ hi1, List.append_assoc, List.singleton_append]
    rfl
  rw [seq_rc_ok _ _ _ _ e2]
  have e3 : rx_step_rx_ring K env i
      { s with
        rx_cp_rings := s.rx_cp_rings.upd i (cp_ring_up env s.hwrm_log.length),
        hwrm_log := s.hwrm_log ++ (rx_cmds K env s i s.hwrm_log.length).take 2 } = (0,
      { s with
        rx_cp_rings := s.rx_cp_rings.upd i (cp_ring_up env s.hwrm_log.length),
        rx_rings := s.rx_rings.upd i (rx_ring_up env (s.hwrm_log.length + 2)),
        hwrm_log := s.hwrm_log ++ (rx_cmds K env s i s.hwrm_log.length).take 3 }) := by
    unfold rx_step_rx_ring
    simp only [bnxt_hwrm_ring_alloc_eq, rx_cmds, List.take, List.cons_append, List.length_append,
      List.length_singleton, List.length_cons, List.length_nil, h2, if_true,
      List.append_assoc, List.singleton_append]
    rfl
  rw [seq_rc_ok _ _ _ _ e3]
  have e4 : rx_step_ag_ring K env i
      { s with
        rx_cp_rings := s.rx_cp_rings.upd i (cp_ring_up env s.hwrm_log.length),
        rx_rings := s.rx_rings.upd i (rx_ring_up env (s.hwrm_log.length + 2)),
        hwrm_log := s.hwrm_log ++ (rx_cmds K env s i s.hwrm_log.length).take 3 } = (0,
      { s with
        rx_cp_rings := s.rx_cp_rings.upd i (cp_ring_up env s.hwrm_log.length),
        rx_rings := s.rx_rings.upd i (rx_ring_up env (s.hwrm_log.length + 2)),
        ag_rings := s.ag_rings.upd i (rx_ring_up env (s.hwrm_log.length + 3)),
        hwrm_log := s.hwrm_log ++ (rx_cmds K env s i s.hwrm_log.length).take 4 }) := by
    unfold rx_step_ag_ring
    simp only [bnxt_hwrm_ring_alloc_eq, rx_cmds, List.take, List.cons_append, List.length_append,
      List.length_singleton, List.length_cons, List.length_nil, h3, if_true,
      List.append_assoc, List.singleton_append]
    rfl
  rw [seq_rc_ok _ _ _ _ e4]
  have e5 : rx_step_ring_grp env i
      { s with
        rx_cp_rings := s.rx_cp_rings.upd i (cp_ring_up env s.hwrm_log.length),
        rx_rings := s.rx_rings.upd i (rx_ring_up env (s.hwrm_log.length + 2)),
        ag_rings := s.ag_rings.upd i (rx_ring_up env (s.hwrm_log.length + 3)),
        hwrm_log := s.hwrm_log ++ (rx_cmds K env s i s.hwrm_log.length).take 4 } = (0,
      { s with
        rx_cp_rings := s.rx_cp_rings.upd i (cp_ring_up env s.hwrm_log.length),
        rx_rings := s.rx_rings.upd i (rx_ring_up env (s.hwrm_log.length + 2)),
        ag_rings := s.ag_rings.upd i (rx_ring_up env (s.hwrm_log.length + 3)),
        grp_info := s.grp_info.upd i (grp_up env s.hwrm_log.length),
        hwrm_log := s.hwrm_log ++ (rx_cmds K env s i s.hwrm_log.length).take 5 }) := by
    unfold rx_step_ring_grp
    simp only [bnxt_hwrm_ring_grp_alloc_eq, rx_cmds, List.take, List.cons_append,
      List.length_append, List.length_singleton, List.length_cons, List.length_nil, h4, if_true,
      karray.upd_upd, karray.at_upd_self _ _ _ hi1, karray.at_upd_self _ _ _ hi2,
      karray.at_upd_self _ _ _ hi3, karray.at_upd_self _ _ _ hi4,
      List.append_assoc, List.singleton_append]
    rfl
  rw [seq_rc_ok _ _ _ _ e5]
  have e6 : rx_step_vnic_alloc env i
      { s with
        rx_cp_rings := s.rx_cp_rings.upd i (cp_ring_up env s.hwrm_log.length),
        rx_rings := s.rx_rings.upd i (rx_ring_up env (s.hwrm_log.length + 2)),
        ag_rings := s.ag_rings.upd i (rx_ring_up env (s.hwrm_log.length + 3)),
        grp_info := s.grp_info.upd i (grp_up env s.hwrm_log.length),
        hwrm_log := s.hwrm_log ++ (rx_cmds K env s i s.hwrm_log.length).take 5 } = (0,
      { s with
        rx_cp_rings := s.rx_cp_rings.upd i (cp_ring_up env s.hwrm_log.length),
        rx_rings := s.rx_rings.upd i (rx_ring_up env (s.hwrm_log.length + 2)),
        ag_rings := s.ag_rings.upd i (rx_ring_up env (s.hwrm_log.length + 3)),
        grp_info := s.grp_info.upd i (grp_up env s.hwrm_log.length),
        vnic_info := s.vnic_info.upd i (vnic_with_id env s.hwrm_log.length
          s.scctx.isc_max_frame_size),
        hwrm_log := s.hwrm_log ++ (rx_cmds K env s i s.hwrm_log.length).take 6 }) := by
    unfold rx_step_vnic_alloc
    simp only [bnxt_hwrm_vnic_alloc_eq, rx_cmds, List.take, List.cons_append,
      List.length_append, List.length_singleton, List.length_cons, List.length_nil, h5, if_true,
      karray.upd_upd, karray.at_upd_self _ _ _ hi4, karray.at_upd_self _ _ _ hi5,
      List.append_assoc, List.singleton_append]
    rfl
  rw [seq_rc_ok _ _ _ _ e6]
  have e7 : rx_step_vnic_ctx env i
      { s with
        rx_cp_rings := s.rx_cp_rings.upd i (cp_ring_up env s.hwrm_log.length),
        rx_rings := s.rx_rings.upd i (rx_ring_up env (s.hwrm_log.length + 2)),
        ag_rings := s.ag_rings.upd i (rx_ring_up env (s.hwrm_log.length + 3)),
        grp_info := s.grp_info.upd i (grp_up env s.hwrm_log.length),
        vnic_info := s.vnic_info.upd i (vnic_with_id env s.hwrm_log.length
          s.scctx.isc_max_frame_size),
        hwrm_log := s.hwrm_log ++ (rx_cmds K env s i s.hwrm_log.length).take 6 } = (0,
      { s with
        rx_cp_rings := s.rx_cp_rings.upd i (cp_ring_up env s.hwrm_log.length),
        rx_rings := s.rx_rings.upd i (rx_ring_up env (s.hwrm_log.length + 2)),
        ag_rings := s.ag_rings.upd i (rx_ring_up env (s.hwrm_log.length + 3)),
        grp_info := s.grp_info.upd i (grp_up env s.hwrm_log.length),
        vnic_info := s.vnic_info.upd i (vnic_with_ctx env s.hwrm_log.length
          s.scctx.isc_max_frame_size),
        hwrm_log := s.hwrm_log ++ (rx_cmds K env s i s.hwrm_log.length).take 7 }) := by
    unfold rx_step_vnic_ctx
    simp only [bnxt_hwrm_vnic_ctx_alloc_eq, rx_cmds, List.take, List.cons_append,
      List.length_append, List.length_singleton, List.length_cons, List.length_nil, h6, if_true,
      karray.upd_upd, karray.at_upd_self _ _ _ hi5, List.append_assoc, List.singleton_append]
    rfl
  rw [seq_rc_ok _ _ _ _ e7]
  have e8 : rx_step_vnic_cfg env i
      { s with
        rx_cp_rings := s.rx_cp_rings.upd i (cp_ring_up env s.hwrm_log.length),
        rx_rings := s.rx_rings.upd i (rx_ring_up env (s.hwrm_log.length + 2)),
        ag_rings := s.ag_rings.upd i (rx_ring_up env (s.hwrm_log.length + 3)),
        grp_info := s.grp_info.upd i (grp_up env s.hwrm_log.length),
        vnic_info := s.vnic_info.upd i (vnic_with_ctx env s.hwrm_log.length
          s.scctx.isc_max_frame_size),
        hwrm_log := s.hwrm_log ++ (rx_cmds K env s i s.hwrm_log.length).take 7 } = (0,
      { s with
        rx_cp_rings := s.rx_cp_rings.upd i (cp_ring_up env s.hwrm_log.length),
        rx_rings := s.rx_rings.upd i (rx_ring_up env (s.hwrm_log.length + 2)),
        ag_rings := s.ag_rings.upd i (rx_ring_up env (s.hwrm_log.length + 3)),
        grp_info := s.grp_info.upd i (grp_up env s.hwrm_log.length),
        vnic_info := s.vnic_info.upd i (vnic_with_ctx env s.hwrm_log.length
          s.scctx.isc_max_frame_size),
        hwrm_log := s.hwrm_log ++ (rx_cmds K env s i s.hwrm_log.length).take 8 }) := by
    unfold rx_step_vnic_cfg
    simp only [bnxt_hwrm_vnic_cfg_eq, rx_cmds, List.take, List.cons_append,
      List.length_append, List.length_singleton, List.length_cons, List.length_nil, h7,
      karray.at_upd_self _ _ _ hi5, List.append_assoc, List.singleton_append]
    rfl
  rw [seq_rc_ok _ _ _ _ e8]
  unfold rx_step_filter rx_queue_up
  by_cases hz : i = 0
  · have h8 : env.hwrm_rc (s.hwrm_log.length + 8) = 0 :=
      hok 8 (by unfold rx_cmd_count; simp [hz])
    simp only [hz, if_true, bnxt_hwrm_set_filter_eq, rx_cmds, List.take, List.cons_append,
      List.length_append, List.length_singleton, List.length_cons, List.length_nil, h8,
      karray.upd_upd, vnic_up, List.append_assoc, List.singleton_append, List.nil_append]
    subst hz
    simp only [karray.at_upd_self _ _ _ hi5]
    rfl
  · have hv : vnic_up env s.hwrm_log.length s.scctx.isc_max_frame_size i =
        vnic_with_ctx env s.hwrm_log.length s.scctx.isc_max_frame_size := by
      funext v
      simp [vnic_up, hz]
    simp only [hz, if_false, rx_cmds, List.take, List.append_nil, hv]


theorem rx_cmds_length (K : bnxt_defs) (env : bnxt_env) (s : bnxt_softc) (i pos : Nat) :
    (rx_cmds K env s i pos).length = rx_cmd_count i := by
  unfold rx_cmds rx_cmd_count
  split_ifs <;> simp

theorem cmds_upto_length (f : Nat → List hwrm_cmd) (k : Nat → Nat)
    (h : ∀ i, (f i).length = k i) (n : Nat) : (cmds_upto f n).length = sum_upto k n := by
  induction n with
  | zero => rfl
  | succ n ih => simp [cmds_upto, sum_upto, ih, h]

theorem rx_cmds_congr (K : bnxt_defs) (env : bnxt_env) (s t : bnxt_softc) (i pos : Nat)
    (h1 : t.rx_cp_rings.at i = s.rx_cp_rings.at i) (h2 : t.rx_rings.at i = s.rx_rings.at i)
    (h3 : t.ag_rings.at i = s.ag_rings.at i) (h4 : t.grp_info.at i = s.grp_info.at i)
    (h5 : t.vnic_info.at i = s.vnic_info.at i) (h6 : t.rx_stats = s.rx_stats)
    (h7 : t.scctx = s.scctx) : rx_cmds K env t i pos = rx_cmds K env s i pos := by
  unfold rx_cmds
  rw [h1, h2, h3, h4, h5, h6, h7]

theorem rx_up_inv_loop (K : bnxt_defs) (env : bnxt_env) (s : bnxt_softc) (n : Nat) :
    rx_up_inv K env s n (for_loop (rx_queue_up K env) n s) := by
  induction n with
  | zero =>
    refine ⟨⟨rfl, rfl, rfl, rfl, rfl⟩, fun j _ => ⟨rfl, rfl, rfl, rfl, rfl⟩,
      ⟨rfl, rfl, rfl, rfl, rfl, rfl, rfl, rfl⟩, ?_⟩
    simp [for_loop, cmds_upto]
  | succ n ih =>
    rw [for_loop]
    generalize for_loop (rx_queue_up K env) n s = t at ih
    obtain ⟨⟨l1, l2, l3, l4, l5⟩, hat, ⟨f1, f2, f3, f4, f5, f6, f7, f8⟩, hlog⟩ := ih
    obtain ⟨a1, a2, a3, a4, a5⟩ := hat n (Nat.le_refl n)
    have hlen : t.hwrm_log.length = s.hwrm_log.length + sum_upto rx_cmd_count n := by
      rw [hlog, List.length_append,
        cmds_upto_length _ rx_cmd_count (fun i => rx_cmds_length K env s i _) n]
    refine ⟨⟨?_, ?_, ?_, ?_, ?_⟩, ?_, ⟨f1, f2, f3, f4, f5, f6, f7, f8⟩, ?_⟩
    · exact (karray.upd_length _ _ _).trans l1
    · exact (karray.upd_length _ _ _).trans l2
    · exact (karray.upd_length _ _ _).trans l3
    · exact (karray.upd_length _ _ _).trans l4
    · exact (karray.upd_length _ _ _).trans l5
    · intro j hj
      obtain ⟨b1, b2, b3, b4, b5⟩ := hat j (by omega)
      have hne : n ≠ j := by omega
      refine ⟨?_, ?_, ?_, ?_, ?_⟩
      · exact (karray.at_upd_ne _ _ _ _ hne).trans b1
      · exact (karray.at_upd_ne _ _ _ _ hne).trans b2
      · exact (karray.at_upd_ne _ _ _ _ hne).trans b3
      · exact (karray.at_upd_ne _ _ _ _ hne).trans b4
      · exact (karray.at_upd_ne _ _ _ _ hne).trans b5
    · show t.hwrm_log ++ rx_cmds K env t n t.hwrm_log.length = _
      rw [rx_cmds_congr K env s t n _ a1 a2 a3 a4 a5 f1 f2, hlen, hlog, cmds_upto,
        List.append_assoc]

theorem for_rc_init_rx_ok (K : bnxt_defs) (env : bnxt_env) (s : bnxt_softc) (n : Nat)
    (h1 : n ≤ s.rx_cp_rings.elems.length) (h2 : n ≤ s.rx_rings.elems.length)
    (h3 : n ≤ s.ag_rings.elems.length) (h4 : n ≤ s.grp_info.elems.length)
    (h5 : n ≤ s.vnic_info.elems.length)
    (hok : ∀ q, q < sum_upto rx_cmd_count n → env.hwrm_rc (s.hwrm_log.length + q) = 0) :
    for_rc_result (init_rx_body K env) n s = (0, for_loop (rx_queue_up K env) n s) := by
  induction n with
  | zero => rfl
  | succ n ih =>
    have ih2 := ih (by omega) (by omega) (by omega) (by omega) (by omega)
      (fun q hq => hok q (by simp only [sum_upto]; omega))
    rw [for_rc_result_succ, seq_rc_ok _ _ _ _ ih2, for_loop]
    obtain ⟨⟨l1, l2, l3, l4, l5⟩, _, _, hlog⟩ := rx_up_inv_loop K env s n
    have hlen : (for_loop (rx_queue_up K env) n s).hwrm_log.length =
        s.hwrm_log.length + sum_upto rx_cmd_count n := by
      rw [hlog, List.length_append,
        cmds_upto_length _ rx_cmd_count (fun i => rx_cmds_length K env s i _) n]
    apply init_rx_body_ok
    · rw [l1]; omega
    · rw [l2]; omega
    · rw [l3]; omega
    · rw [l4]; omega
    · rw [l5]; omega
    · intro q hq
      rw [hlen, Nat.add_assoc]
      exact hok _ (by simp only [sum_upto]; omega)


theorem tx_cmds_length (K : bnxt_defs) (env : bnxt_env) (s : bnxt_softc) (i pos : Nat) :
    (tx_cmds K env s i pos).length = 3 := rfl

theorem sum_upto_const (c n : Nat) : sum_upto (fun _ => c) n = c * n := by
  induction n with
  | zero => rfl
  | succ n ih => simp [sum_upto, ih, Nat.mul_succ]

theorem tx_cmds_congr (K : bnxt_defs) (env : bnxt_env) (s t : bnxt_softc) (i pos : Nat)
    (h1 : t.tx_cp_rings.at i = s.tx_cp_rings.at i) (h2 : t.tx_rings.at i = s.tx_rings.at i)
    (h3 : t.tx_stats = s.tx_stats) : tx_cmds K env t i pos = tx_cmds K env s i pos := by
  unfold tx_cmds
  rw [h1, h2, h3]

theorem tx_up_inv_loop (K : bnxt_defs) (env : bnxt_env) (s : bnxt_softc) (n : Nat) :
    tx_up_inv K env s n (for_loop (tx_queue_up K env) n s) := by
  induction n with
  | zero =>
    refine ⟨⟨rfl, rfl⟩, fun j _ => ⟨rfl, rfl⟩, ⟨rfl, rfl, rfl, rfl⟩, ?_⟩
    simp [for_loop, cmds_upto]
  | succ n ih =>
    rw [for_loop]
    generalize for_loop (tx_queue_up K env) n s = t at ih
    obtain ⟨⟨l1, l2⟩, hat, ⟨f1, f2, f3, f4⟩, hlog⟩ := ih
    obtain ⟨a1, a2⟩ := hat n (Nat.le_refl n)
    have hlen : t.hwrm_log.length = s.hwrm_log.length + 3 * n := by
      rw [hlog, List.length_append,
        cmds_upto_length _ (fun _ => 3) (fun i => tx_cmds_length K env s i _) n,
        sum_upto_const]
    refine ⟨⟨?_, ?_⟩, ?_, ⟨f1, f2, f3, f4⟩, ?_⟩
    · exact (karray.upd_length _ _ _).trans l1
    · exact (karray.upd_length _ _ _).trans l2
    · intro j hj
      obtain ⟨b1, b2⟩ := hat j (by omega)
      have hne : n ≠ j := by omega
      exact ⟨(karray.at_upd_ne _ _ _ _ hne).trans b1, (karray.at_upd_ne _ _ _ _ hne).trans b2⟩
    · show t.hwrm_log ++ tx_cmds K env t n t.hwrm_log.length = _
      rw [tx_cmds_congr K env s t n _ a1 a2 f1, hlen, hlog, cmds_upto, List.append_assoc]

theorem for_rc_init_tx_ok (K : bnxt_defs) (env : bnxt_env) (s : bnxt_softc) (n : Nat)
    (h1 : n ≤ s.tx_cp_rings.elems.length)
    (hok : ∀ q, q < 3 * n → env.hwrm_rc (s.hwrm_log.length + q) = 0) :
    for_rc_result (init_tx_body K env) n s = (0, for_loop (tx_queue_up K env) n s) := by
  induction n with
  | zero => rfl
  | succ n ih =>
    have ih2 := ih (by omega) (fun q hq => hok q (by omega))
    rw [for_rc_result_succ, seq_rc_ok _ _ _ _ ih2, for_loop]
    obtain ⟨⟨l1, _⟩, _, _, hlog⟩ := tx_up_inv_loop K env s n
    have hlen : (for_loop (tx_queue_up K env) n s).hwrm_log.length =
        s.hwrm_log.length + 3 * n := by
      rw [hlog, List.length_append,
        cmds_upto_length _ (fun _ => 3) (fun i => tx_cmds_length K env s i _) n,
        sum_upto_const]
    apply init_tx_body_ok
    · rw [l1]; omega
    · intro q hq
      rw [hlen, Nat.add_assoc]
      exact hok _ (by omega)

/-- The window of the commands of queue-set `i` in a log that holds the
commands of `n` queue-sets between a head and a tail. -/
theorem cmds_upto_window (f : Nat → List hwrm_cmd) (k : Nat → Nat)
    (hk : ∀ i, (f i).length = k i) (head tail : List hwrm_cmd) (n i : Nat) (hi : i < n) :
    ((head ++ cmds_upto f n ++ tail).drop (head.length + sum_upto k i)).take (k i) = f i := by
  induction n generalizing tail with
  | zero => omega
  | succ n ih =>
    rw [cmds_upto]
    by_cases h : i < n
    · have := ih (f n ++ tail) h
      rw [← this]
      simp only [List.append_assoc]
    · have hin : i = n := by omega
      subst hin
      have hl : (head ++ cmds_upto f i).length = head.length + sum_upto k i := by
        rw [List.length_append, cmds_upto_length f k hk]
      have e : head ++ (cmds_upto f i ++ f i) ++ tail =
          (head ++ cmds_upto f i) ++ (f i ++ tail) := by
        simp only [List.append_assoc]
      rw [e, ← hl, List.drop_left, ← hk i, List.take_left]


theorem cmds_upto_congr (f g : Nat → List hwrm_cmd) (n : Nat) (h : ∀ i, i < n → f i = g i) :
    cmds_upto f n = cmds_upto g n := by
  induction n with
  | zero => rfl
  | succ n ih =>
    rw [cmds_upto, cmds_upto, ih (fun i hi => h i (by omega)), h n (by omega)]

/-- The allocation commands of `bnxt_init` when all of them succeed: the
status, the log and the interface flags. -/
theorem init_alloc_ok (K : bnxt_defs) (env : bnxt_env) (c : bnxt_softc) (hfit : arrays_fit c)
    (hok : ∀ q, q < init_cmd_count c → env.hwrm_rc (c.hwrm_log.length + q) = 0) :
    (init_alloc K env c).1 = 0 ∧
    (init_alloc K env c).2.hwrm_log =
      c.hwrm_log ++
        [hwrm_cmd.ring_alloc ring_type.CMPL c.def_cp_ring.ring (u16 K.HWRM_NA_SIGNATURE)
          K.HWRM_NA_SIGNATURE true] ++
        cmds_upto (fun i => rx_cmds K env c i
          (c.hwrm_log.length + 1 + sum_upto rx_cmd_count i)) c.nrxqsets ++
        cmds_upto (fun i => tx_cmds K env c i
          (c.hwrm_log.length + 1 + sum_upto rx_cmd_count c.nrxqsets + 3 * i)) c.ntxqsets ∧
    (init_alloc K env c).2.if_drv_flags = c.if_drv_flags := by
  obtain ⟨g1, g2, g3, g4, g5, g6, _⟩ := hfit
  have hcount : init_cmd_count c =
      1 + (sum_upto rx_cmd_count c.nrxqsets + 3 * c.ntxqsets) := by
    unfold init_cmd_count
    rw [sum_upto_const]
  rw [hcount] at hok
  have h0 : env.hwrm_rc c.hwrm_log.length = 0 := by simpa using hok 0 (by omega)
  -- the default completion ring
  have e1 : init_def_step K env c = (0, def_ring_up K env c) := by
    unfold init_def_step def_ring_up
    simp only [bnxt_hwrm_ring_alloc_eq, h0, if_true]
  generalize hd : def_ring_up K env c = d at e1
  have d1 : d.rx_cp_rings = c.rx_cp_rings := by subst hd; rfl
  have d2 : d.rx_rings = c.rx_rings := by subst hd; rfl
  have d3 : d.ag_rings = c.ag_rings := by subst hd; rfl
  have d4 : d.grp_info = c.grp_info := by subst hd; rfl
  have d5 : d.vnic_info = c.vnic_info := by subst hd; rfl
  have d6 : d.tx_cp_rings = c.tx_cp_rings := by subst hd; rfl
  have d7 : d.tx_rings = c.tx_rings := by subst hd; rfl
  have d8 : d.rx_stats = c.rx_stats := by subst hd; rfl
  have d9 : d.tx_stats = c.tx_stats := by subst hd; rfl
  have d10 : d.scctx = c.scctx := by subst hd; rfl
  have d11 : d.nrxqsets = c.nrxqsets := by subst hd; rfl
  have d12 : d.ntxqsets = c.ntxqsets := by subst hd; rfl
  have d13 : d.if_drv_flags = c.if_drv_flags := by subst hd; rfl
  have d14 : d.hwrm_log = c.hwrm_log ++
      [hwrm_cmd.ring_alloc ring_type.CMPL c.def_cp_ring.ring (u16 K.HWRM_NA_SIGNATURE)
        K.HWRM_NA_SIGNATURE true] := by subst hd; rfl
  have dlen : d.hwrm_log.length = c.hwrm_log.length + 1 := by
    rw [d14, List.length_append, List.length_singleton]
  -- the receive queue-sets
  have e2 : for_rc_result (init_rx_body K env) d.nrxqsets d =
      (0, for_loop (rx_queue_up K env) d.nrxqsets d) := by
    apply for_rc_init_rx_ok
    · rw [d1, d11]; exact g1
    · rw [d2, d11]; exact g2
    · rw [d3, d11]; exact g3
    · rw [d4, d11]; exact g4
    · rw [d5, d11]; exact g5
    · intro q hq
      rw [dlen, Nat.add_assoc]
      rw [d11] at hq
      exact hok _ (by omega)
  obtain ⟨_, _, ⟨_, _, r3, r4, r5, _, r7, r8⟩, rlog⟩ := rx_up_inv_loop K env d d.nrxqsets
  generalize for_loop (rx_queue_up K env) d.nrxqsets d = R at e2 r3 r4 r5 r7 r8 rlog
  have rlen : R.hwrm_log.length = c.hwrm_log.length + 1 + sum_upto rx_cmd_count c.nrxqsets := by
    rw [rlog, List.length_append,
      cmds_upto_length _ rx_cmd_count (fun i => rx_cmds_length K env d i _), dlen, d11]
  -- the transmit queue-sets
  have e3 : for_rc_result (init_tx_body K env) R.ntxqsets R =
      (0, for_loop (tx_queue_up K env) R.ntxqsets R) := by
    apply for_rc_init_tx_ok
    · rw [r3, d6, r7, d12]; exact g6
    · intro q hq
      rw [rlen, Nat.add_assoc, Nat.add_assoc]
      rw [r7, d12] at hq
      exact hok _ (by omega)
  obtain ⟨_, _, ⟨_, _, _, t4⟩, tlog⟩ := tx_up_inv_loop K env R R.ntxqsets
  generalize for_loop (tx_queue_up K env) R.ntxqsets R = T at e3 t4 tlog
  have hall : init_alloc K env c = (0, T) := by
    unfold init_alloc
    rw [seq_rc_ok _ _ _ _ e1]
    refine (seq_rc_ok _ _ d R ?_).trans ?_
    · exact e2
    · exact e3
  rw [hall]
  refine ⟨rfl, ?_, ?_⟩
  · show T.hwrm_log = _
    rw [tlog, rlen, rlog, dlen, d14, r7, d12, d11]
    congr 1
    · congr 1
      apply cmds_upto_congr
      intro i _
      exact rx_cmds_congr K env c d i _ (by rw [d1]) (by rw [d2]) (by rw [d3]) (by rw [d4])
        (by rw [d5]) d8 d10
    · apply cmds_upto_congr
      intro i _
      exact tx_cmds_congr K env c R i _ (by rw [r3, d6]) (by rw [r4, d7]) (by rw [r5, d9])
  · show T.if_drv_flags = _
    rw [t4, r8, d13]


theorem bnxt_clear_ids_log (K : bnxt_defs) (s : bnxt_softc) (l : List hwrm_cmd) :
    bnxt_clear_ids K { s with hwrm_log := l } = { bnxt_clear_ids K s with hwrm_log := l } := by
  rw [bnxt_clear_ids_eq, bnxt_clear_ids_eq]

theorem arrays_fit_clear_ids (K : bnxt_defs) (s : bnxt_softc) (h : arrays_fit s) :
    arrays_fit (bnxt_clear_ids K s) := by
  rw [bnxt_clear_ids_eq]
  obtain ⟨h1, h2, h3, h4, h5, h6, h7⟩ := h
  refine ⟨?_, ?_, ?_, ?_, ?_, ?_, ?_⟩
  · exact h1.trans (karray.upto_length _ _ _).symm.le
  · exact h2.trans (karray.upto_length _ _ _).symm.le
  · exact h3.trans (karray.upto_length _ _ _).symm.le
  · exact h4.trans (karray.upto_length _ _ _).symm.le
  · exact h5.trans (karray.upto_length _ _ _).symm.le
  · exact h6.trans (karray.upto_length _ _ _).symm.le
  · exact h7.trans (karray.upto_length _ _ _).symm.le

/-- The log and the interface flags after a `bnxt_init` in which every
firmware command succeeds. -/
theorem bnxt_init_success (K : bnxt_defs) (env : bnxt_env) (s : bnxt_softc)
    (hfit : arrays_fit s)
    (hok : ∀ q, q < 1 + init_cmd_count s → env.hwrm_rc (s.hwrm_log.length + q) = 0) :
    (bnxt_init K env s).hwrm_log =
      (s.hwrm_log ++
        [hwrm_cmd.func_reset,
         hwrm_cmd.ring_alloc ring_type.CMPL (bnxt_clear_ids K s).def_cp_ring.ring
           (u16 K.HWRM_NA_SIGNATURE) K.HWRM_NA_SIGNATURE true]) ++
        cmds_upto (fun i => rx_cmds K env (bnxt_clear_ids K s) i
          (s.hwrm_log.length + 2 + sum_upto rx_cmd_count i)) s.nrxqsets ++
        cmds_upto (fun i => tx_cmds K env (bnxt_clear_ids K s) i
          (s.hwrm_log.length + 2 + sum_upto rx_cmd_count s.nrxqsets + 3 * i)) s.ntxqsets ∧
    (bnxt_init K env s).if_drv_flags = s.if_drv_flags ||| IFF_DRV_RUNNING := by
  have h0 : env.hwrm_rc s.hwrm_log.length = 0 := by simpa using hok 0 (by omega)
  rw [bnxt_init_eq]
  simp only [h0, ne_eq, not_true_eq_false, if_false, bnxt_clear_ids_log]
  have hc := arrays_fit_clear_ids K s hfit
  obtain ⟨_, cn, ct, cf⟩ := bnxt_clear_ids_frame K s
  generalize hC : bnxt_clear_ids K s = C at hc cn ct cf ⊢
  have hfit2 : arrays_fit { C with hwrm_log := s.hwrm_log ++ [hwrm_cmd.func_reset] } := hc
  have hcount : init_cmd_count { C with hwrm_log := s.hwrm_log ++ [hwrm_cmd.func_reset] } =
      init_cmd_count s := by
    unfold init_cmd_count
    show 1 + (sum_upto rx_cmd_count C.nrxqsets + sum_upto (fun _ => 3) C.ntxqsets) = _
    rw [cn, ct]
  obtain ⟨a1, a2, a3⟩ := init_alloc_ok K env
    { C with hwrm_log := s.hwrm_log ++ [hwrm_cmd.func_reset] } hfit2 (by
      intro q hq
      rw [hcount] at hq
      have := hok (1 + q) (by omega)
      simp only [List.length_append, List.length_singleton]
      rw [Nat.add_assoc]
      exact this)
  simp only [a1, not_true_eq_false, if_false]
  refine ⟨?_, ?_⟩
  · rw [a2]
    simp only [List.length_append, List.length_singleton, List.append_assoc,
      List.singleton_append, List.cons_append, List.nil_append, cn, ct]
    have e1 : ∀ i, s.hwrm_log.length + 1 + 1 + sum_upto rx_cmd_count i =
        s.hwrm_log.length + 2 + sum_upto rx_cmd_count i := fun i => by omega
    have e2 : ∀ i, s.hwrm_log.length + 1 + 1 + sum_upto rx_cmd_count s.nrxqsets + 3 * i =
        s.hwrm_log.length + 2 + sum_upto rx_cmd_count s.nrxqsets + 3 * i := fun i => by omega
    simp only [e1, e2]
    rfl
  · show (init_alloc K env
        { C with hwrm_log := s.hwrm_log ++ [hwrm_cmd.func_reset] }).2.if_drv_flags |||
      IFF_DRV_RUNNING = _
    rw [a3]
    show C.if_drv_flags ||| IFF_DRV_RUNNING = _
    rw [cf]


/-! ## Claims on bring-up -/

/-- C5: in a `bnxt_init` run in which all firmware commands succeed, the
commands issued for receive queue-set `i` are exactly the list `rx_cmds`, in
this order: statistics-context alloc, completion-ring alloc, receive-ring
alloc, aggregation-ring alloc, ring-group alloc with the four handles the
firmware returned for the four preceding commands, VNIC alloc with `ring_grp`
the id returned for the ring group, VNIC context alloc, VNIC configure, and
the L2 filter install if and only if `i = 0`.  They occupy the window of the
log that starts at offset `2 + sum_upto rx_cmd_count i` (after the function
reset and the default completion ring); the window of queue-set `i + 1`
starts where that of queue-set `i` ends. -/
theorem init_rx_queue_commands (K : bnxt_defs) (env : bnxt_env) (s : bnxt_softc) (i : Nat)
    (hfit : arrays_fit s)
    (hok : ∀ q, q < 1 + init_cmd_count s → env.hwrm_rc (s.hwrm_log.length + q) = 0)
    (hi : i < s.nrxqsets) :
    (((bnxt_init K env s).hwrm_log.drop
        (s.hwrm_log.length + 2 + sum_upto rx_cmd_count i)).take (rx_cmd_count i) =
      rx_cmds K env (bnxt_clear_ids K s) i (s.hwrm_log.length + 2 + sum_upto rx_cmd_count i)) ∧
    s.hwrm_log.length + 2 + sum_upto rx_cmd_count (i + 1) =
      (s.hwrm_log.length + 2 + sum_upto rx_cmd_count i) + rx_cmd_count i ∧
    (bnxt_init K env s).hwrm_log.take (s.hwrm_log.length + 2) =
      s.hwrm_log ++
        [hwrm_cmd.func_reset,
         hwrm_cmd.ring_alloc ring_type.CMPL (bnxt_clear_ids K s).def_cp_ring.ring
           (u16 K.HWRM_NA_SIGNATURE) K.HWRM_NA_SIGNATURE true] := by
  obtain ⟨hlog, _⟩ := bnxt_init_success K env s hfit hok
  refine ⟨?_, ?_, ?_⟩
  · rw [hlog]
    have hw := cmds_upto_window
      (fun i => rx_cmds K env (bnxt_clear_ids K s) i
        (s.hwrm_log.length + 2 + sum_upto rx_cmd_count i)) rx_cmd_count
      (fun i => rx_cmds_length K env _ i _)
      (s.hwrm_log ++
        [hwrm_cmd.func_reset,
         hwrm_cmd.ring_alloc ring_type.CMPL (bnxt_clear_ids K s).def_cp_ring.ring
           (u16 K.HWRM_NA_SIGNATURE) K.HWRM_NA_SIGNATURE true])
      (cmds_upto (fun i => tx_cmds K env (bnxt_clear_ids K s) i
          (s.hwrm_log.length + 2 + sum_upto rx_cmd_count s.nrxqsets + 3 * i)) s.ntxqsets)
      s.nrxqsets i hi
    simp only [List.length_append, List.length_cons, List.length_nil] at hw
    exact hw
  · simp only [sum_upto]
    omega
  · rw [hlog, List.append_assoc]
    have hl : s.hwrm_log.length + 2 = (s.hwrm_log ++
        [hwrm_cmd.func_reset,
         hwrm_cmd.ring_alloc ring_type.CMPL (bnxt_clear_ids K s).def_cp_ring.ring
           (u16 K.HWRM_NA_SIGNATURE) K.HWRM_NA_SIGNATURE true]).length := by
      simp
    rw [hl, List.take_left]

/-- The device context `softc_alloc 1 2` has arrays that fit its queue-sets. -/
theorem arrays_fit_softc_alloc : arrays_fit (softc_alloc 1 2) := by
  unfold arrays_fit
  decide

/-- Witness of C5: receive queue-set 1 of a device with one transmit and two
receive queue-sets; the ring group is allocated with the handles 116, 118,
119, 117 of the commands 16 to 19 and the VNIC with the handle 120 of the
ring group. -/
theorem init_rx_queue_commands_witness :
    arrays_fit (softc_alloc 1 2) ∧
    (∀ q, q < 1 + init_cmd_count (softc_alloc 1 2) →
      env_ok.hwrm_rc ((softc_alloc 1 2).hwrm_log.length + q) = 0) ∧
    1 < (softc_alloc 1 2).nrxqsets ∧
    ((softc_up 1 2).hwrm_log.drop 16).take 8 =
      rx_cmds defs0 env_ok (bnxt_clear_ids defs0 (softc_alloc 1 2)) 1 16 ∧
    ((rx_cmds defs0 env_ok (bnxt_clear_ids defs0 (softc_alloc 1 2)) 1 16).drop 4).take 1 =
      [hwrm_cmd.ring_grp_alloc
        { grp_id := 65535, stats_ctx := 116, rx_ring_id := 118, ag_ring_id := 119,
          cp_ring_id := 117 }] := by
  have h := init_rx_queue_commands defs0 env_ok (softc_alloc 1 2) 1 arrays_fit_softc_alloc
    (fun _ _ => rfl) (by decide)
  exact ⟨arrays_fit_softc_alloc, fun _ _ => rfl, by decide, h.1, by decide⟩

/-- C6: in a `bnxt_init` run in which all firmware commands succeed, the
commands issued for transmit queue-set `i` are exactly the list `tx_cmds`:
statistics-context alloc, completion-ring alloc, transmit-ring alloc, the
last being passed the physical id that the completion-ring alloc returned for
`tx_cp_rings[i]` and the statistics-context id that the statistics-context
alloc returned.  They occupy the window of the log at offset
`2 + sum_upto rx_cmd_count nrxqsets + 3 * i`, after the windows of all receive
queue-sets, and the log ends with the window of the last transmit
queue-set. -/
theorem init_tx_queue_commands (K : bnxt_defs) (env : bnxt_env) (s : bnxt_softc) (i : Nat)
    (hfit : arrays_fit s)
    (hok : ∀ q, q < 1 + init_cmd_count s → env.hwrm_rc (s.hwrm_log.length + q) = 0)
    (hi : i < s.ntxqsets) :
    (((bnxt_init K env s).hwrm_log.drop
        (s.hwrm_log.length + 2 + sum_upto rx_cmd_count s.nrxqsets + 3 * i)).take 3 =
      tx_cmds K env (bnxt_clear_ids K s) i
        (s.hwrm_log.length + 2 + sum_upto rx_cmd_count s.nrxqsets + 3 * i)) ∧
    (∀ j, j < s.nrxqsets →
      (s.hwrm_log.length + 2 + sum_upto rx_cmd_count j) + rx_cmd_count j ≤
        s.hwrm_log.length + 2 + sum_upto rx_cmd_count s.nrxqsets) ∧
    (bnxt_init K env s).hwrm_log.length =
      s.hwrm_log.length + 2 + sum_upto rx_cmd_count s.nrxqsets + 3 * s.ntxqsets := by
  obtain ⟨hlog, _⟩ := bnxt_init_success K env s hfit hok
  have hmono : ∀ n j, j < n → sum_upto rx_cmd_count j + rx_cmd_count j ≤
      sum_upto rx_cmd_count n := by
    intro n
    induction n with
    | zero => intro j hj; omega
    | succ n ih =>
      intro j hj
      simp only [sum_upto]
      by_cases h : j < n
      · have := ih j h
        omega
      · have : j = n := by omega
        subst this
        omega
  refine ⟨?_, ?_, ?_⟩
  · rw [hlog]
    have hw := cmds_upto_window
      (fun i => tx_cmds K env (bnxt_clear_ids K s) i
        (s.hwrm_log.length + 2 + sum_upto rx_cmd_count s.nrxqsets + 3 * i)) (fun _ => 3)
      (fun i => tx_cmds_length K env _ i _)
      ((s.hwrm_log ++
        [hwrm_cmd.func_reset,
         hwrm_cmd.ring_alloc ring_type.CMPL (bnxt_clear_ids K s).def_cp_ring.ring
           (u16 K.HWRM_NA_SIGNATURE) K.HWRM_NA_SIGNATURE true]) ++
        cmds_upto (fun i => rx_cmds K env (bnxt_clear_ids K s) i
          (s.hwrm_log.length + 2 + sum_upto rx_cmd_count i)) s.nrxqsets)
      [] s.ntxqsets i hi
    simp only [List.length_append, List.length_cons, List.length_nil, List.append_nil,
      cmds_upto_length _ rx_cmd_count (fun i => rx_cmds_length K env _ i _),
      sum_upto_const] at hw
    exact hw
  · intro j hj
    have := hmono s.nrxqsets j hj
    omega
  · rw [hlog]
    simp only [List.length_append, List.length_cons, List.length_nil,
      cmds_upto_length _ rx_cmd_count (fun i => rx_cmds_length K env _ i _),
      cmds_upto_length _ (fun _ => 3) (fun i => tx_cmds_length K env _ i _), sum_upto_const]

/-- Witness of C6: transmit queue-set 0 of a device with one transmit and two
receive queue-sets; the transmit ring is allocated with the completion ring
handle 125 and the statistics-context handle 124 of the two commands before
it. -/
theorem init_tx_queue_commands_witness :
    arrays_fit (softc_alloc 1 2) ∧
    (∀ q, q < 1 + init_cmd_count (softc_alloc 1 2) →
      env_ok.hwrm_rc ((softc_alloc 1 2).hwrm_log.length + q) = 0) ∧
    0 < (softc_alloc 1 2).ntxqsets ∧
    ((softc_up 1 2).hwrm_log.drop 24).take 3 =
      tx_cmds defs0 env_ok (bnxt_clear_ids defs0 (softc_alloc 1 2)) 0 24 ∧
    (softc_up 1 2).hwrm_log.length = 27 ∧
    ((tx_cmds defs0 env_ok (bnxt_clear_ids defs0 (softc_alloc 1 2)) 0 24).drop 2 =
      [hwrm_cmd.ring_alloc ring_type.TX
        ((bnxt_clear_ids defs0 (softc_alloc 1 2)).tx_rings.at 0).ring 125 124 false]) := by
  have h := init_tx_queue_commands defs0 env_ok (softc_alloc 1 2) 0 arrays_fit_softc_alloc
    (fun _ _ => rfl) (by decide)
  exact ⟨arrays_fit_softc_alloc, fun _ _ => rfl, by decide, h.1, h.2.2, by decide⟩


/-! ## Receive filter -/

theorem dma_read_write (a : Nat) (b : List Nat) (s : bnxt_softc) :
    dma_read (dma_write a b s) a = b := by
  simp [dma_read, dma_write, List.lookup]

theorem and_not_testBit (x m b : Nat) :
    (and_not x m).testBit b = (x.testBit b && !m.testBit b) := by
  simp only [and_not, Nat.testBit_xor, Nat.testBit_and]
  cases x.testBit b <;> cases m.testBit b <;> rfl

theorem length_flatten_le (l : List (List Nat)) (c n : Nat) (h : ∀ a ∈ l, a.length = c)
    (hn : l.length ≤ n) : l.flatten.length ≤ n * c := by
  induction l generalizing n with
  | nil => simp
  | cons a l ih =>
    simp only [List.flatten_cons, List.length_append, List.length_cons] at hn ⊢
    have h1 := h a (List.mem_cons_self a l)
    have h2 := ih (n - 1) (fun x hx => h x (List.mem_cons_of_mem a hx)) (by omega)
    have h3 : n = (n - 1) + 1 := by omega
    rw [h3, Nat.add_mul, h1]
    omega

theorem bnxt_multi_set_eq (K : bnxt_defs) (env : bnxt_env) (s : bnxt_softc)
    (h0 : 0 < s.vnic_info.elems.length)
    (hsz : (dma_read s (s.vnic_info.at 0).mc_list.idi_vaddr).length =
      (s.vnic_info.at 0).mc_list_size) :
    (bnxt_multi_set K env s).vnic_info.at 0 =
      (multi_set_ref K env.if_multiaddrs (s.vnic_info.at 0)
        (dma_read s (s.vnic_info.at 0).mc_list.idi_vaddr)).1 ∧
    dma_read (bnxt_multi_set K env s) (s.vnic_info.at 0).mc_list.idi_vaddr =
      (multi_set_ref K env.if_multiaddrs (s.vnic_info.at 0)
        (dma_read s (s.vnic_info.at 0).mc_list.idi_vaddr)).2 ∧
    (bnxt_multi_set K env s).hwrm_log = s.hwrm_log ++
      [hwrm_cmd.cfa_l2_set_rx_mask ((bnxt_multi_set K env s).vnic_info.at 0)] ∧
    (∀ j, j ≠ 0 → (bnxt_multi_set K env s).vnic_info.at j = s.vnic_info.at j) := by
  unfold bnxt_multi_set multi_set_ref if_multiaddr_count
  by_cases hc : env.if_multiaddrs.length > K.BNXT_MAX_MC_ADDRS
  · simp only [hc, if_true, bnxt_hwrm_cfa_l2_set_rx_mask, hwrm_send,
      karray.at_upd_self _ _ _ h0]
    refine ⟨trivial, rfl, trivial, ?_⟩
    intro j hj
    exact karray.at_upd_ne _ _ _ _ (Ne.symm hj)
  · simp only [hc, if_false, bnxt_hwrm_cfa_l2_set_rx_mask, hwrm_send, dma_write,
      karray.upd_upd, karray.at_upd_self _ _ _ h0, dma_read, List.lookup, beq_self_eq_true]
    have hsz2 : ((List.lookup (s.vnic_info.at 0).mc_list.idi_vaddr s.dma_bytes).getD []).length =
        (s.vnic_info.at 0).mc_list_size := hsz
    have hz : bzero ((List.lookup (s.vnic_info.at 0).mc_list.idi_vaddr s.dma_bytes).getD [])
        (s.vnic_info.at 0).mc_list_size = List.replicate (s.vnic_info.at 0).mc_list_size 0 := by
      unfold bzero
      rw [List.drop_of_length_le (Nat.le_of_eq hsz2), List.append_nil]
    simp only [hz, hsz2, Option.getD_some, if_multiaddr_array, List.take_length,
      List.drop_replicate]
    refine ⟨trivial, trivial, trivial, ?_⟩
    intro j hj
    exact karray.at_upd_ne _ _ _ _ (Ne.symm hj)

/-- C11: `bnxt_multi_set` agrees with the reference on VNIC 0, for every
membership and every prior state in which VNIC 0 exists and its multicast list
buffer holds `mc_list_size` bytes.  With more than `BNXT_MAX_MC_ADDRS`
addresses the bits of `ALL_MCAST` are set in `rx_mask`, every other bit of the
mask is as before, and the buffer and `mc_list_count` are untouched; otherwise
the bits of `ALL_MCAST` are cleared and those of `MCAST` set, every other bit is
as before, the buffer holds the addresses of the membership followed by zeroes
up to its size, and `mc_list_count` is the number of addresses.  In both cases
exactly one set-rx-mask command is issued, carrying the VNIC as it is after
the call, and no other VNIC is changed. -/
theorem multi_set_matches_reference (K : bnxt_defs) (env : bnxt_env) (s : bnxt_softc)
    (h0 : 0 < s.vnic_info.elems.length)
    (hsz : (dma_read s (s.vnic_info.at 0).mc_list.idi_vaddr).length =
      (s.vnic_info.at 0).mc_list_size) :
    ((bnxt_multi_set K env s).vnic_info.at 0,
      dma_read (bnxt_multi_set K env s) (s.vnic_info.at 0).mc_list.idi_vaddr) =
      multi_set_ref K env.if_multiaddrs (s.vnic_info.at 0)
        (dma_read s (s.vnic_info.at 0).mc_list.idi_vaddr) ∧
    (K.BNXT_MAX_MC_ADDRS < env.if_multiaddrs.length →
      (∀ b, ((bnxt_multi_set K env s).vnic_info.at 0).rx_mask.testBit b =
        ((s.vnic_info.at 0).rx_mask.testBit b ||
          K.HWRM_CFA_L2_SET_RX_MASK_INPUT_MASK_ALL_MCAST.testBit b)) ∧
      dma_read (bnxt_multi_set K env s) (s.vnic_info.at 0).mc_list.idi_vaddr =
        dma_read s (s.vnic_info.at 0).mc_list.idi_vaddr ∧
      ((bnxt_multi_set K env s).vnic_info.at 0).mc_list_count =
        (s.vnic_info.at 0).mc_list_count) ∧
    (env.if_multiaddrs.length ≤ K.BNXT_MAX_MC_ADDRS →
      (∀ b, ((bnxt_multi_set K env s).vnic_info.at 0).rx_mask.testBit b =
        (((s.vnic_info.at 0).rx_mask.testBit b &&
            !K.HWRM_CFA_L2_SET_RX_MASK_INPUT_MASK_ALL_MCAST.testBit b) ||
          K.HWRM_CFA_L2_SET_RX_MASK_INPUT_MASK_MCAST.testBit b)) ∧
      dma_read (bnxt_multi_set K env s) (s.vnic_info.at 0).mc_list.idi_vaddr =
        env.if_multiaddrs.flatten ++
          List.replicate ((s.vnic_info.at 0).mc_list_size - env.if_multiaddrs.flatten.length) 0 ∧
      ((bnxt_multi_set K env s).vnic_info.at 0).mc_list_count = env.if_multiaddrs.length ∧
      ((∀ a ∈ env.if_multiaddrs, a.length = K.ETHER_ADDR_LEN) →
        (s.vnic_info.at 0).mc_list_size = K.BNXT_MAX_MC_ADDRS * K.ETHER_ADDR_LEN →
        (dma_read (bnxt_multi_set K env s) (s.vnic_info.at 0).mc_list.idi_vaddr).length =
          (s.vnic_info.at 0).mc_list_size)) ∧
    (bnxt_multi_set K env s).hwrm_log = s.hwrm_log ++
      [hwrm_cmd.cfa_l2_set_rx_mask ((bnxt_multi_set K env s).vnic_info.at 0)] ∧
    (∀ j, j ≠ 0 → (bnxt_multi_set K env s).vnic_info.at j = s.vnic_info.at j) := by
  obtain ⟨e1, e2, e3, e4⟩ := bnxt_multi_set_eq K env s h0 hsz
  refine ⟨Prod.ext e1 e2, ?_, ?_, e3, e4⟩
  · intro hc
    rw [e1, e2]
    unfold multi_set_ref
    rw [if_pos hc]
    refine ⟨?_, rfl, rfl⟩
    intro b
    simp only [Nat.testBit_or]
  · intro hc
    rw [e1, e2]
    unfold multi_set_ref
    rw [if_neg (Nat.not_lt.mpr hc)]
    refine ⟨?_, ?_, rfl, ?_⟩
    · intro b
      simp only [Nat.testBit_or, and_not_testBit]
    · simp only [hsz]
    · intro ha hm
      have hl := length_flatten_le env.if_multiaddrs K.ETHER_ADDR_LEN K.BNXT_MAX_MC_ADDRS ha hc
      simp only [List.length_append, List.length_replicate, hsz]
      omega

/-- Witness of C11: with two addresses in the membership, the mask of VNIC 0
goes from `BCAST` to `BCAST | MCAST`, the count becomes 2 and the buffer holds
the twelve bytes of the two addresses followed by 84 zero bytes. -/
theorem multi_set_matches_reference_witness :
    0 < softc_mc.vnic_info.elems.length ∧
    (dma_read softc_mc (softc_mc.vnic_info.at 0).mc_list.idi_vaddr).length =
      (softc_mc.vnic_info.at 0).mc_list_size ∧
    (softc_mc.vnic_info.at 0).rx_mask = 8 ∧
    ((bnxt_multi_set defs0 env_mc softc_mc).vnic_info.at 0).rx_mask = 10 ∧
    ((bnxt_multi_set defs0 env_mc softc_mc).vnic_info.at 0).mc_list_count = 2 ∧
    dma_read (bnxt_multi_set defs0 env_mc softc_mc) (softc_mc.vnic_info.at 0).mc_list.idi_vaddr =
      [0x01, 0x00, 0x5e, 0x00, 0x00, 0x01, 0x33, 0x33, 0x00, 0x00, 0x00, 0x01] ++
        List.replicate 84 0 := by
  have h := multi_set_matches_reference defs0 env_mc softc_mc (by decide) (by decide)
  have h2 := h.2.2.1 (by decide)
  exact ⟨by decide, by decide, by decide, by decide, h2.2.2.1, h2.2.1.trans (by decide)⟩

/-- C12: the device context that `bnxt_multi_set` leaves does not depend on
the replies of the firmware: two runs from the same state and with the same
membership that differ in the status (and handle) the firmware returns for
the set-rx-mask command end in the same device context, in particular with the
same `rx_mask` and `mc_list_count` of VNIC 0 and the same bytes in the
multicast list buffer. -/
theorem multi_set_ignores_firmware_result (K : bnxt_defs) (env : bnxt_env) (s : bnxt_softc)
    (rc rc2 id id2 : Nat → Nat) :
    bnxt_multi_set K { env with hwrm_rc := rc, hwrm_id := id } s =
      bnxt_multi_set K { env with hwrm_rc := rc2, hwrm_id := id2 } s ∧
    ((bnxt_multi_set K { env with hwrm_rc := rc, hwrm_id := id } s).vnic_info.at 0).rx_mask =
      ((bnxt_multi_set K { env with hwrm_rc := rc2, hwrm_id := id2 } s).vnic_info.at 0).rx_mask ∧
    ((bnxt_multi_set K { env with hwrm_rc := rc, hwrm_id := id } s).vnic_info.at 0).mc_list_count =
      ((bnxt_multi_set K { env with hwrm_rc := rc2, hwrm_id := id2 } s).vnic_info.at
        0).mc_list_count ∧
    dma_read (bnxt_multi_set K { env with hwrm_rc := rc, hwrm_id := id } s)
        (s.vnic_info.at 0).mc_list.idi_vaddr =
      dma_read (bnxt_multi_set K { env with hwrm_rc := rc2, hwrm_id := id2 } s)
        (s.vnic_info.at 0).mc_list.idi_vaddr := by
  have h : bnxt_multi_set K { env with hwrm_rc := rc, hwrm_id := id } s =
      bnxt_multi_set K { env with hwrm_rc := rc2, hwrm_id := id2 } s := rfl
  exact ⟨h, by rw [h], by rw [h], by rw [h]⟩


/-! ## Link monitor -/

theorem update_link_refresh_eq (L : bnxt_link_defs) (resp : hwrm_port_phy_qcfg_output)
    (s : bnxt_softc) :
    update_link_refresh L resp s =
      { s with link_info := link_refreshed L resp s.link_info,
               events := s.events ++ refresh_events } := by
  unfold update_link_refresh link_refreshed refresh_events
  simp only [link_write, List.append_assoc, List.singleton_append, List.map_cons, List.map_nil]
  by_cases h : resp.link = L.BNXT_LINK_LINK
  · simp only [h, if_true]
    rfl
  · simp only [h, if_false]
    rfl

theorem bnxt_update_link_fail (L : bnxt_link_defs) (env : bnxt_env) (chng : Bool)
    (s : bnxt_softc) (h : env.hwrm_rc s.hwrm_log.length ≠ 0) :
    bnxt_update_link L env chng s =
      (env.hwrm_rc s.hwrm_log.length,
        { s with hwrm_log := s.hwrm_log ++ [hwrm_cmd.port_phy_qcfg],
                 events := s.events ++ [bnxt_event.hwrm_lock, bnxt_event.hwrm_unlock] }) := by
  unfold bnxt_update_link
  simp only [BNXT_HWRM_LOCK, BNXT_HWRM_UNLOCK, hwrm_send, h, ne_eq, not_false_eq_true, if_true,
    List.append_assoc, List.singleton_append]

theorem bnxt_update_link_ok (L : bnxt_link_defs) (env : bnxt_env) (chng : Bool)
    (s : bnxt_softc) (h : env.hwrm_rc s.hwrm_log.length = 0) :
    bnxt_update_link L env chng s =
      (0,
        { s with
          hwrm_log := s.hwrm_log ++ [hwrm_cmd.port_phy_qcfg],
          link_info :=
            { link_refreshed L (env.phy_qcfg s.hwrm_log.length) s.link_info with
              link_up := if chng then new_link_up L (env.phy_qcfg s.hwrm_log.length) else 0 },
          events := s.events ++
            update_link_events L chng s.link_info.link_up (env.phy_qcfg s.hwrm_log.length) }) := by
  unfold bnxt_update_link
  simp only [BNXT_HWRM_LOCK, BNXT_HWRM_UNLOCK, hwrm_send, h, ne_eq, not_true_eq_false, if_false,
    update_link_refresh_eq, update_link_state, update_link_events, link_notice, new_link_up,
    link_write, link_refreshed, bnxt_report_link, iflib_link_state_change]
  cases chng
  · simp
  · by_cases h1 : (env.phy_qcfg s.hwrm_log.length).link = L.BNXT_LINK_LINK
    · by_cases h2 : s.link_info.link_up = 1
      · simp [h1, h2]
      · simp [h1, h2]
    · by_cases h2 : s.link_info.link_up = 0
      · simp [h1, h2]
      · simp [h1, h2]

theorem notifications_update_link_events (L : bnxt_link_defs) (chng : Bool) (old : Nat)
    (resp : hwrm_port_phy_qcfg_output) :
    notifications (update_link_events L chng old resp) =
      if chng = true ∧ old ≠ new_link_up L resp then
        [if resp.link = L.BNXT_LINK_LINK then LINK_STATE_UP else LINK_STATE_DOWN]
      else [] := by
  unfold update_link_events refresh_events link_notice
  by_cases h : chng = true ∧ old ≠ new_link_up L resp
  · rw [if_pos h, if_pos h]
    rfl
  · rw [if_neg h, if_neg h]
    rfl

theorem writes_locked_update_link_events (L : bnxt_link_defs) (chng : Bool) (old : Nat)
    (resp : hwrm_port_phy_qcfg_output) :
    writes_locked false (update_link_events L chng old resp) = true ∧
    lock_held false (update_link_events L chng old resp) = false := by
  unfold update_link_events refresh_events link_notice
  by_cases h : chng = true ∧ old ≠ new_link_up L resp
  · rw [if_pos h]
    exact ⟨rfl, rfl⟩
  · rw [if_neg h]
    exact ⟨rfl, rfl⟩

/-- C13 (as amended): when the link query succeeds, `bnxt_update_link(softc,
false)` returns 0 and leaves `link_up` equal to 0 whatever its value was, and
duplex, pause and the speed fields of Link Info are those of the reply, the
link speed being the speed of the reply when the PHY reports link and 0
otherwise; when the link query fails, the status of the query is returned and
Link Info, `link_up` included, is left as it was. -/
theorem update_link_false_forces_link_down (L : bnxt_link_defs) (env : bnxt_env)
    (s : bnxt_softc) :
    (env.hwrm_rc s.hwrm_log.length = 0 →
      (bnxt_update_link L env false s).1 = 0 ∧
      (bnxt_update_link L env false s).2.link_info.link_up = 0 ∧
      (bnxt_update_link L env false s).2.link_info.duplex =
        (env.phy_qcfg s.hwrm_log.length).duplex ∧
      (bnxt_update_link L env false s).2.link_info.pause =
        (env.phy_qcfg s.hwrm_log.length).pause ∧
      (bnxt_update_link L env false s).2.link_info.link_speed =
        (if (env.phy_qcfg s.hwrm_log.length).link = L.BNXT_LINK_LINK then
          L.le16toh (env.phy_qcfg s.hwrm_log.length).link_speed else 0) ∧
      (bnxt_update_link L env false s).2.link_info.force_link_speed =
        L.le16toh (env.phy_qcfg s.hwrm_log.length).force_link_speed ∧
      (bnxt_update_link L env false s).2.link_info.auto_link_speed =
        L.le16toh (env.phy_qcfg s.hwrm_log.length).auto_link_speed ∧
      (bnxt_update_link L env false s).2.link_info.support_speeds =
        L.le16toh (env.phy_qcfg s.hwrm_log.length).support_speeds ∧
      (bnxt_update_link L env false s).2.link_info.auto_link_speeds =
        L.le16toh (env.phy_qcfg s.hwrm_log.length).auto_link_speed_mask) ∧
    (env.hwrm_rc s.hwrm_log.length ≠ 0 →
      (bnxt_update_link L env false s).1 = env.hwrm_rc s.hwrm_log.length ∧
      (bnxt_update_link L env false s).2.link_info = s.link_info) := by
  constructor
  · intro h
    rw [bnxt_update_link_ok L env false s h]
    exact ⟨rfl, rfl, rfl, rfl, rfl, rfl, rfl, rfl, rfl⟩
  · intro h
    rw [bnxt_update_link_fail L env false s h]
    exact ⟨rfl, rfl⟩

/-- Witness of C13 (as amended): on a running interface whose link is up, a
probe whose query succeeds leaves `link_up` at 0 and the speed of the reply
in Link Info. -/
theorem update_link_false_forces_link_down_witness :
    env_link.hwrm_rc softc_link_up.hwrm_log.length = 0 ∧
    softc_link_up.link_info.link_up = 1 ∧
    (bnxt_update_link link_defs0 env_link false softc_link_up).2.link_info.link_up = 0 ∧
    (bnxt_update_link link_defs0 env_link false softc_link_up).2.link_info.link_speed = 100 := by
  have h := (update_link_false_forces_link_down link_defs0 env_link softc_link_up).1 rfl
  exact ⟨rfl, by decide, h.2.1, h.2.2.2.2.1.trans (by decide)⟩

/-- C13 (as stated) fails: on a running interface whose link is up
(`link_up = 1`), a `bnxt_update_link(softc, false)` whose link query fails
returns the status of the query and leaves `link_up` equal to 1. -/
theorem update_link_false_keeps_link_up_on_failure :
    softc_link_up.link_info.link_up = 1 ∧
    (bnxt_update_link link_defs0 (env_hwrm_fail softc_link_up.hwrm_log.length 5) false
      softc_link_up).1 = 5 ∧
    (bnxt_update_link link_defs0 (env_hwrm_fail softc_link_up.hwrm_log.length 5) false
      softc_link_up).2.link_info.link_up = 1 := by
  decide

/-- C14: when the link query of `bnxt_update_link(softc, true)` succeeds,
`link_up` becomes 1 if the PHY reports link and 0 otherwise, and iflib is
notified of the link state exactly once if this value differs from the value
of `link_up` before the call and not at all if it is equal; the notification
carries `LINK_STATE_UP` when the link came up and `LINK_STATE_DOWN` when it
went down.  In particular a link that was down and is reported up gives
exactly one `LINK_STATE_UP`. -/
theorem update_link_notifies_on_change (L : bnxt_link_defs) (env : bnxt_env) (s : bnxt_softc)
    (h : env.hwrm_rc s.hwrm_log.length = 0) :
    (bnxt_update_link L env true s).2.link_info.link_up =
      new_link_up L (env.phy_qcfg s.hwrm_log.length) ∧
    s.events <+: (bnxt_update_link L env true s).2.events ∧
    notifications ((bnxt_update_link L env true s).2.events.drop s.events.length) =
      (if s.link_info.link_up ≠ new_link_up L (env.phy_qcfg s.hwrm_log.length) then
        [if (env.phy_qcfg s.hwrm_log.length).link = L.BNXT_LINK_LINK then LINK_STATE_UP
         else LINK_STATE_DOWN]
       else []) ∧
    (s.link_info.link_up = 0 → (env.phy_qcfg s.hwrm_log.length).link = L.BNXT_LINK_LINK →
      notifications ((bnxt_update_link L env true s).2.events.drop s.events.length) =
        [LINK_STATE_UP]) := by
  rw [bnxt_update_link_ok L env true s h]
  simp only [List.drop_left, notifications_update_link_events, true_and, if_true]
  refine ⟨List.prefix_append _ _, ?_⟩
  intro h0 h1
  simp [h0, h1, new_link_up]

/-- Witness of C14: on a running interface whose link is down, a status poll
that finds the link established notifies iflib once, with `LINK_STATE_UP`;
the next poll notifies nobody. -/
theorem update_link_notifies_on_change_witness :
    env_link.hwrm_rc (softc_up 1 2).hwrm_log.length = 0 ∧
    (softc_up 1 2).link_info.link_up = 0 ∧
    notifications ((bnxt_update_link link_defs0 env_link true (softc_up 1 2)).2.events.drop
      (softc_up 1 2).events.length) = [LINK_STATE_UP] ∧
    notifications ((bnxt_update_link link_defs0 env_link true softc_link_up).2.events.drop
      softc_link_up.events.length) = [] := by
  have h := update_link_notifies_on_change link_defs0 env_link (softc_up 1 2) rfl
  exact ⟨rfl, by decide, h.2.2.2 (by decide) (by decide), by decide⟩

theorem writes_locked_append (h : Bool) (a b : List bnxt_event) :
    writes_locked h (a ++ b) = (writes_locked h a && writes_locked (lock_held h a) b) := by
  induction a generalizing h with
  | nil => simp [writes_locked, lock_held]
  | cons e a ih =>
    cases e <;> simp [writes_locked, lock_held, ih, Bool.and_assoc]

theorem probe_phy_settings_events (L : bnxt_link_defs) (t : bnxt_softc) :
    ∃ f w, (probe_phy_settings L t).events = t.events ++ bnxt_event.link_write f :: w ∧
      [bnxt_event.link_write link_field.req_duplex,
       bnxt_event.link_write link_field.req_link_speed,
       bnxt_event.link_write link_field.advertising] <:+ bnxt_event.link_write f :: w ∧
      ∀ e ∈ w, ∃ g, e = bnxt_event.link_write g := by
  unfold probe_phy_settings
  simp only [link_write]
  split_ifs <;>
    simp only [List.append_assoc, List.singleton_append, List.cons_append, List.nil_append] <;>
    exact ⟨_, _, rfl, by decide, by simp⟩

theorem update_link_locked (L : bnxt_link_defs) (env : bnxt_env) (chng : Bool)
    (s : bnxt_softc) :
    s.events <+: (bnxt_update_link L env chng s).2.events ∧
    writes_locked false ((bnxt_update_link L env chng s).2.events.drop s.events.length) = true ∧
    lock_held false ((bnxt_update_link L env chng s).2.events.drop s.events.length) = false := by
  by_cases h : env.hwrm_rc s.hwrm_log.length = 0
  · rw [bnxt_update_link_ok L env chng s h]
    simp only [List.drop_left]
    exact ⟨List.prefix_append _ _, writes_locked_update_link_events L chng _ _⟩
  · rw [bnxt_update_link_fail L env chng s h]
    simp only [List.drop_left]
    exact ⟨List.prefix_append _ _, rfl, rfl⟩

/-- C19 (as amended): every write of `bnxt_update_link` to a field of Link
Info, with either value of `chng_link_state` and whether the link query
succeeds or fails, happens between `BNXT_HWRM_LOCK` and the matching
`BNXT_HWRM_UNLOCK`, and the lock is released when the function returns; the
same holds for `bnxt_media_status`, which writes Link Info only through
`bnxt_update_link`.  `bnxt_probe_phy`, when its link query succeeds, goes on
to write Link Info after `bnxt_update_link` has released the lock: the events
of `bnxt_update_link` are followed by writes to Link Info only (at least one,
and every event after it is a write to Link Info too), the last three being
those of `req_duplex`, `req_link_speed` and `advertising`, so that these
writes happen while the lock is not held. -/
theorem link_info_writes_and_lock (L : bnxt_link_defs) (env : bnxt_env) (s : bnxt_softc) :
    (∀ chng : Bool,
      s.events <+: (bnxt_update_link L env chng s).2.events ∧
      writes_locked false ((bnxt_update_link L env chng s).2.events.drop s.events.length) = true ∧
      lock_held false ((bnxt_update_link L env chng s).2.events.drop s.events.length) = false) ∧
    (∀ (M : ifmedia_defs) (ifmr : ifmediareq),
      s.events <+: (bnxt_media_status L M env ifmr s).2.events ∧
      writes_locked false ((bnxt_media_status L M env ifmr s).2.events.drop s.events.length) =
        true ∧
      lock_held false ((bnxt_media_status L M env ifmr s).2.events.drop s.events.length) =
        false) ∧
    (env.hwrm_rc s.hwrm_log.length = 0 →
      (∃ f w, (bnxt_probe_phy L env s).2.events =
          (bnxt_update_link L env false s).2.events ++ bnxt_event.link_write f :: w ∧
        [bnxt_event.link_write link_field.req_duplex,
         bnxt_event.link_write link_field.req_link_speed,
         bnxt_event.link_write link_field.advertising] <:+ bnxt_event.link_write f :: w ∧
        ∀ e ∈ w, ∃ g, e = bnxt_event.link_write g) ∧
      writes_locked false ((bnxt_probe_phy L env s).2.events.drop s.events.length) = false) := by
  refine ⟨fun chng => update_link_locked L env chng s,
    fun _ _ => update_link_locked L env true s, ?_⟩
  intro h
  have hp : bnxt_probe_phy L env s = (0, probe_phy_settings L (bnxt_update_link L env false s).2) := by
    unfold bnxt_probe_phy
    simp only [bnxt_update_link_ok L env false s h, ne_eq, not_true_eq_false, if_false]
  obtain ⟨f, w, h1, h2, h3⟩ := probe_phy_settings_events L (bnxt_update_link L env false s).2
  rw [hp]
  refine ⟨⟨f, w, h1, h2, h3⟩, ?_⟩
  have hu : (bnxt_update_link L env false s).2.events = s.events ++
      update_link_events L false s.link_info.link_up (env.phy_qcfg s.hwrm_log.length) := by
    rw [bnxt_update_link_ok L env false s h]
  obtain ⟨u2, u3⟩ := writes_locked_update_link_events L false s.link_info.link_up
    (env.phy_qcfg s.hwrm_log.length)
  show writes_locked false
    ((probe_phy_settings L (bnxt_update_link L env false s).2).events.drop s.events.length) = false
  rw [h1, hu]
  simp only [List.append_assoc, List.drop_left, writes_locked_append, u2, u3, writes_locked,
    Bool.false_and, Bool.and_false]

/-- Witness of C19 (as amended): the PHY probe of a freshly attached device
whose link query succeeds. -/
theorem link_info_writes_and_lock_witness :
    env_link.hwrm_rc (softc_alloc 1 2).hwrm_log.length = 0 ∧
    writes_locked false ((bnxt_update_link link_defs0 env_link false (softc_alloc 1 2)).2.events.drop
      (softc_alloc 1 2).events.length) = true ∧
    writes_locked false ((bnxt_probe_phy link_defs0 env_link (softc_alloc 1 2)).2.events.drop
      (softc_alloc 1 2).events.length) = false := by
  have h := link_info_writes_and_lock link_defs0 env_link (softc_alloc 1 2)
  exact ⟨rfl, (h.1 false).2.1, (h.2.2 rfl).2⟩

/-- C19 (as stated) fails for `bnxt_probe_phy`: on a freshly attached device
whose link query succeeds, the events of the probe are the lock, the writes of
`bnxt_update_link`, the unlock, and then six more writes to Link Info
(`autoneg` twice, `req_flow_ctrl`, `req_duplex`, `req_link_speed`,
`advertising`) while the lock is not held. -/
theorem probe_phy_writes_link_info_unlocked :
    (softc_alloc 1 2).events = [] ∧
    (bnxt_probe_phy link_defs0 env_link (softc_alloc 1 2)).1 = 0 ∧
    (bnxt_probe_phy link_defs0 env_link (softc_alloc 1 2)).2.events =
      bnxt_event.hwrm_lock :: refresh_events ++
        [bnxt_event.link_write link_field.link_up, bnxt_event.hwrm_unlock,
         bnxt_event.link_write link_field.autoneg, bnxt_event.link_write link_field.autoneg,
         bnxt_event.link_write link_field.req_flow_ctrl,
         bnxt_event.link_write link_field.req_duplex,
         bnxt_event.link_write link_field.req_link_speed,
         bnxt_event.link_write link_field.advertising] ∧
    writes_locked false (bnxt_probe_phy link_defs0 env_link (softc_alloc 1 2)).2.events =
      false := by
  decide


/-! ## Interrupt disable -/

theorem for_loop_disable_db (ring : bnxt_softc → Nat → bnxt_ring) (cons : bnxt_softc → Nat → Int)
    (hr : ∀ (s : bnxt_softc) (e : List bnxt_event) (i : Nat),
      ring { s with events := e } i = ring s i)
    (hc : ∀ (s : bnxt_softc) (e : List bnxt_event) (i : Nat),
      cons { s with events := e } i = cons s i)
    (n : Nat) (s : bnxt_softc) :
    for_loop (fun i t => BNXT_CP_DISABLE_DB (ring t i) (cons t i) t) n s =
      { s with events := s.events ++
          (List.range n).map (fun i => bnxt_event.cp_disable_db (ring s i) (cons s i)) } := by
  induction n with
  | zero => simp [for_loop]
  | succ n ih =>
    rw [for_loop, ih]
    simp only [BNXT_CP_DISABLE_DB, hr, hc, List.range_succ, List.map_append,
      List.map_cons, List.map_nil, List.append_assoc]

/-- C17: `bnxt_disable_intr` changes nothing but the doorbells, and the
doorbell writes it makes are, in this order: one disable write to the default
completion ring, one to each of the `ntxqsets` transmit completion rings and
one to each of the `nrxqsets` receive completion rings, every one with the
current `raw_cons` of the ring it goes to.  No write that arms a ring is
made. -/
theorem disable_intr_disarms_all (s : bnxt_softc) :
    bnxt_disable_intr s =
      { s with events := s.events ++
          (bnxt_event.cp_disable_db s.def_cp_ring.ring s.def_cp_ring.raw_cons ::
            ((List.range s.ntxqsets).map (fun i =>
                bnxt_event.cp_disable_db (s.tx_cp_rings.at i).ring (s.tx_cp_rings.at i).raw_cons) ++
              (List.range s.nrxqsets).map (fun i =>
                bnxt_event.cp_disable_db (s.rx_cp_rings.at i).ring
                  (s.rx_cp_rings.at i).raw_cons))) } ∧
    (bnxt_disable_intr s).events.length = s.events.length + (1 + s.ntxqsets + s.nrxqsets) ∧
    (∀ e ∈ (bnxt_disable_intr s).events.drop s.events.length,
      ∀ r c, e ≠ bnxt_event.cp_arm_db r c) := by
  have h : bnxt_disable_intr s =
      { s with events := s.events ++
          (bnxt_event.cp_disable_db s.def_cp_ring.ring s.def_cp_ring.raw_cons ::
            ((List.range s.ntxqsets).map (fun i =>
                bnxt_event.cp_disable_db (s.tx_cp_rings.at i).ring (s.tx_cp_rings.at i).raw_cons) ++
              (List.range s.nrxqsets).map (fun i =>
                bnxt_event.cp_disable_db (s.rx_cp_rings.at i).ring
                  (s.rx_cp_rings.at i).raw_cons))) } := by
    unfold bnxt_disable_intr
    dsimp only
    rw [for_loop_disable_db (fun t i => (t.tx_cp_rings.at i).ring)
      (fun t i => (t.tx_cp_rings.at i).raw_cons) (fun _ _ _ => rfl) (fun _ _ _ => rfl)]
    rw [for_loop_disable_db (fun t i => (t.rx_cp_rings.at i).ring)
      (fun t i => (t.rx_cp_rings.at i).raw_cons) (fun _ _ _ => rfl) (fun _ _ _ => rfl)]
    simp only [BNXT_CP_DISABLE_DB, List.append_assoc, List.singleton_append, List.cons_append,
      List.nil_append]
  refine ⟨h, ?_, ?_⟩
  · rw [h]
    simp only [List.length_append, List.length_cons, List.length_map, List.length_range]
    omega
  · rw [h]
    simp only [List.drop_left]
    intro e he r c hne
    subst hne
    simp at he


/-! ## Bring-down -/

theorem clear_ids_stop_cleared (K : bnxt_defs) (env : bnxt_env) (s : bnxt_softc) :
    ids_cleared K (bnxt_stop K env s) :=
  ids_cleared_clear_ids K (bnxt_hwrm_func_reset env s).2

/-- C15: `bnxt_stop` issues exactly one firmware command, the function reset,
then clears the ids as `bnxt_clear_ids` does and clears `IFF_DRV_RUNNING`,
leaving the other interface flags alone.  It makes no memory request and
releases nothing: kernel memory, the addresses and lengths of the ring, group
and VNIC arrays, the id, doorbell, size, mask and base addresses of every
ring, the consumer and producer indices, the group handles, the settings of
every VNIC with its multicast list buffer, the queue-set counts and the DMA
buffers are after `bnxt_stop` what they were before. -/
theorem stop_resets_and_frees_nothing (K : bnxt_defs) (env : bnxt_env) (s : bnxt_softc) :
    (bnxt_stop K env s).hwrm_log = s.hwrm_log ++ [hwrm_cmd.func_reset] ∧
    ids_cleared K (bnxt_stop K env s) ∧
    (bnxt_stop K env s).if_drv_flags = and_not s.if_drv_flags IFF_DRV_RUNNING ∧
    (bnxt_stop K env s).if_drv_flags &&& IFF_DRV_RUNNING = 0 ∧
    (bnxt_stop K env s).mem = s.mem ∧
    ((bnxt_stop K env s).ntxqsets = s.ntxqsets ∧ (bnxt_stop K env s).nrxqsets = s.nrxqsets) ∧
    ((bnxt_stop K env s).tx_stats = s.tx_stats ∧ (bnxt_stop K env s).rx_stats = s.rx_stats ∧
      (bnxt_stop K env s).def_cp_ring_mem = s.def_cp_ring_mem ∧
      (bnxt_stop K env s).hwrm_cmd_resp = s.hwrm_cmd_resp ∧
      (bnxt_stop K env s).dma_bytes = s.dma_bytes) ∧
    ((bnxt_stop K env s).tx_cp_rings.addr = s.tx_cp_rings.addr ∧
      (bnxt_stop K env s).tx_rings.addr = s.tx_rings.addr ∧
      (bnxt_stop K env s).rx_cp_rings.addr = s.rx_cp_rings.addr ∧
      (bnxt_stop K env s).rx_rings.addr = s.rx_rings.addr ∧
      (bnxt_stop K env s).ag_rings.addr = s.ag_rings.addr ∧
      (bnxt_stop K env s).grp_info.addr = s.grp_info.addr ∧
      (bnxt_stop K env s).vnic_info.addr = s.vnic_info.addr) ∧
    (ring_layout (bnxt_stop K env s).def_cp_ring.ring = ring_layout s.def_cp_ring.ring ∧
      (bnxt_stop K env s).def_cp_ring.raw_cons = s.def_cp_ring.raw_cons) ∧
    (bnxt_stop K env s).tx_cp_rings.elems.map (fun c => (ring_layout c.ring, c.raw_cons)) =
      s.tx_cp_rings.elems.map (fun c => (ring_layout c.ring, c.raw_cons)) ∧
    (bnxt_stop K env s).tx_rings.elems.map (fun t => (ring_layout t.ring, t.prod)) =
      s.tx_rings.elems.map (fun t => (ring_layout t.ring, t.prod)) ∧
    (bnxt_stop K env s).rx_cp_rings.elems.map (fun c => (ring_layout c.ring, c.raw_cons)) =
      s.rx_cp_rings.elems.map (fun c => (ring_layout c.ring, c.raw_cons)) ∧
    (bnxt_stop K env s).rx_rings.elems.map (fun r => (ring_layout r.ring, r.prod)) =
      s.rx_rings.elems.map (fun r => (ring_layout r.ring, r.prod)) ∧
    (bnxt_stop K env s).ag_rings.elems.map (fun r => (ring_layout r.ring, r.prod)) =
      s.ag_rings.elems.map (fun r => (ring_layout r.ring, r.prod)) ∧
    (bnxt_stop K env s).grp_info.elems.map
        (fun g => (g.stats_ctx, g.rx_ring_id, g.ag_ring_id, g.cp_ring_id)) =
      s.grp_info.elems.map (fun g => (g.stats_ctx, g.rx_ring_id, g.ag_ring_id, g.cp_ring_id)) ∧
    (bnxt_stop K env s).vnic_info.elems.map vnic_settings =
      s.vnic_info.elems.map vnic_settings := by
  have h : bnxt_stop K env s =
      { bnxt_clear_ids K s with
        hwrm_log := s.hwrm_log ++ [hwrm_cmd.func_reset],
        if_drv_flags := and_not s.if_drv_flags IFF_DRV_RUNNING } := by
    unfold bnxt_stop
    simp only [bnxt_hwrm_func_reset, hwrm_send, bnxt_clear_ids_log, if_setdrvflagbits,
      (bnxt_clear_ids_frame K s).2.2.2, Nat.or_zero]
  refine ⟨?_, clear_ids_stop_cleared K env s, ?_, ?_, ?_, ?_, ?_, ?_, ?_, ?_, ?_, ?_, ?_, ?_, ?_,
    ?_⟩
  all_goals rw [h, bnxt_clear_ids_eq]
  · exact and_not_and _ _
  · exact ⟨rfl, rfl⟩
  · exact ⟨rfl, rfl, rfl, rfl, rfl⟩
  · exact ⟨rfl, rfl, rfl, rfl, rfl, rfl, rfl⟩
  · exact ⟨rfl, rfl⟩
  all_goals exact karray.map_upto _ _ _ _ (fun _ _ => rfl)


/-! ## The id formula -/

theorem map_range_add (a n : Nat) (f : Nat → Nat) (h : ∀ i, f i = a + i) :
    (List.range n).map f = List.range' a n := by
  rw [List.range'_eq_map_range]
  exact List.map_congr_left (fun i _ => h i)

theorem alloc_queues_counts (K : bnxt_defs) (env : bnxt_env) (tva tpa rva rpa : List Nat)
    (ntxqs nrxqs n m : Nat) (s : bnxt_softc)
    (h : (alloc_queues K env tva tpa rva rpa ntxqs nrxqs n m s).1 = 0) :
    (alloc_queues K env tva tpa rva rpa ntxqs nrxqs n m s).2.nrxqsets = m ∧
    (alloc_queues K env tva tpa rva rpa ntxqs nrxqs n m s).2.ntxqsets = n := by
  unfold alloc_queues at h ⊢
  simp only [] at h ⊢
  by_cases ht : (bnxt_tx_queues_alloc K env tva tpa ntxqs n s).1 = 0
  · simp only [ht, ne_eq, not_true_eq_false, if_false] at h ⊢
    obtain ⟨⟨_, _, _, _, _, _, _, _, h9, _⟩, hn⟩ :=
      bnxt_rx_queues_alloc_ok K env rva rpa nrxqs m _ h
    refine ⟨hn, h9.trans ?_⟩
    rw [bnxt_tx_queues_alloc_ok K env tva tpa ntxqs n s ht]
    rfl
  · simp only [ht, ne_eq, not_false_eq_true, if_true] at h

/-- C20: after `bnxt_attach_pre` and the allocation of `n` transmit and `m`
receive queue-sets succeeded on a device with `isc_nrxqsets = m`, the default
completion ring has id 0, receive ring `i` and receive completion ring `i` have
id `i + 1`, aggregation ring `i` has id `m + i + 1`, and transmit ring `i` and
transmit completion ring `i` have id `2 * m + 1 + i`.  Hence the ids of the
receive and aggregation rings, in this order, are 1, 2, ..., `2 * m`, those of
the transmit rings are `2 * m + 1`, ..., `2 * m + n`, and the ids of all
receive, aggregation and transmit rings are pairwise distinct. -/
theorem ring_id_formula (K : bnxt_defs) (env : bnxt_env) (tva tpa rva rpa : List Nat)
    (ntxqs nrxqs n m : Nat) (s0 s1 s : bnxt_softc)
    (hm : s0.scctx.isc_nrxqsets = m)
    (ha : bnxt_attach_pre K env s0 = (0, s1))
    (hq : alloc_queues K env tva tpa rva rpa ntxqs nrxqs n m s1 = (0, s)) :
    (s.nrxqsets = m ∧ s.scctx.isc_nrxqsets = m ∧ s.ntxqsets = n) ∧
    s.def_cp_ring.ring.id = 0 ∧
    ring_ids (rings_rx s) = (List.range m).map (fun i => i + 1) ∧
    ring_ids (rings_rx_cp s) = (List.range m).map (fun i => i + 1) ∧
    ring_ids (rings_ag s) = (List.range m).map (fun i => m + i + 1) ∧
    ring_ids (rings_tx s) = (List.range n).map (fun i => 2 * m + 1 + i) ∧
    ring_ids (rings_tx_cp s) = (List.range n).map (fun i => 2 * m + 1 + i) ∧
    ring_ids (rings_rx s ++ rings_ag s) = List.range' 1 (2 * m) ∧
    ring_ids (rings_tx s) = List.range' (2 * m + 1) n ∧
    (ring_ids (rings_rx s ++ rings_ag s ++ rings_tx s)).Nodup := by
  have ha1 : (bnxt_attach_pre K env s0).1 = 0 := by rw [ha]
  have ha2 : (bnxt_attach_pre K env s0).2 = s1 := by rw [ha]
  have hq1 : (alloc_queues K env tva tpa rva rpa ntxqs nrxqs n m s1).1 = 0 := by rw [hq]
  have hq2 : (alloc_queues K env tva tpa rva rpa ntxqs nrxqs n m s1).2 = s := by rw [hq]
  obtain ⟨i1, i2, i3, i4, i5, i6, i7⟩ :=
    alloc_queues_ids K env tva tpa rva rpa ntxqs nrxqs n m s1 hq1
  obtain ⟨hpost, _, hnrx⟩ := bnxt_attach_pre_post K env s0
  obtain ⟨hid, _⟩ := hpost ha1
  rw [ha2] at hid hnrx
  rw [hq2] at i1 i2 i3 i4 i5 i6 i7
  rw [hnrx, hm] at i1 i2
  have e1 : (List.range m).map (fun i => i + 1) = List.range' 1 m :=
    map_range_add 1 m _ (fun i => Nat.add_comm i 1)
  have e2 : (List.range m).map (fun i => m + i + 1) = List.range' (1 + m) m :=
    map_range_add (1 + m) m _ (fun i => by omega)
  have e3 : (List.range n).map (fun i => m * 2 + 1 + i) = List.range' (2 * m + 1) n :=
    map_range_add (2 * m + 1) n _ (fun i => by omega)
  have e4 : (List.range n).map (fun i => m * 2 + 1 + i) =
      (List.range n).map (fun i => 2 * m + 1 + i) :=
    List.map_congr_left (fun i _ => by omega)
  have hcnt : s.nrxqsets = m ∧ s.ntxqsets = n := by
    have := alloc_queues_counts K env tva tpa rva rpa ntxqs nrxqs n m s1 hq1
    rwa [hq2] at this
  have hra : ring_ids (rings_rx s ++ rings_ag s) = List.range' 1 (2 * m) := by
    simp only [ring_ids, List.map_append] at i4 i5 ⊢
    rw [i4, i5, e1, e2, List.range'_append_1]
    congr 1
    omega
  refine ⟨⟨hcnt.1, ?_, hcnt.2⟩, by rw [i6, hid], i4, i3, i5, i2.trans e4, i1.trans e4, hra,
    i2.trans e3, ?_⟩
  · rw [i7, hnrx, hm]
  · have : ring_ids (rings_rx s ++ rings_ag s ++ rings_tx s) = List.range' 1 (2 * m + n) := by
      have h2 := i2.trans e3
      simp only [ring_ids, List.map_append] at hra h2 ⊢
      rw [hra, h2]
      have : 2 * m + 1 = 1 + 2 * m := by omega
      rw [this, List.range'_append_1]
      congr 1
      omega
    rw [this]
    exact List.nodup_range' 1 (2 * m + n)


/-- Witness of C20 with one transmit and two receive queue-sets: the receive
rings have the ids 1 and 2, the aggregation rings 3 and 4, the transmit ring
5. -/
theorem ring_id_formula_witness :
    (softc0 2).scctx.isc_nrxqsets = 2 ∧
    bnxt_attach_pre defs0 env_ok (softc0 2) =
      (0, (bnxt_attach_pre defs0 env_ok (softc0 2)).2) ∧
    alloc_queues defs0 env_ok [] [] [] [] 2 3 1 2 (bnxt_attach_pre defs0 env_ok (softc0 2)).2 =
      (0, softc_alloc 1 2) ∧
    ring_ids (rings_rx (softc_alloc 1 2) ++ rings_ag (softc_alloc 1 2)) = [1, 2, 3, 4] ∧
    ring_ids (rings_tx (softc_alloc 1 2)) = [5] ∧
    (ring_ids (rings_rx (softc_alloc 1 2) ++ rings_ag (softc_alloc 1 2) ++
      rings_tx (softc_alloc 1 2))).Nodup := by
  have ha : bnxt_attach_pre defs0 env_ok (softc0 2) =
      (0, (bnxt_attach_pre defs0 env_ok (softc0 2)).2) :=
    Prod.ext (by decide) rfl
  have hq : alloc_queues defs0 env_ok [] [] [] [] 2 3 1 2
      (bnxt_attach_pre defs0 env_ok (softc0 2)).2 = (0, softc_alloc 1 2) :=
    Prod.ext (by decide) rfl
  have h := ring_id_formula defs0 env_ok [] [] [] [] 2 3 1 2 (softc0 2) _ _ rfl ha hq
  exact ⟨rfl, ha, hq, h.2.2.2.2.2.2.2.1, h.2.2.2.2.2.2.2.2.1, h.2.2.2.2.2.2.2.2.2⟩


/-! ## The raw consumer during bring-up -/

theorem karray.at_upd_pred {α : Type} [Inhabited α] (a : karray α) (i j : Nat) (f : α → α)
    (P : α → Prop) (h : P (a.at i) → P (f (a.at i))) (hj : P (a.at j)) :
    P ((a.upd i f).at j) := by
  by_cases hij : i = j
  · subst hij
    by_cases hl : i < a.elems.length
    · rw [karray.at_upd_self a i f hl]
      exact h hj
    · have : (a.upd i f).at i = a.at i := by
        simp [karray.at, karray.upd_getElem?, List.getElem?_eq_none (Nat.le_of_not_lt hl)]
      rw [this]
      exact hj
  · rw [karray.at_upd_ne a i j f hij]
    exact hj

theorem cons_kept_refl (s : bnxt_softc) : cons_kept s s :=
  ⟨id, fun _ => id, fun _ => id, rfl, rfl⟩

theorem cons_kept_trans {s t u : bnxt_softc} (h1 : cons_kept s t) (h2 : cons_kept t u) :
    cons_kept s u :=
  ⟨fun h => h2.1 (h1.1 h), fun j h => h2.2.1 j (h1.2.1 j h), fun j h => h2.2.2.1 j (h1.2.2.1 j h),
    h2.2.2.2.1.trans h1.2.2.2.1, h2.2.2.2.2.trans h1.2.2.2.2⟩

theorem cons_kept_seq_rc (f g : bnxt_softc → Nat × bnxt_softc) (s : bnxt_softc)
    (hf : cons_kept s (f s).2) (hg : ∀ t, cons_kept t (g t).2) :
    cons_kept s (seq_rc f g s).2 := by
  unfold seq_rc
  simp only []
  split_ifs
  · exact hf
  · exact cons_kept_trans hf (hg _)

theorem cons_kept_for_rc (body : Nat → bnxt_softc → Nat × bnxt_softc)
    (hb : ∀ i t, cons_kept t (body i t).2) (n : Nat) (s : bnxt_softc) :
    cons_kept s (for_rc_result body n s).2 := by
  induction n with
  | zero => exact cons_kept_refl s
  | succ n ih =>
    rw [for_rc_result_succ]
    exact cons_kept_seq_rc _ _ s ih (fun t => hb n t)

theorem cons_kept_rx_steps (K : bnxt_defs) (env : bnxt_env) (i : Nat) (s : bnxt_softc) :
    cons_kept s (rx_step_stat_ctx K env i s).2 ∧
    cons_kept s (rx_step_cp_ring K env i s).2 ∧
    cons_kept s (rx_step_rx_ring K env i s).2 ∧
    cons_kept s (rx_step_ag_ring K env i s).2 ∧
    cons_kept s (rx_step_ring_grp env i s).2 ∧
    cons_kept s (rx_step_vnic_alloc env i s).2 ∧
    cons_kept s (rx_step_vnic_ctx env i s).2 ∧
    cons_kept s (rx_step_vnic_cfg env i s).2 ∧
    cons_kept s (rx_step_filter env i s).2 := by
  refine ⟨?_, ?_, ?_, ?_, ?_, ?_, ?_, ?_, ?_⟩
  · unfold rx_step_stat_ctx
    simp only [bnxt_hwrm_stat_ctx_alloc_eq]
    refine ⟨id, fun j hj => ?_, fun _ => id, karray.upd_length _ _ _, rfl⟩
    refine karray.at_upd_pred _ _ _ _ (fun c : bnxt_cp_ring => c.raw_cons = -1) ?_ hj
    intro h
    split_ifs
    · exact h
    · exact h
  · unfold rx_step_cp_ring
    simp only [bnxt_hwrm_ring_alloc_eq]
    refine ⟨id, fun j hj => ?_, fun _ => id, ?_, rfl⟩
    · refine karray.at_upd_pred _ _ _ _ (fun c : bnxt_cp_ring => c.raw_cons = -1) (fun h => h) ?_
      exact karray.at_upd_pred _ _ _ _ (fun c : bnxt_cp_ring => c.raw_cons = -1) (fun _ => rfl) hj
    · simp only [karray.upd_length]
  · unfold rx_step_rx_ring
    simp only [bnxt_hwrm_ring_alloc_eq]
    exact cons_kept_refl s
  · unfold rx_step_ag_ring
    simp only [bnxt_hwrm_ring_alloc_eq]
    exact cons_kept_refl s
  · unfold rx_step_ring_grp
    simp only [bnxt_hwrm_ring_grp_alloc_eq]
    exact cons_kept_refl s
  · unfold rx_step_vnic_alloc
    simp only [bnxt_hwrm_vnic_alloc_eq]
    exact cons_kept_refl s
  · unfold rx_step_vnic_ctx
    simp only [bnxt_hwrm_vnic_ctx_alloc_eq]
    exact cons_kept_refl s
  · unfold rx_step_vnic_cfg
    simp only [bnxt_hwrm_vnic_cfg_eq]
    exact cons_kept_refl s
  · unfold rx_step_filter
    by_cases h : i = 0
    · simp only [h, if_true, bnxt_hwrm_set_filter_eq]
      exact cons_kept_refl s
    · simp only [h, if_false]
      exact cons_kept_refl s

theorem cons_kept_tx_steps (K : bnxt_defs) (env : bnxt_env) (i : Nat) (s : bnxt_softc) :
    cons_kept s (tx_step_stat_ctx K env i s).2 ∧
    cons_kept s (tx_step_cp_ring K env i s).2 ∧
    cons_kept s (tx_step_tx_ring env i s).2 := by
  refine ⟨?_, ?_, ?_⟩
  · unfold tx_step_stat_ctx
    simp only [bnxt_hwrm_stat_ctx_alloc_eq]
    refine ⟨id, fun _ => id, fun j hj => ?_, rfl, karray.upd_length _ _ _⟩
    refine karray.at_upd_pred _ _ _ _ (fun c : bnxt_cp_ring => c.raw_cons = -1) ?_ hj
    intro h
    split_ifs
    · exact h
    · exact h
  · unfold tx_step_cp_ring
    simp only [bnxt_hwrm_ring_alloc_eq]
    refine ⟨id, fun _ => id, fun j hj => ?_, rfl, ?_⟩
    · refine karray.at_upd_pred _ _ _ _ (fun c : bnxt_cp_ring => c.raw_cons = -1) (fun h => h) ?_
      exact karray.at_upd_pred _ _ _ _ (fun c : bnxt_cp_ring => c.raw_cons = -1) (fun _ => rfl) hj
    · simp only [karray.upd_length]
  · unfold tx_step_tx_ring
    simp only [bnxt_hwrm_ring_alloc_eq]
    exact cons_kept_refl s

theorem cons_kept_init_rx_body (K : bnxt_defs) (env : bnxt_env) (i : Nat) (s : bnxt_softc) :
    cons_kept s (init_rx_body K env i s).2 := by
  unfold init_rx_body
  refine cons_kept_seq_rc _ _ s (cons_kept_rx_steps K env i s).1 (fun t => ?_)
  refine cons_kept_seq_rc _ _ t (cons_kept_rx_steps K env i t).2.1 (fun t => ?_)
  refine cons_kept_seq_rc _ _ t (cons_kept_rx_steps K env i t).2.2.1 (fun t => ?_)
  refine cons_kept_seq_rc _ _ t (cons_kept_rx_steps K env i t).2.2.2.1 (fun t => ?_)
  refine cons_kept_seq_rc _ _ t (cons_kept_rx_steps K env i t).2.2.2.2.1 (fun t => ?_)
  refine cons_kept_seq_rc _ _ t (cons_kept_rx_steps K env i t).2.2.2.2.2.1 (fun t => ?_)
  refine cons_kept_seq_rc _ _ t (cons_kept_rx_steps K env i t).2.2.2.2.2.2.1 (fun t => ?_)
  refine cons_kept_seq_rc _ _ t (cons_kept_rx_steps K env i t).2.2.2.2.2.2.2.1 (fun t => ?_)
  exact (cons_kept_rx_steps K env i t).2.2.2.2.2.2.2.2

theorem cons_kept_init_tx_body (K : bnxt_defs) (env : bnxt_env) (i : Nat) (s : bnxt_softc) :
    cons_kept s (init_tx_body K env i s).2 := by
  unfold init_tx_body
  refine cons_kept_seq_rc _ _ s (cons_kept_tx_steps K env i s).1 (fun t => ?_)
  refine cons_kept_seq_rc _ _ t (cons_kept_tx_steps K env i t).2.1 (fun t => ?_)
  exact (cons_kept_tx_steps K env i t).2.2

theorem seq_rc_rewinds (f g : bnxt_softc → Nat × bnxt_softc) (s : bnxt_softc)
    (P : bnxt_softc → Prop) (hP : ∀ t u, cons_kept t u → P t → P u)
    (hf : P (f s).2) (hg : ∀ t, cons_kept t (g t).2) : P (seq_rc f g s).2 := by
  unfold seq_rc
  simp only []
  split_ifs
  · exact hf
  · exact hP _ _ (hg _) hf

/-- Once the statistics context of receive queue-set `i` is allocated, the raw
consumer of its completion ring is rewound, whatever the later commands
return. -/
theorem init_rx_body_rewinds (K : bnxt_defs) (env : bnxt_env) (i : Nat) (s : bnxt_softc)
    (hi : i < s.rx_cp_rings.elems.length) (h0 : env.hwrm_rc s.hwrm_log.length = 0) :
    ((init_rx_body K env i s).2.rx_cp_rings.at i).raw_cons = -1 := by
  have e1 : (rx_step_stat_ctx K env i s).1 = 0 := by
    unfold rx_step_stat_ctx
    simp only [bnxt_hwrm_stat_ctx_alloc_eq]
    exact h0
  have l1 : i < (rx_step_stat_ctx K env i s).2.rx_cp_rings.elems.length := by
    rw [(cons_kept_rx_steps K env i s).1.2.2.2.1]
    exact hi
  have e2 : ∀ s1 : bnxt_softc, i < s1.rx_cp_rings.elems.length →
      ((rx_step_cp_ring K env i s1).2.rx_cp_rings.at i).raw_cons = -1 := by
    intro s1 l1
    unfold rx_step_cp_ring
    simp only [bnxt_hwrm_ring_alloc_eq]
    rw [karray.at_upd_self _ _ _ (by simpa [karray.upd_length] using l1),
      karray.at_upd_self _ _ _ l1]
  unfold init_rx_body
  rw [seq_rc]
  simp only [e1, ne_eq, not_true_eq_false, if_false]
  refine seq_rc_rewinds _ _ _ (fun t => (t.rx_cp_rings.at i).raw_cons = -1)
    (fun t u h => h.2.1 i) (e2 _ l1) (fun t => ?_)
  refine cons_kept_seq_rc _ _ t (cons_kept_rx_steps K env i t).2.2.1 (fun t => ?_)
  refine cons_kept_seq_rc _ _ t (cons_kept_rx_steps K env i t).2.2.2.1 (fun t => ?_)
  refine cons_kept_seq_rc _ _ t (cons_kept_rx_steps K env i t).2.2.2.2.1 (fun t => ?_)
  refine cons_kept_seq_rc _ _ t (cons_kept_rx_steps K env i t).2.2.2.2.2.1 (fun t => ?_)
  refine cons_kept_seq_rc _ _ t (cons_kept_rx_steps K env i t).2.2.2.2.2.2.1 (fun t => ?_)
  refine cons_kept_seq_rc _ _ t (cons_kept_rx_steps K env i t).2.2.2.2.2.2.2.1 (fun t => ?_)
  exact (cons_kept_rx_steps K env i t).2.2.2.2.2.2.2.2

/-- Once the statistics context of transmit queue-set `i` is allocated, the
raw consumer of its completion ring is rewound, whatever the later commands
return. -/
theorem init_tx_body_rewinds (K : bnxt_defs) (env : bnxt_env) (i : Nat) (s : bnxt_softc)
    (hi : i < s.tx_cp_rings.elems.length) (h0 : env.hwrm_rc s.hwrm_log.length = 0) :
    ((init_tx_body K env i s).2.tx_cp_rings.at i).raw_cons = -1 := by
  have e1 : (tx_step_stat_ctx K env i s).1 = 0 := by
    unfold tx_step_stat_ctx
    simp only [bnxt_hwrm_stat_ctx_alloc_eq]
    exact h0
  have l1 : i < (tx_step_stat_ctx K env i s).2.tx_cp_rings.elems.length := by
    rw [(cons_kept_tx_steps K env i s).1.2.2.2.2]
    exact hi
  have e2 : ∀ s1 : bnxt_softc, i < s1.tx_cp_rings.elems.length →
      ((tx_step_cp_ring K env i s1).2.tx_cp_rings.at i).raw_cons = -1 := by
    intro s1 l1
    unfold tx_step_cp_ring
    simp only [bnxt_hwrm_ring_alloc_eq]
    rw [karray.at_upd_self _ _ _ (by simpa [karray.upd_length] using l1),
      karray.at_upd_self _ _ _ l1]
  unfold init_tx_body
  rw [seq_rc]
  simp only [e1, ne_eq, not_true_eq_false, if_false]
  exact seq_rc_rewinds _ _ _ (fun t => (t.tx_cp_rings.at i).raw_cons = -1)
    (fun t u h => h.2.2.1 i) (e2 _ l1) (fun t => (cons_kept_tx_steps K env i t).2.2)

theorem for_rc_result_kept (body : Nat → bnxt_softc → Nat × bnxt_softc)
    (hb : ∀ i t, cons_kept t (body i t).2) (m n : Nat) (h : m ≤ n) (s : bnxt_softc) :
    cons_kept (for_rc_result body m s).2 (for_rc_result body n s).2 := by
  induction n with
  | zero =>
    have : m = 0 := by omega
    subst this
    exact cons_kept_refl _
  | succ n ih =>
    by_cases hm : m = n + 1
    · subst hm
      exact cons_kept_refl _
    · have h1 := ih (by omega)
      rw [for_rc_result_succ]
      unfold seq_rc
      simp only []
      split_ifs
      · exact h1
      · exact cons_kept_trans h1 (hb n _)

/-- In a loop of queue-set bring-ups, the property `P` that the body of round
`j` establishes once its first command succeeded holds after the loop, if all
commands of the rounds before `j` and the first command of round `j`
succeed. -/
theorem for_rc_rewinds (env : bnxt_env) (k : Nat → Nat)
    (body : Nat → bnxt_softc → Nat × bnxt_softc)
    (hrun : ∀ i t, cmd_run env (k i) t (body i t))
    (hkept : ∀ i t, cons_kept t (body i t).2)
    (j n : Nat) (hj : j < n) (s : bnxt_softc) (P : bnxt_softc → Prop)
    (hP : ∀ t u, cons_kept t u → P t → P u)
    (hbody : ∀ t, cons_kept s t → env.hwrm_rc t.hwrm_log.length = 0 → P (body j t).2)
    (hok : ∀ q, q < sum_upto k j + 1 → env.hwrm_rc (s.hwrm_log.length + q) = 0) :
    P (for_rc_result body n s).2 := by
  obtain ⟨_, _, _, okj, badj⟩ := cmd_run_for_rc env k body hrun j s
  have hr : (for_rc_result body j s).1 = 0 := by
    by_contra hne
    obtain ⟨q, hq, _, rcq, _⟩ := badj hne
    exact hne (rcq.symm.trans (hok q (by omega)))
  obtain ⟨lenj, _⟩ := okj hr
  have hstep : (for_rc_result body (j + 1) s).2 = (body j (for_rc_result body j s).2).2 := by
    rw [for_rc_result_succ]
    unfold seq_rc
    simp only [hr, ne_eq, not_true_eq_false, if_false]
  have hPj : P (for_rc_result body (j + 1) s).2 := by
    rw [hstep]
    refine hbody _ (cons_kept_for_rc body hkept j s) ?_
    rw [lenj]
    exact hok _ (by omega)
  exact hP _ _ (for_rc_result_kept body hkept (j + 1) n (by omega) s) hPj

theorem sum_upto_le (k : Nat → Nat) (m n : Nat) (h : m ≤ n) : sum_upto k m ≤ sum_upto k n := by
  induction n with
  | zero =>
    have : m = 0 := by omega
    subst this
    exact Nat.le_refl _
  | succ n ih =>
    by_cases hm : m = n + 1
    · subst hm
      exact Nat.le_refl _
    · have := ih (by omega)
      rw [sum_upto]
      omega

theorem init_def_step_frame (K : bnxt_defs) (env : bnxt_env) (c : bnxt_softc) :
    (init_def_step K env c).1 = env.hwrm_rc c.hwrm_log.length ∧
    (init_def_step K env c).2.def_cp_ring.raw_cons = -1 ∧
    (init_def_step K env c).2.rx_cp_rings = c.rx_cp_rings ∧
    (init_def_step K env c).2.tx_cp_rings = c.tx_cp_rings ∧
    (init_def_step K env c).2.nrxqsets = c.nrxqsets ∧
    (init_def_step K env c).2.ntxqsets = c.ntxqsets ∧
    (init_def_step K env c).2.hwrm_log.length = c.hwrm_log.length + 1 := by
  unfold init_def_step
  simp only [bnxt_hwrm_ring_alloc_eq, List.length_append, List.length_singleton, and_self]

theorem cons_kept_loops (K : bnxt_defs) (env : bnxt_env) (t : bnxt_softc) :
    cons_kept t (for_rc_result (init_rx_body K env) t.nrxqsets t).2 ∧
    cons_kept t (for_rc_result (init_tx_body K env) t.ntxqsets t).2 :=
  ⟨cons_kept_for_rc _ (cons_kept_init_rx_body K env) _ t,
    cons_kept_for_rc _ (cons_kept_init_tx_body K env) _ t⟩

/-- The raw consumers after the allocation commands of `bnxt_init`, started in
`c`: a completion ring is rewound as soon as all commands before its own
allocation command succeeded. -/
theorem init_alloc_rewinds (K : bnxt_defs) (env : bnxt_env) (c : bnxt_softc) :
    (init_alloc K env c).2.def_cp_ring.raw_cons = -1 ∧
    (∀ i, i < c.nrxqsets → i < c.rx_cp_rings.elems.length →
      (∀ q, q < 1 + sum_upto rx_cmd_count i + 1 → env.hwrm_rc (c.hwrm_log.length + q) = 0) →
      ((init_alloc K env c).2.rx_cp_rings.at i).raw_cons = -1) ∧
    (∀ i, i < c.ntxqsets → i < c.tx_cp_rings.elems.length →
      (∀ q, q < 1 + sum_upto rx_cmd_count c.nrxqsets + 3 * i + 1 →
        env.hwrm_rc (c.hwrm_log.length + q) = 0) →
      ((init_alloc K env c).2.tx_cp_rings.at i).raw_cons = -1) := by
  obtain ⟨d1, d2, d3, d4, d5, d6, d7⟩ := init_def_step_frame K env c
  have hrest : ∀ t, cons_kept t
      (seq_rc (fun s => for_rc_result (init_rx_body K env) s.nrxqsets s)
        (fun s => for_rc_result (init_tx_body K env) s.ntxqsets s) t).2 := fun t =>
    cons_kept_seq_rc _ _ t (cons_kept_loops K env t).1 (fun u => (cons_kept_loops K env u).2)
  refine ⟨?_, ?_, ?_⟩
  · unfold init_alloc
    exact seq_rc_rewinds _ _ c (fun t => t.def_cp_ring.raw_cons = -1) (fun t u h => h.1) d2
      hrest
  · intro i hi hl hok
    have e1 : (init_def_step K env c).1 = 0 := d1.trans (by simpa using hok 0 (by omega))
    unfold init_alloc
    rw [seq_rc]
    simp only [e1, ne_eq, not_true_eq_false, if_false]
    refine seq_rc_rewinds _ _ _ (fun t => (t.rx_cp_rings.at i).raw_cons = -1)
      (fun t u h => h.2.1 i) ?_ (fun u => (cons_kept_loops K env u).2)
    refine for_rc_rewinds env rx_cmd_count _ (cmd_run_init_rx_body K env)
      (cons_kept_init_rx_body K env) i _ (by rw [d5]; exact hi) _
      (fun t => (t.rx_cp_rings.at i).raw_cons = -1) (fun t u h => h.2.1 i) ?_ ?_
    · intro t ht h0
      refine init_rx_body_rewinds K env i t ?_ h0
      rw [ht.2.2.2.1, d3]
      exact hl
    · intro q hq
      rw [d7, Nat.add_assoc]
      exact hok (1 + q) (by omega)
  · intro i hi hl hok
    have e1 : (init_def_step K env c).1 = 0 := d1.trans (by simpa using hok 0 (by omega))
    unfold init_alloc
    rw [seq_rc]
    simp only [e1, ne_eq, not_true_eq_false, if_false]
    generalize init_def_step K env c = r1 at d3 d4 d5 d6 d7
    obtain ⟨_, _, rt, okr, badr⟩ :=
      cmd_run_for_rc env rx_cmd_count _ (cmd_run_init_rx_body K env) r1.2.nrxqsets r1.2
    have hr : (for_rc_result (init_rx_body K env) r1.2.nrxqsets r1.2).1 = 0 := by
      by_contra hne
      obtain ⟨q, hq, _, rcq, _⟩ := badr hne
      apply hne
      rw [← rcq, d7, Nat.add_assoc]
      rw [d5] at hq
      exact hok (1 + q) (by omega)
    obtain ⟨lenr, _⟩ := okr hr
    have kr := (cons_kept_loops K env r1.2).1
    rw [seq_rc]
    simp only [hr, ne_eq, not_true_eq_false, if_false]
    generalize for_rc_result (init_rx_body K env) r1.2.nrxqsets r1.2 = r2 at rt lenr kr
    refine for_rc_rewinds env (fun _ => 3) _ (cmd_run_init_tx_body K env)
      (cons_kept_init_tx_body K env) i _ (by rw [rt, d6]; exact hi) _
      (fun t => (t.tx_cp_rings.at i).raw_cons = -1) (fun t u h => h.2.2.1 i) ?_ ?_
    · intro t ht h0
      refine init_tx_body_rewinds K env i t ?_ h0
      rw [ht.2.2.2.2, kr.2.2.2.2, d4]
      exact hl
    · intro q hq
      rw [sum_upto_const] at hq
      rw [lenr, d7, d5]
      have := hok (1 + sum_upto rx_cmd_count c.nrxqsets + q) (by omega)
      rw [← this]
      congr 1
      omega

theorem karray.at_upto_pred {α : Type} [Inhabited α] (a : karray α) (n j : Nat)
    (f : Nat → α → α) (P : α → Prop) (h : ∀ i x, P x → P (f i x)) (hj : P (a.at j)) :
    P ((a.upto n f).at j) := by
  by_cases hl : j < a.elems.length
  · rw [karray.at_upto a n j f hl]
    split_ifs
    · exact h _ _ hj
    · exact hj
  · have : (a.upto n f).at j = a.at j := by
      simp [karray.at, karray.upto_getElem?, List.getElem?_eq_none (Nat.le_of_not_lt hl)]
    rw [this]
    exact hj

theorem cons_kept_clear_ids (K : bnxt_defs) (t : bnxt_softc) :
    cons_kept t (bnxt_clear_ids K t) := by
  rw [bnxt_clear_ids_eq]
  refine ⟨id, fun j hj => ?_, fun j hj => ?_, karray.upto_length _ _ _, karray.upto_length _ _ _⟩
  · exact karray.at_upto_pred _ _ _ _ (fun c : bnxt_cp_ring => c.raw_cons = -1)
      (fun _ _ hx => hx) hj
  · exact karray.at_upto_pred _ _ _ _ (fun c : bnxt_cp_ring => c.raw_cons = -1)
      (fun _ _ hx => hx) hj

theorem cons_kept_init_fail (K : bnxt_defs) (env : bnxt_env) (t : bnxt_softc) :
    cons_kept t (init_fail K env t) := by
  unfold init_fail
  simp only [bnxt_hwrm_func_reset_eq]
  exact cons_kept_clear_ids K { t with hwrm_log := t.hwrm_log ++ [hwrm_cmd.func_reset] }

/-! ## The order of stores and commands in `bnxt_init` -/

theorem init_def_step_split (K : bnxt_defs) (env : bnxt_env) (s : bnxt_softc) :
    init_def_step K env s = def_cp_ring_alloc K env (def_cons_rewind s) := rfl

theorem rx_step_cp_ring_split (K : bnxt_defs) (env : bnxt_env) (i : Nat) (s : bnxt_softc) :
    rx_step_cp_ring K env i s = rx_cp_ring_alloc K env i (rx_cons_rewind i s) := rfl

theorem tx_step_cp_ring_split (K : bnxt_defs) (env : bnxt_env) (i : Nat) (s : bnxt_softc) :
    tx_step_cp_ring K env i s = tx_cp_ring_alloc K env i (tx_cons_rewind i s) := rfl

theorem seq_rc_erase (F G : bnxt_softc × List init_event → Nat × bnxt_softc × List init_event)
    (f g : bnxt_softc → Nat × bnxt_softc)
    (hF : ∀ t, ((F t).1, (F t).2.1) = f t.1) (hG : ∀ t, ((G t).1, (G t).2.1) = g t.1)
    (t : bnxt_softc × List init_event) :
    ((seq_rc F G t).1, (seq_rc F G t).2.1) = seq_rc f g t.1 := by
  unfold seq_rc
  simp only []
  have h1 : (F t).1 = (f t.1).1 := congrArg Prod.fst (hF t)
  have h2 : (F t).2.1 = (f t.1).2 := congrArg Prod.snd (hF t)
  by_cases h : (f t.1).1 = 0
  · simp only [h1, h, ne_eq, not_true_eq_false, if_false]
    rw [hG, h2]
  · simp only [h1, h, ne_eq, not_false_eq_true, if_true]
    rw [h2]

theorem for_rc_erase (F : Nat → bnxt_softc × List init_event → Nat × bnxt_softc × List init_event)
    (f : Nat → bnxt_softc → Nat × bnxt_softc)
    (hF : ∀ i t, ((F i t).1, (F i t).2.1) = f i t.1)
    (n : Nat) (t : bnxt_softc × List init_event) :
    (for_rc F n t).1 = (for_rc f n t.1).1 ∧ (for_rc F n t).2.1 = (for_rc f n t.1).2.1 ∧
    (for_rc F n t).2.2.1 = (for_rc f n t.1).2.2 := by
  induction n with
  | zero => exact ⟨rfl, rfl, rfl⟩
  | succ n ih =>
    obtain ⟨i1, i2, i3⟩ := ih
    have h1 : (F n (for_rc F n t).2.2).1 = (f n (for_rc f n t.1).2.2).1 := by
      rw [← i3]
      exact congrArg Prod.fst (hF n _)
    have h2 : (F n (for_rc F n t).2.2).2.1 = (f n (for_rc f n t.1).2.2).2 := by
      rw [← i3]
      exact congrArg Prod.snd (hF n _)
    rw [for_rc, for_rc]
    simp only []
    by_cases h : (for_rc f n t.1).1 = 0
    · by_cases hb : (f n (for_rc f n t.1).2.2).1 = 0
      · simp only [i1, h, h1, hb, if_true]
        exact ⟨trivial, trivial, h2⟩
      · simp only [i1, h, h1, hb, if_true, if_false]
        exact ⟨trivial, trivial, h2⟩
    · simp only [i1, h, if_false]
      exact ⟨trivial, i2, i3⟩

theorem init_rx_body_erase (K : bnxt_defs) (env : bnxt_env) (i : Nat)
    (t : bnxt_softc × List init_event) :
    ((init_rx_body_traced K env i t).1, (init_rx_body_traced K env i t).2.1) =
      init_rx_body K env i t.1 := by
  unfold init_rx_body_traced init_rx_body
  refine seq_rc_erase _ _ _ _ (fun _ => rfl) (fun t => ?_) t
  refine seq_rc_erase _ _ _ _ (fun _ => rfl) (fun t => ?_) t
  refine seq_rc_erase _ _ _ _ (fun _ => rfl) (fun t => ?_) t
  refine seq_rc_erase _ _ _ _ (fun _ => rfl) (fun t => ?_) t
  refine seq_rc_erase _ _ _ _ (fun _ => rfl) (fun t => ?_) t
  refine seq_rc_erase _ _ _ _ (fun _ => rfl) (fun t => ?_) t
  refine seq_rc_erase _ _ _ _ (fun _ => rfl) (fun t => ?_) t
  exact seq_rc_erase _ _ _ _ (fun _ => rfl) (fun _ => rfl) t

theorem init_tx_body_erase (K : bnxt_defs) (env : bnxt_env) (i : Nat)
    (t : bnxt_softc × List init_event) :
    ((init_tx_body_traced K env i t).1, (init_tx_body_traced K env i t).2.1) =
      init_tx_body K env i t.1 := by
  unfold init_tx_body_traced init_tx_body
  refine seq_rc_erase _ _ _ _ (fun _ => rfl) (fun t => ?_) t
  exact seq_rc_erase _ _ _ _ (fun _ => rfl) (fun _ => rfl) t

theorem for_rc_result_erase
    (F : Nat → bnxt_softc × List init_event → Nat × bnxt_softc × List init_event)
    (f : Nat → bnxt_softc → Nat × bnxt_softc)
    (hF : ∀ i t, ((F i t).1, (F i t).2.1) = f i t.1)
    (n : Nat) (t : bnxt_softc × List init_event) :
    ((for_rc_result F n t).1, (for_rc_result F n t).2.1) = for_rc_result f n t.1 := by
  obtain ⟨h1, _, h3⟩ := for_rc_erase F f hF n t
  unfold for_rc_result
  rw [h1, h3]

theorem init_alloc_erase (K : bnxt_defs) (env : bnxt_env) (t : bnxt_softc × List init_event) :
    ((init_alloc_traced K env t).1, (init_alloc_traced K env t).2.1) = init_alloc K env t.1 := by
  unfold init_alloc_traced init_alloc
  refine seq_rc_erase _ _ _ _ (fun _ => rfl) (fun t => ?_) t
  refine seq_rc_erase _ _ _ _ (fun t => ?_) (fun t => ?_) t
  · exact for_rc_result_erase _ _ (init_rx_body_erase K env) _ t
  · exact for_rc_result_erase _ _ (init_tx_body_erase K env) _ t

/-- The function `bnxt_init_traced` as a function reset, `bnxt_clear_ids`, the
allocation commands and the label `fail`. -/
theorem bnxt_init_traced_eq (K : bnxt_defs) (env : bnxt_env) (s : bnxt_softc) :
    bnxt_init_traced K env s =
      if env.hwrm_rc s.hwrm_log.length ≠ 0
      then ({ s with hwrm_log := s.hwrm_log ++ [hwrm_cmd.func_reset] },
        [init_event.cmd hwrm_cmd.func_reset])
      else if (init_alloc_traced K env (bnxt_clear_ids K
          { s with hwrm_log := s.hwrm_log ++ [hwrm_cmd.func_reset] },
          [init_event.cmd hwrm_cmd.func_reset])).1 ≠ 0
        then init_fail_traced K env (init_alloc_traced K env (bnxt_clear_ids K
          { s with hwrm_log := s.hwrm_log ++ [hwrm_cmd.func_reset] },
          [init_event.cmd hwrm_cmd.func_reset])).2
        else
          ({ (init_alloc_traced K env (bnxt_clear_ids K
              { s with hwrm_log := s.hwrm_log ++ [hwrm_cmd.func_reset] },
              [init_event.cmd hwrm_cmd.func_reset])).2.1 with
            if_drv_flags := (init_alloc_traced K env (bnxt_clear_ids K
              { s with hwrm_log := s.hwrm_log ++ [hwrm_cmd.func_reset] },
              [init_event.cmd hwrm_cmd.func_reset])).2.1.if_drv_flags ||| IFF_DRV_RUNNING },
           (init_alloc_traced K env (bnxt_clear_ids K
              { s with hwrm_log := s.hwrm_log ++ [hwrm_cmd.func_reset] },
              [init_event.cmd hwrm_cmd.func_reset])).2.2) := by
  unfold bnxt_init_traced
  simp only [traced_step, bnxt_hwrm_func_reset_eq, List.drop_left, List.map_cons, List.map_nil,
    List.nil_append]
  by_cases h0 : env.hwrm_rc s.hwrm_log.length = 0
  · simp only [h0, ne_eq, not_true_eq_false, if_false]
    generalize (bnxt_clear_ids K { s with hwrm_log := s.hwrm_log ++ [hwrm_cmd.func_reset] },
      [init_event.cmd hwrm_cmd.func_reset]) = c
    unfold init_alloc_traced seq_rc for_rc_result
    simp only []
    by_cases h1 : (init_def_step_traced K env c).1 = 0
    · simp only [h1, ne_eq, not_true_eq_false, if_false]
      by_cases h2 : (for_rc (init_rx_body_traced K env) (init_def_step_traced K env c).2.1.nrxqsets
          (init_def_step_traced K env c).2).1 = 0
      · simp only [h2, ne_eq, not_true_eq_false, if_false]
      · simp only [h2, ne_eq, not_false_eq_true, if_true]
    · simp only [h1, ne_eq, not_false_eq_true, if_true]
  · simp only [h0, ne_eq, not_false_eq_true, if_true]

/-- The device context that `bnxt_init_traced` returns is the one that
`bnxt_init` returns. -/
theorem bnxt_init_traced_erase (K : bnxt_defs) (env : bnxt_env) (s : bnxt_softc) :
    (bnxt_init_traced K env s).1 = bnxt_init K env s := by
  rw [bnxt_init_traced_eq, bnxt_init_eq]
  have e := init_alloc_erase K env (bnxt_clear_ids K
    { s with hwrm_log := s.hwrm_log ++ [hwrm_cmd.func_reset] },
    [init_event.cmd hwrm_cmd.func_reset])
  have e1 := congrArg Prod.fst e
  have e2 := congrArg Prod.snd e
  simp only [] at e1 e2
  by_cases h0 : env.hwrm_rc s.hwrm_log.length = 0
  · simp only [h0, ne_eq, not_true_eq_false, if_false]
    by_cases h1 : (init_alloc K env (bnxt_clear_ids K
        { s with hwrm_log := s.hwrm_log ++ [hwrm_cmd.func_reset] })).1 = 0
    · simp only [e1, h1, ne_eq, not_true_eq_false, if_false, e2]
    · simp only [e1, h1, ne_eq, not_false_eq_true, if_true]
      unfold init_fail_traced init_fail
      simp only [traced_step, e2]
  · simp only [h0, ne_eq, not_false_eq_true, if_true]

theorem init_cmds_append (a b : List init_event) :
    init_cmds (a ++ b) = init_cmds a ++ init_cmds b := by
  induction a with
  | nil => rfl
  | cons e a ih =>
    cases e <;> simp [init_cmds, ih]

theorem init_cmds_map_cmd (l : List hwrm_cmd) : init_cmds (l.map init_event.cmd) = l := by
  induction l with
  | nil => rfl
  | cons c l ih => simp [init_cmds, ih]

theorem stores_first_nil : stores_first [] := by
  intro k ring c st irq h
  simp at h

theorem stores_first_append (a b : List init_event) (ha : stores_first a)
    (hb : stores_first b) : stores_first (a ++ b) := by
  intro k ring c st irq h
  by_cases hk : k < a.length
  · rw [List.getElem?_append_left hk] at h
    obtain ⟨j, hj, hs⟩ := ha k ring c st irq h
    refine ⟨j, hj, ?_⟩
    rw [List.getElem?_append_left (by omega)]
    exact hs
  · rw [List.getElem?_append_right (Nat.le_of_not_lt hk)] at h
    obtain ⟨j, hj, hs⟩ := hb _ ring c st irq h
    refine ⟨a.length + j, by omega, ?_⟩
    rw [List.getElem?_append_right (by omega)]
    have : a.length + j - a.length = j := by omega
    rw [this]
    exact hs

theorem stores_first_cmds (l : List hwrm_cmd)
    (hl : ∀ ring c st irq, hwrm_cmd.ring_alloc ring_type.CMPL ring c st irq ∉ l) :
    stores_first (l.map init_event.cmd) := by
  intro k ring c st irq h
  exfalso
  rw [List.getElem?_map] at h
  cases hx : l[k]? with
  | none => simp [hx] at h
  | some x =>
    simp only [hx, Option.map_some', Option.some.injEq, init_event.cmd.injEq] at h
    subst h
    exact hl ring c st irq (List.getElem?_mem hx)

theorem stores_first_store_cmd (ring : bnxt_ring) (c st : Nat) (irq : Bool) :
    stores_first [init_event.cons_store ring (-1),
      init_event.cmd (hwrm_cmd.ring_alloc ring_type.CMPL ring c st irq)] := by
  intro k ring2 c2 st2 irq2 h
  match k with
  | 0 => simp at h
  | 1 =>
    simp only [List.getElem?_cons_succ, List.getElem?_cons_zero, Option.some.injEq,
      init_event.cmd.injEq, hwrm_cmd.ring_alloc.injEq, true_and] at h
    obtain ⟨hr, _⟩ := h
    subst hr
    exact ⟨0, rfl, rfl⟩
  | k + 2 => simp at h

theorem trace_ok_refl (t : bnxt_softc × List init_event) : trace_ok t t :=
  ⟨[], by simp, stores_first_nil, by simp [init_cmds]⟩

theorem trace_ok_trans {t u v : bnxt_softc × List init_event} (h1 : trace_ok t u)
    (h2 : trace_ok u v) : trace_ok t v := by
  obtain ⟨w1, a1, b1, c1⟩ := h1
  obtain ⟨w2, a2, b2, c2⟩ := h2
  refine ⟨w1 ++ w2, ?_, stores_first_append _ _ b1 b2, ?_⟩
  · rw [a2, a1, List.append_assoc]
  · rw [c2, c1, init_cmds_append, List.append_assoc]

theorem trace_ok_seq_rc
    (F G : bnxt_softc × List init_event → Nat × bnxt_softc × List init_event)
    (t : bnxt_softc × List init_event)
    (hF : trace_ok t (F t).2) (hG : ∀ u, trace_ok u (G u).2) :
    trace_ok t (seq_rc F G t).2 := by
  unfold seq_rc
  simp only []
  split_ifs
  · exact hF
  · exact trace_ok_trans hF (hG _)

theorem trace_ok_for_rc
    (F : Nat → bnxt_softc × List init_event → Nat × bnxt_softc × List init_event)
    (hF : ∀ i u, trace_ok u (F i u).2) (n : Nat) (t : bnxt_softc × List init_event) :
    trace_ok t (for_rc_result F n t).2 := by
  induction n with
  | zero => exact trace_ok_refl t
  | succ n ih =>
    rw [for_rc_result_succ]
    exact trace_ok_seq_rc _ _ t ih (fun u => hF n u)

/-- A part of `bnxt_init` that appends the commands `l` to the log, none of
them the allocation of a completion ring. -/
theorem trace_ok_traced_step (f : bnxt_softc → Nat × bnxt_softc)
    (t : bnxt_softc × List init_event) (l : List hwrm_cmd)
    (hl : (f t.1).2.hwrm_log = t.1.hwrm_log ++ l)
    (hn : ∀ ring c st irq, hwrm_cmd.ring_alloc ring_type.CMPL ring c st irq ∉ l) :
    trace_ok t (traced_step f t).2 := by
  refine ⟨l.map init_event.cmd, ?_, stores_first_cmds l hn, ?_⟩
  · unfold traced_step
    simp only [hl, List.drop_left]
  · rw [init_cmds_map_cmd]
    exact hl

theorem trace_ok_rx_steps (K : bnxt_defs) (env : bnxt_env) (i : Nat)
    (t : bnxt_softc × List init_event) :
    trace_ok t (traced_step (rx_step_stat_ctx K env i) t).2 ∧
    trace_ok t (traced_step (rx_step_rx_ring K env i) t).2 ∧
    trace_ok t (traced_step (rx_step_ag_ring K env i) t).2 ∧
    trace_ok t (traced_step (rx_step_ring_grp env i) t).2 ∧
    trace_ok t (traced_step (rx_step_vnic_alloc env i) t).2 ∧
    trace_ok t (traced_step (rx_step_vnic_ctx env i) t).2 ∧
    trace_ok t (traced_step (rx_step_vnic_cfg env i) t).2 ∧
    trace_ok t (traced_step (rx_step_filter env i) t).2 := by
  refine ⟨?_, ?_, ?_, ?_, ?_, ?_, ?_, ?_⟩
  · unfold rx_step_stat_ctx
    simp only [bnxt_hwrm_stat_ctx_alloc_eq]
    exact trace_ok_traced_step _ t [_] rfl (by simp)
  · unfold rx_step_rx_ring
    simp only [bnxt_hwrm_ring_alloc_eq]
    exact trace_ok_traced_step _ t [_] rfl (by simp)
  · unfold rx_step_ag_ring
    simp only [bnxt_hwrm_ring_alloc_eq]
    exact trace_ok_traced_step _ t [_] rfl (by simp)
  · unfold rx_step_ring_grp
    simp only [bnxt_hwrm_ring_grp_alloc_eq]
    exact trace_ok_traced_step _ t [_] rfl (by simp)
  · unfold rx_step_vnic_alloc
    simp only [bnxt_hwrm_vnic_alloc_eq]
    exact trace_ok_traced_step _ t [_] rfl (by simp)
  · unfold rx_step_vnic_ctx
    simp only [bnxt_hwrm_vnic_ctx_alloc_eq]
    exact trace_ok_traced_step _ t [_] rfl (by simp)
  · unfold rx_step_vnic_cfg
    simp only [bnxt_hwrm_vnic_cfg_eq]
    exact trace_ok_traced_step _ t [_] rfl (by simp)
  · unfold rx_step_filter
    by_cases h : i = 0
    · simp only [h, if_true, bnxt_hwrm_set_filter_eq]
      exact trace_ok_traced_step _ t [_] rfl (by simp)
    · simp only [h, if_false]
      exact trace_ok_traced_step _ t [] (List.append_nil _).symm (by simp)

theorem trace_ok_tx_steps (K : bnxt_defs) (env : bnxt_env) (i : Nat)
    (t : bnxt_softc × List init_event) :
    trace_ok t (traced_step (tx_step_stat_ctx K env i) t).2 ∧
    trace_ok t (traced_step (tx_step_tx_ring env i) t).2 := by
  refine ⟨?_, ?_⟩
  · unfold tx_step_stat_ctx
    simp only [bnxt_hwrm_stat_ctx_alloc_eq]
    exact trace_ok_traced_step _ t [_] rfl (by simp)
  · unfold tx_step_tx_ring
    simp only [bnxt_hwrm_ring_alloc_eq]
    exact trace_ok_traced_step _ t [_] rfl (by simp)

theorem trace_ok_func_reset (env : bnxt_env) (t : bnxt_softc × List init_event) :
    trace_ok t (traced_step (bnxt_hwrm_func_reset env) t).2 := by
  exact trace_ok_traced_step _ t [hwrm_cmd.func_reset] rfl (by simp)

theorem trace_ok_store_alloc (f : bnxt_softc → Nat × bnxt_softc) (g : bnxt_softc → bnxt_softc)
    (t : bnxt_softc × List init_event) (ring : bnxt_ring) (c st : Nat) (irq : Bool)
    (hl : (f (g t.1)).2.hwrm_log =
      t.1.hwrm_log ++ [hwrm_cmd.ring_alloc ring_type.CMPL ring c st irq])
    (hg : (g t.1).hwrm_log = t.1.hwrm_log) :
    trace_ok t (traced_step f (g t.1, t.2 ++ [init_event.cons_store ring (-1)])).2 := by
  refine ⟨[init_event.cons_store ring (-1),
    init_event.cmd (hwrm_cmd.ring_alloc ring_type.CMPL ring c st irq)], ?_,
    stores_first_store_cmd ring c st irq, ?_⟩
  · unfold traced_step
    simp only [hl, hg, List.drop_left, List.map_cons, List.map_nil, List.append_assoc,
      List.singleton_append]
  · simp only [init_cmds]
    exact hl

theorem trace_ok_def_step (K : bnxt_defs) (env : bnxt_env) (t : bnxt_softc × List init_event) :
    trace_ok t (init_def_step_traced K env t).2 := by
  unfold init_def_step_traced def_cp_ring_alloc
  simp only [bnxt_hwrm_ring_alloc_eq]
  exact trace_ok_store_alloc _ def_cons_rewind t _ _ _ _ rfl rfl

theorem karray.at_upd_cons_ring (a : karray bnxt_cp_ring) (i : Nat) (v : Int) :
    ((a.upd i (fun c => { c with raw_cons := v })).at i).ring = (a.at i).ring :=
  karray.at_upd_pred a i i _ (fun c : bnxt_cp_ring => c.ring = (a.at i).ring) (fun h => h) rfl

theorem trace_ok_rx_cp_step (K : bnxt_defs) (env : bnxt_env) (i : Nat)
    (t : bnxt_softc × List init_event) :
    trace_ok t (rx_step_cp_ring_traced K env i t).2 := by
  have hr : ((rx_cons_rewind i t.1).rx_cp_rings.at i).ring = (t.1.rx_cp_rings.at i).ring :=
    karray.at_upd_cons_ring _ _ _
  unfold rx_step_cp_ring_traced rx_cp_ring_alloc
  simp only [bnxt_hwrm_ring_alloc_eq]
  refine trace_ok_store_alloc _ (rx_cons_rewind i) t _ (u16 K.HWRM_NA_SIGNATURE)
    K.HWRM_NA_SIGNATURE true ?_ rfl
  show (rx_cons_rewind i t.1).hwrm_log ++ [hwrm_cmd.ring_alloc ring_type.CMPL
    ((rx_cons_rewind i t.1).rx_cp_rings.at i).ring _ _ _] = _
  rw [hr]
  rfl

theorem trace_ok_tx_cp_step (K : bnxt_defs) (env : bnxt_env) (i : Nat)
    (t : bnxt_softc × List init_event) :
    trace_ok t (tx_step_cp_ring_traced K env i t).2 := by
  have hr : ((tx_cons_rewind i t.1).tx_cp_rings.at i).ring = (t.1.tx_cp_rings.at i).ring :=
    karray.at_upd_cons_ring _ _ _
  unfold tx_step_cp_ring_traced tx_cp_ring_alloc
  simp only [bnxt_hwrm_ring_alloc_eq]
  refine trace_ok_store_alloc _ (tx_cons_rewind i) t _ (u16 K.HWRM_NA_SIGNATURE)
    K.HWRM_NA_SIGNATURE false ?_ rfl
  show (tx_cons_rewind i t.1).hwrm_log ++ [hwrm_cmd.ring_alloc ring_type.CMPL
    ((tx_cons_rewind i t.1).tx_cp_rings.at i).ring _ _ _] = _
  rw [hr]
  rfl

theorem trace_ok_rx_body (K : bnxt_defs) (env : bnxt_env) (i : Nat)
    (t : bnxt_softc × List init_event) : trace_ok t (init_rx_body_traced K env i t).2 := by
  have h := fun u => trace_ok_rx_steps K env i u
  unfold init_rx_body_traced
  refine trace_ok_seq_rc _ _ t (h t).1 (fun u => ?_)
  refine trace_ok_seq_rc _ _ u (trace_ok_rx_cp_step K env i u) (fun u => ?_)
  refine trace_ok_seq_rc _ _ u (h u).2.1 (fun u => ?_)
  refine trace_ok_seq_rc _ _ u (h u).2.2.1 (fun u => ?_)
  refine trace_ok_seq_rc _ _ u (h u).2.2.2.1 (fun u => ?_)
  refine trace_ok_seq_rc _ _ u (h u).2.2.2.2.1 (fun u => ?_)
  refine trace_ok_seq_rc _ _ u (h u).2.2.2.2.2.1 (fun u => ?_)
  exact trace_ok_seq_rc _ _ u (h u).2.2.2.2.2.2.1 (fun u => (h u).2.2.2.2.2.2.2)

theorem trace_ok_tx_body (K : bnxt_defs) (env : bnxt_env) (i : Nat)
    (t : bnxt_softc × List init_event) : trace_ok t (init_tx_body_traced K env i t).2 := by
  unfold init_tx_body_traced
  refine trace_ok_seq_rc _ _ t (trace_ok_tx_steps K env i t).1 (fun u => ?_)
  exact trace_ok_seq_rc _ _ u (trace_ok_tx_cp_step K env i u)
    (fun u => (trace_ok_tx_steps K env i u).2)

theorem trace_ok_init_alloc (K : bnxt_defs) (env : bnxt_env)
    (t : bnxt_softc × List init_event) : trace_ok t (init_alloc_traced K env t).2 := by
  unfold init_alloc_traced
  refine trace_ok_seq_rc _ _ t (trace_ok_def_step K env t) (fun u => ?_)
  refine trace_ok_seq_rc _ _ u (trace_ok_for_rc _ (trace_ok_rx_body K env) _ u) (fun u => ?_)
  exact trace_ok_for_rc _ (trace_ok_tx_body K env) _ u

theorem trace_ok_of_eq {t u : bnxt_softc × List init_event} (h : trace_ok t u)
    (v : bnxt_softc × List init_event) (h1 : v.1.hwrm_log = u.1.hwrm_log) (h2 : v.2 = u.2) :
    trace_ok t v := by
  obtain ⟨w, a, b, c⟩ := h
  exact ⟨w, by rw [h2, a], b, by rw [h1, c]⟩

theorem trace_ok_init_fail (K : bnxt_defs) (env : bnxt_env)
    (t : bnxt_softc × List init_event) : trace_ok t (init_fail_traced K env t) :=
  trace_ok_of_eq (trace_ok_func_reset env t) _ (bnxt_clear_ids_frame K _).1 rfl

/-- The events of `bnxt_init`: their commands are the commands that the call
adds to the log, and every allocation command of a completion ring among them
comes directly after the store of -1 to the raw consumer of that ring. -/
theorem trace_ok_bnxt_init (K : bnxt_defs) (env : bnxt_env) (s : bnxt_softc) :
    trace_ok (s, []) (bnxt_init_traced K env s) := by
  have hr : trace_ok (s, []) (bnxt_clear_ids K
      { s with hwrm_log := s.hwrm_log ++ [hwrm_cmd.func_reset] },
      [init_event.cmd hwrm_cmd.func_reset]) :=
    ⟨[init_event.cmd hwrm_cmd.func_reset], rfl,
      stores_first_cmds [hwrm_cmd.func_reset] (by simp), (bnxt_clear_ids_frame K _).1⟩
  have ha := trace_ok_trans hr (trace_ok_init_alloc K env _)
  rw [bnxt_init_traced_eq]
  by_cases h0 : env.hwrm_rc s.hwrm_log.length = 0
  · rw [if_neg (not_not.mpr h0)]
    by_cases h1 : (init_alloc_traced K env (bnxt_clear_ids K
        { s with hwrm_log := s.hwrm_log ++ [hwrm_cmd.func_reset] },
        [init_event.cmd hwrm_cmd.func_reset])).1 = 0
    · rw [if_neg (not_not.mpr h1)]
      exact trace_ok_of_eq ha _ rfl rfl
    · rw [if_pos h1]
      exact trace_ok_trans ha (trace_ok_init_fail K env _)
  · rw [if_pos h0]
    exact ⟨[init_event.cmd hwrm_cmd.func_reset], rfl,
      stores_first_cmds [hwrm_cmd.func_reset] (by simp), rfl⟩

/-- A command of a completion ring issued before the store to its raw consumer
is not in the order `stores_first`. -/
theorem stores_first_order (ring : bnxt_ring) (c st : Nat) (irq : Bool) :
    ¬ stores_first [init_event.cmd (hwrm_cmd.ring_alloc ring_type.CMPL ring c st irq),
      init_event.cons_store ring (-1)] := by
  intro h
  obtain ⟨j, hj, _⟩ := h 0 ring c st irq rfl
  omega

/-- C18: `bnxt_init` sets the raw consumer of a completion ring to -1 before
it issues the allocation command of that ring, and the raw consumer is -1 on
return.  On return: in every `bnxt_init` whose initial function reset
succeeds, on a device context whose arrays hold the queue-sets, the raw
consumer of a completion ring is -1 as soon as the run got as far as issuing
the allocation command of that ring, whatever the raw consumer was before the
call and whatever the allocation command itself and the commands after it
return.  This holds for the default completion ring always; for the completion
ring of receive queue-set `i` if the commands before its allocation command
succeeded (the function reset, the default ring, the commands of the receive
queue-sets before `i` and the statistics context of `i`); and for the
completion ring of transmit queue-set `i` likewise.  In particular, after a
`bnxt_init` in which all firmware commands succeed, the raw consumer of the
default completion ring, of every receive completion ring and of every
transmit completion ring is -1.  The order: `bnxt_init_traced` is `bnxt_init`
with the list of its events, the commands and the stores to a raw consumer in
the order in which the function performs them; it returns the device context
of `bnxt_init`, the commands among its events are, in this order, the commands
that `bnxt_init` adds to the log, and in every run, whatever the commands
return, every allocation command of a completion ring among the events comes
directly after the store of -1 to the raw consumer of the same ring: the
event before it is that store, so no command is issued between the two. -/
theorem init_rewinds_raw_cons (K : bnxt_defs) (env : bnxt_env) (s : bnxt_softc) :
    (arrays_fit s → env.hwrm_rc s.hwrm_log.length = 0 →
      (bnxt_init K env s).def_cp_ring.raw_cons = -1 ∧
      (∀ i, i < s.nrxqsets →
        (∀ q, q < 2 + sum_upto rx_cmd_count i + 1 → env.hwrm_rc (s.hwrm_log.length + q) = 0) →
        ((bnxt_init K env s).rx_cp_rings.at i).raw_cons = -1) ∧
      (∀ i, i < s.ntxqsets →
        (∀ q, q < 2 + sum_upto rx_cmd_count s.nrxqsets + 3 * i + 1 →
          env.hwrm_rc (s.hwrm_log.length + q) = 0) →
        ((bnxt_init K env s).tx_cp_rings.at i).raw_cons = -1) ∧
      ((∀ q, q < 1 + init_cmd_count s → env.hwrm_rc (s.hwrm_log.length + q) = 0) →
        (∀ i, i < s.nrxqsets → ((bnxt_init K env s).rx_cp_rings.at i).raw_cons = -1) ∧
        (∀ i, i < s.ntxqsets → ((bnxt_init K env s).tx_cp_rings.at i).raw_cons = -1))) ∧
    (bnxt_init_traced K env s).1 = bnxt_init K env s ∧
    (bnxt_init K env s).hwrm_log = s.hwrm_log ++ init_cmds (bnxt_init_traced K env s).2 ∧
    (∀ (k : Nat) (ring : bnxt_ring) (c st : Nat) (irq : Bool),
      (bnxt_init_traced K env s).2[k]? =
        some (init_event.cmd (hwrm_cmd.ring_alloc ring_type.CMPL ring c st irq)) →
      ∃ j, k = j + 1 ∧
        (bnxt_init_traced K env s).2[j]? = some (init_event.cons_store ring (-1))) := by
  obtain ⟨w, a, b, c⟩ := trace_ok_bnxt_init K env s
  have a2 : (bnxt_init_traced K env s).2 = w := by
    rw [a]
    exact List.nil_append w
  have e := bnxt_init_traced_erase K env s
  refine ⟨?_, e, by rw [a2, ← e]; exact c, by rw [a2]; exact b⟩
  intro hfit h0
  obtain ⟨f1, _, _, _, _, f6, _⟩ := hfit
  have hc := cons_kept_clear_ids K { s with hwrm_log := s.hwrm_log ++ [hwrm_cmd.func_reset] }
  have cl : (bnxt_clear_ids K
      { s with hwrm_log := s.hwrm_log ++ [hwrm_cmd.func_reset] }).hwrm_log =
      s.hwrm_log ++ [hwrm_cmd.func_reset] := (bnxt_clear_ids_frame K _).1
  have cn : (bnxt_clear_ids K
      { s with hwrm_log := s.hwrm_log ++ [hwrm_cmd.func_reset] }).nrxqsets = s.nrxqsets :=
    (bnxt_clear_ids_frame K _).2.1
  have ct : (bnxt_clear_ids K
      { s with hwrm_log := s.hwrm_log ++ [hwrm_cmd.func_reset] }).ntxqsets = s.ntxqsets :=
    (bnxt_clear_ids_frame K _).2.2.1
  have hlr : (bnxt_clear_ids K
      { s with hwrm_log := s.hwrm_log ++ [hwrm_cmd.func_reset] }).rx_cp_rings.elems.length =
      s.rx_cp_rings.elems.length := hc.2.2.2.1
  have hlt : (bnxt_clear_ids K
      { s with hwrm_log := s.hwrm_log ++ [hwrm_cmd.func_reset] }).tx_cp_rings.elems.length =
      s.tx_cp_rings.elems.length := hc.2.2.2.2
  have hfin : cons_kept (init_alloc K env (bnxt_clear_ids K
      { s with hwrm_log := s.hwrm_log ++ [hwrm_cmd.func_reset] })).2 (bnxt_init K env s) := by
    rw [bnxt_init_eq]
    simp only [h0, ne_eq, not_true_eq_false, if_false]
    split_ifs
    · exact ⟨id, fun _ => id, fun _ => id, rfl, rfl⟩
    · exact cons_kept_init_fail K env _
  obtain ⟨a1, a2, a3⟩ := init_alloc_rewinds K env (bnxt_clear_ids K
    { s with hwrm_log := s.hwrm_log ++ [hwrm_cmd.func_reset] })
  generalize bnxt_clear_ids K { s with hwrm_log := s.hwrm_log ++ [hwrm_cmd.func_reset] } = c
    at hc cl cn ct hlr hlt hfin a1 a2 a3
  have hlen : c.hwrm_log.length = s.hwrm_log.length + 1 := by rw [cl]; simp
  have hrx : ∀ i, i < s.nrxqsets →
      (∀ q, q < 2 + sum_upto rx_cmd_count i + 1 → env.hwrm_rc (s.hwrm_log.length + q) = 0) →
      ((bnxt_init K env s).rx_cp_rings.at i).raw_cons = -1 := by
    intro i hi hok
    refine hfin.2.1 i (a2 i (by rw [cn]; exact hi) ?_ ?_)
    · rw [hlr]
      exact Nat.lt_of_lt_of_le hi f1
    · intro q hq
      rw [hlen, Nat.add_assoc]
      exact hok (1 + q) (by omega)
  have htx : ∀ i, i < s.ntxqsets →
      (∀ q, q < 2 + sum_upto rx_cmd_count s.nrxqsets + 3 * i + 1 →
        env.hwrm_rc (s.hwrm_log.length + q) = 0) →
      ((bnxt_init K env s).tx_cp_rings.at i).raw_cons = -1 := by
    intro i hi hok
    refine hfin.2.2.1 i (a3 i (by rw [ct]; exact hi) ?_ ?_)
    · rw [hlt]
      exact Nat.lt_of_lt_of_le hi f6
    · intro q hq
      rw [cn] at hq
      rw [hlen, Nat.add_assoc]
      exact hok (1 + q) (by omega)
  refine ⟨hfin.1 a1, hrx, htx, ?_⟩
  intro hall
  constructor
  · intro i hi
    refine hrx i hi (fun q hq => hall q ?_)
    have := sum_upto_le rx_cmd_count (i + 1) s.nrxqsets (by omega)
    have h8 : 8 ≤ rx_cmd_count i := by
      unfold rx_cmd_count
      split_ifs <;> omega
    unfold init_cmd_count
    rw [sum_upto] at this
    omega
  · intro i hi
    refine htx i hi (fun q hq => hall q ?_)
    unfold init_cmd_count
    rw [sum_upto_const]
    omega

/-- Witness of C18: on a freshly allocated device with one transmit and two
receive queue-sets, whose raw consumers are 0, the allocation of the
completion ring of receive queue-set 1 (command number 17 on the channel)
fails; the raw consumer of that ring is -1 all the same.  The run has 17
events; the allocation command of that ring is event 15 and the event before
it, event 14, is the store of -1 to the raw consumer of that ring. -/
theorem init_rewinds_raw_cons_witness :
    arrays_fit (softc_alloc 1 2) ∧
    (env_hwrm_fail 17 5).hwrm_rc (softc_alloc 1 2).hwrm_log.length = 0 ∧
    (∀ q, q < 2 + sum_upto rx_cmd_count 1 + 1 →
      (env_hwrm_fail 17 5).hwrm_rc ((softc_alloc 1 2).hwrm_log.length + q) = 0) ∧
    (env_hwrm_fail 17 5).hwrm_rc
      ((softc_alloc 1 2).hwrm_log.length + (2 + sum_upto rx_cmd_count 1 + 1)) ≠ 0 ∧
    ((softc_alloc 1 2).rx_cp_rings.at 1).raw_cons = 0 ∧
    (bnxt_init defs0 (env_hwrm_fail 17 5) (softc_alloc 1 2)).def_cp_ring.raw_cons = -1 ∧
    ((bnxt_init defs0 (env_hwrm_fail 17 5) (softc_alloc 1 2)).rx_cp_rings.at 1).raw_cons = -1 ∧
    (bnxt_init_traced defs0 (env_hwrm_fail 17 5) (softc_alloc 1 2)).2.length = 17 ∧
    (bnxt_init_traced defs0 (env_hwrm_fail 17 5) (softc_alloc 1 2)).2[15]? =
      some (init_event.cmd (hwrm_cmd.ring_alloc ring_type.CMPL
        ((softc_alloc 1 2).rx_cp_rings.at 1).ring 65535 4294967295 true)) ∧
    (∃ j, 15 = j + 1 ∧
      (bnxt_init_traced defs0 (env_hwrm_fail 17 5) (softc_alloc 1 2)).2[j]? =
        some (init_event.cons_store ((softc_alloc 1 2).rx_cp_rings.at 1).ring (-1))) := by
  have h := init_rewinds_raw_cons defs0 (env_hwrm_fail 17 5) (softc_alloc 1 2)
  have h1 := h.1 arrays_fit_softc_alloc (by decide)
  exact ⟨arrays_fit_softc_alloc, by decide, by decide, by decide, by decide, h1.1,
    h1.2.1 1 (by decide) (by decide), by decide, by decide,
    h.2.2.2 15 ((softc_alloc 1 2).rx_cp_rings.at 1).ring 65535 4294967295 true (by decide)⟩


/-! ## Teardown -/

/-- C16, evaluated: after attach and the allocation of one transmit and two
receive queue-sets, `bnxt_queues_free` resets `ntxqsets` to 0 and the two
transmit array pointers to `NULL` and releases both statistics buffers, but
on the receive side it only releases: `nrxqsets` is still 2 and
`rx_cp_rings`, `rx_rings`, `ag_rings`, `grp_info` and `vnic_info` still hold
the addresses 6 to 10 of the arrays, which are no longer allocated.  The two
multicast list buffers (12 and 13) are still allocated, as is the ring memory
of the default completion ring (2), which `bnxt_detach` releases. -/
theorem queues_free_keeps_rx_references :
    (softc_alloc 1 2).ntxqsets = 1 ∧ (softc_alloc 1 2).nrxqsets = 2 ∧
    softc_freed.ntxqsets = 0 ∧ softc_freed.tx_cp_rings.addr = 0 ∧ softc_freed.tx_rings.addr = 0 ∧
    softc_freed.tx_stats.idi_vaddr = 0 ∧ softc_freed.rx_stats.idi_vaddr = 0 ∧
    softc_freed.nrxqsets = 2 ∧
    [softc_freed.rx_cp_rings.addr, softc_freed.rx_rings.addr, softc_freed.ag_rings.addr,
      softc_freed.grp_info.addr, softc_freed.vnic_info.addr] = [6, 7, 8, 9, 10] ∧
    (∀ a ∈ [6, 7, 8, 9, 10], a ∉ softc_freed.mem.live) ∧
    softc_freed.mem.live = [13, 12, 2] ∧
    ((softc_alloc 1 2).vnic_info.at 0).mc_list.idi_vaddr = 12 ∧
    ((softc_alloc 1 2).vnic_info.at 1).mc_list.idi_vaddr = 13 := by
  decide


end Bnxt
